import Mathlib

/-!
# The configuration registry of ep-engine (`src/src/configuration.cc`)

A shallow embedding of `Configuration`: the attribute map, the typed getters,
the `setParameter` overloads, listener and validator registration and the
statistics output, followed by the properties proved about them.

Conventions of the embedding.

* The registry is a `std::map<std::string, value_t>`; it is a list of
  `(key, value_t)` pairs kept in ascending key order, which is the order in
  which the C++ code iterates over it. Keys are parameter names, strings
  without a NUL character, so `c_str()` of a key is the key.
* A `const char*` is an `Option String`: `none` is the null pointer and
  `some s` points at the C string `s`.
* A `float` is represented by its bit pattern; the registry only stores,
  returns and prints floats.
* A listener is a pointer; only its identity matters, so it is a number. The
  callbacks a call makes are returned as a list, first call first. A
  validator is the five predicates it implements; `false` means that the
  validator throws.
* The mutex is not modelled: every function is the sequential behaviour of
  one call.
-/

namespace EpEngine

/-- The `config_datatype` enumeration the source switches over. -/
inductive config_datatype
  | DT_SIZE
  | DT_SSIZE
  | DT_FLOAT
  | DT_BOOL
  | DT_STRING
  | DT_CONFIGFILE
  deriving DecidableEq, Repr

open config_datatype

/-- A C `float`, by its bit pattern. The value `0` of the source is the
pattern `0`. -/
structure float where
  bits : Nat
  deriving DecidableEq, Repr

/-- Modelled from the spec: the member `val` of an attribute record, whose
declaration (configuration.h) is not among the sources. The source reads and
writes its members `v_size`, `v_ssize`, `v_float`, `v_bool` and `v_string`;
the spec calls it "a tagged value (bool, signed int, unsigned int, float,
string) with dynamic type tag". It is a union: it holds the member written
last. -/
inductive val_t
  | v_size (n : Nat)
  | v_ssize (i : Int)
  | v_float (f : float)
  | v_bool (b : Bool)
  | v_string (s : Option String)
  deriving DecidableEq, Repr

/-- Read `val.v_size`. Reading the member written last gives what was written;
a null `v_string` is the all-zero word and reads as zero (the spec: "reads of
`cache_size` return 0 even after a set"); any other read of a member that was
not the last one written has no defined result. -/
def val_t.get_size : val_t → Option Nat
  | .v_size n => some n
  | .v_string none => some 0
  | _ => none

/-- Read `val.v_ssize`; see `val_t.get_size`. -/
def val_t.get_ssize : val_t → Option Int
  | .v_ssize i => some i
  | .v_string none => some 0
  | _ => none

/-- Read `val.v_float`; see `val_t.get_size`. -/
def val_t.get_float : val_t → Option float
  | .v_float f => some f
  | .v_string none => some ⟨0⟩
  | _ => none

/-- Read `val.v_bool`; see `val_t.get_size`. -/
def val_t.get_bool : val_t → Option Bool
  | .v_bool b => some b
  | .v_string none => some false
  | _ => none

/-- Read `val.v_string`: a pointer, possibly null, when the member written
last is `v_string`; otherwise the bits are not a pointer to a string. -/
def val_t.get_string : val_t → Option (Option String)
  | .v_string s => some s
  | _ => none

/-- A `ValueChangedListener*`: the identity of the listener object. -/
abbrev ValueChangedListener := Nat

/-- A `ValueChangedValidator`: one predicate per `validate...` method, `true`
when the method returns and `false` when it throws. -/
structure ValueChangedValidator where
  validateBool : String → Bool → Bool
  validateSize : String → Nat → Bool
  validateSSize : String → Int → Bool
  validateFloat : String → float → Bool
  validateString : String → Option String → Bool

/-- Modelled from the spec: the attribute record `value_t`, whose declaration
(configuration.h) is not among the sources: "a tagged value ... with dynamic
type tag; an optional validator; an insertion-ordered list of listeners".
The source uses the members `changeListener`, `validator`, `datatype` and
`val`. `datatype` is `none` as long as no statement has assigned it. -/
structure value_t where
  changeListener : List ValueChangedListener
  validator : Option ValueChangedValidator
  datatype : Option config_datatype
  val : val_t

/-- Modelled from the spec: the record that `attributes[key]` creates for an
absent key; the constructor of `value_t` (configuration.h) is not among the
sources. The list of listeners is empty and the optional validator absent.
`val` is the null `v_string`, the all-zero word: "reads of `cache_size`
return 0 even after a set". `datatype` has not been assigned: no statement of
the source relies on a default tag, every setter assigns the tag of the key
it creates. -/
def value_t.fresh : value_t :=
  { changeListener := [], validator := none, datatype := none, val := .v_string none }

/-- The failures of a call. `KindMismatch` is the `std::invalid_argument` of
the getters, `ValidationError` the exception of a validator,
`InvariantViolation` the `std::logic_error` of `parseConfiguration`.
`Undefined` marks a step whose result the language does not define: a read of
a union member or of a tag that was never written, a null pointer sent to a
stream, `cb_free` of a word that is not a pointer. -/
inductive Error
  | KindMismatch
  | ValidationError
  | InvariantViolation
  | Undefined
  deriving DecidableEq, Repr

deriving instance DecidableEq for Except

/-- The registry: the `attributes` map of `Configuration`. -/
structure Configuration where
  attributes : List (String × value_t)

/-- The function `attributes.find(key)`: the record stored under `key`, or
`none` for `attributes.end()`. -/
def find : List (String × value_t) → String → Option value_t
  | [], _ => none
  | (k, a) :: m, key => if k = key then some a else find m key

/-- Lexicographic comparison of two character sequences, the shorter of two
sequences that agree being the smaller. -/
def lessChars : List Char → List Char → Bool
  | _, [] => false
  | [], _ :: _ => true
  | x :: xs, y :: ys =>
    if x.toNat < y.toNat then true
    else if y.toNat < x.toNat then false
    else lessChars xs ys

/-- The ordering `std::less<std::string>` of the map's keys. -/
def less (k1 k2 : String) : Bool := lessChars k1.data k2.data

/-- Insertion of a new key into the map, before the first larger key. -/
def insertSorted (key : String) (a : value_t) : List (String × value_t) → List (String × value_t)
  | [] => [(key, a)]
  | (k, b) :: m =>
    if less key k then (key, a) :: (k, b) :: m else (k, b) :: insertSorted key a m

/-- The map after evaluating `attributes[key]`: an absent key is created with
a fresh record. -/
def subscript (m : List (String × value_t)) (key : String) : List (String × value_t) :=
  match find m key with
  | some _ => m
  | none => insertSorted key value_t.fresh m

/-- Apply `f` to the record stored under `key`. -/
def modify (key : String) (f : value_t → value_t) : List (String × value_t) → List (String × value_t)
  | [] => []
  | (k, a) :: m => if k = key then (k, f a) :: m else (k, a) :: modify key f m

/-- The statement `attributes[key].member = ...`: create the key if it is
absent, then change its record by `f`. -/
def assign (m : List (String × value_t)) (key : String) (f : value_t → value_t) :
    List (String × value_t) :=
  modify key f (subscript m key)

/-- The value of the expression `attributes[key]` in a map that holds `key`
(the record read after `subscript`). -/
def fetch (m : List (String × value_t)) (key : String) : value_t :=
  (find m key).getD value_t.fresh

/-- The representation invariant of `std::map`: keys strictly ascending. -/
def sortedKeys (m : List (String × value_t)) : Prop :=
  List.Pairwise (fun p q => less p.1 q.1 = true) m

/-! ## Getters -/

/-- `Configuration::getString`. -/
def getString (c : Configuration) (key : String) : Except Error String :=
  match find c.attributes key with
  | none => .ok ""
  | some a =>
    match a.datatype with
    | none => .error .Undefined
    | some t =>
      if t ≠ DT_STRING then .error .KindMismatch
      else
        match a.val.get_string with
        | none => .error .Undefined
        | some (some s) => .ok s
        | some none => .ok ""

/-- `Configuration::getBool`. -/
def getBool (c : Configuration) (key : String) : Except Error Bool :=
  match find c.attributes key with
  | none => .ok false
  | some a =>
    match a.datatype with
    | none => .error .Undefined
    | some t =>
      if t ≠ DT_BOOL then .error .KindMismatch
      else
        match a.val.get_bool with
        | none => .error .Undefined
        | some b => .ok b

/-- `Configuration::getFloat`. -/
def getFloat (c : Configuration) (key : String) : Except Error float :=
  match find c.attributes key with
  | none => .ok ⟨0⟩
  | some a =>
    match a.datatype with
    | none => .error .Undefined
    | some t =>
      if t ≠ DT_FLOAT then .error .KindMismatch
      else
        match a.val.get_float with
        | none => .error .Undefined
        | some f => .ok f

/-- `Configuration::getInteger`. -/
def getInteger (c : Configuration) (key : String) : Except Error Nat :=
  match find c.attributes key with
  | none => .ok 0
  | some a =>
    match a.datatype with
    | none => .error .Undefined
    | some t =>
      if t ≠ DT_SIZE then .error .KindMismatch
      else
        match a.val.get_size with
        | none => .error .Undefined
        | some n => .ok n

/-- `Configuration::getSignedInteger`. -/
def getSignedInteger (c : Configuration) (key : String) : Except Error Int :=
  match find c.attributes key with
  | none => .ok 0
  | some a =>
    match a.datatype with
    | none => .error .Undefined
    | some t =>
      if t ≠ DT_SSIZE then .error .KindMismatch
      else
        match a.val.get_ssize with
        | none => .error .Undefined
        | some i => .ok i

/-! ## Setters -/

/-- One callback made on a listener: the listener, the method, and the key
and value passed. -/
inductive Call
  | booleanValueChanged (l : ValueChangedListener) (key : String) (value : Bool)
  | sizeValueChanged (l : ValueChangedListener) (key : String) (value : Nat)
  | floatValueChanged (l : ValueChangedListener) (key : String) (value : float)
  | stringValueChanged (l : ValueChangedListener) (key : String) (value : Option String)
  deriving DecidableEq, Repr

/-- The listener on which a callback is made. -/
def Call.listener : Call → ValueChangedListener
  | .booleanValueChanged l _ _ => l
  | .sizeValueChanged l _ _ => l
  | .floatValueChanged l _ _ => l
  | .stringValueChanged l _ _ => l

/-- The key passed to a callback. -/
def Call.key : Call → String
  | .booleanValueChanged _ k _ => k
  | .sizeValueChanged _ k _ => k
  | .floatValueChanged _ k _ => k
  | .stringValueChanged _ k _ => k

/-- What a `setParameter` call leaves behind: the registry after the call, the
listener callbacks it made in order, and the exception it threw, if any. -/
structure Result where
  config : Configuration
  calls : List Call
  error : Option Error

/-- The head of every `setParameter`: `attributes.find(key)`, and when the key
is there and has a validator, the `validate...` call `check`. The result is
`true` when that call throws. -/
def validatorThrows (m : List (String × value_t)) (key : String)
    (check : ValueChangedValidator → Bool) : Bool :=
  match find m key with
  | none => false
  | some a =>
    match a.validator with
    | none => false
    | some v => !check v

/-- The conversion of an `ssize_t` argument to the parameter of
`sizeValueChanged`, which has the type `size_t` of the argument that the
`size_t` overload passes to it, on a 64-bit target. -/
def size_t_of_ssize_t (i : Int) : Nat := (i % 2 ^ 64).toNat

/-- `Configuration::setParameter(const std::string&, bool)`. -/
def setParameter_bool (c : Configuration) (key : String) (value : Bool) : Result :=
  if validatorThrows c.attributes key (fun v => v.validateBool key value) then
    { config := c, calls := [], error := some .ValidationError }
  else
    let m1 := assign c.attributes key (fun a => { a with datatype := some DT_BOOL })
    let m2 := assign m1 key (fun a => { a with val := .v_bool value })
    let m3 := subscript m2 key
    let copy := (fetch m3 key).changeListener
    { config := ⟨m3⟩, calls := copy.map (fun l => .booleanValueChanged l key value),
      error := none }

/-- `Configuration::setParameter(const std::string&, size_t)`. -/
def setParameter_size_t (c : Configuration) (key : String) (value : Nat) : Result :=
  if validatorThrows c.attributes key (fun v => v.validateSize key value) then
    { config := c, calls := [], error := some .ValidationError }
  else
    let m1 := assign c.attributes key (fun a => { a with datatype := some DT_SIZE })
    let m2 :=
      if key = "cache_size" then
        assign m1 "max_size" (fun a => { a with val := .v_size value })
      else
        assign m1 key (fun a => { a with val := .v_size value })
    let m3 := subscript m2 key
    let copy := (fetch m3 key).changeListener
    { config := ⟨m3⟩, calls := copy.map (fun l => .sizeValueChanged l key value),
      error := none }

/-- `Configuration::setParameter(const std::string&, ssize_t)`. The listeners
are called through `sizeValueChanged`, as in the source. -/
def setParameter_ssize_t (c : Configuration) (key : String) (value : Int) : Result :=
  if validatorThrows c.attributes key (fun v => v.validateSSize key value) then
    { config := c, calls := [], error := some .ValidationError }
  else
    let m1 := assign c.attributes key (fun a => { a with datatype := some DT_SSIZE })
    let m2 :=
      if key = "cache_size" then
        assign m1 "max_size" (fun a => { a with val := .v_ssize value })
      else
        assign m1 key (fun a => { a with val := .v_ssize value })
    let m3 := subscript m2 key
    let copy := (fetch m3 key).changeListener
    { config := ⟨m3⟩,
      calls := copy.map (fun l => .sizeValueChanged l key (size_t_of_ssize_t value)),
      error := none }

/-- `Configuration::setParameter(const std::string&, float)`. -/
def setParameter_float (c : Configuration) (key : String) (value : float) : Result :=
  if validatorThrows c.attributes key (fun v => v.validateFloat key value) then
    { config := c, calls := [], error := some .ValidationError }
  else
    let m1 := assign c.attributes key (fun a => { a with datatype := some DT_FLOAT })
    let m2 := assign m1 key (fun a => { a with val := .v_float value })
    let m3 := subscript m2 key
    let copy := (fetch m3 key).changeListener
    { config := ⟨m3⟩, calls := copy.map (fun l => .floatValueChanged l key value),
      error := none }

/-- The test `attributes.find(key) != attributes.end() &&
attributes[key].datatype == DT_STRING` followed by `cb_free` of the old
string, in the `const char*` setter: `some true` when the old pointer is
freed, `some false` when nothing is freed, and `none` when the step has no
defined result (the tag was never assigned, or the word freed is not a
pointer). -/
def freesOldString (m : List (String × value_t)) (key : String) : Option Bool :=
  match find m key with
  | none => some false
  | some a =>
    match a.datatype with
    | none => none
    | some t =>
      if t = DT_STRING then
        match a.val.get_string with
        | none => none
        | some _ => some true
      else some false

/-- `Configuration::setParameter(const std::string&, const char*)`. -/
def setParameter_cstr (c : Configuration) (key : String) (value : Option String) : Result :=
  if validatorThrows c.attributes key (fun v => v.validateString key value) then
    { config := c, calls := [], error := some .ValidationError }
  else
    match freesOldString c.attributes key with
    | none => { config := c, calls := [], error := some .Undefined }
    | some _ =>
      let m1 := assign c.attributes key (fun a => { a with datatype := some DT_STRING })
      let m2 := assign m1 key (fun a => { a with val := .v_string none })
      let m3 :=
        match value with
        | none => m2
        | some s => assign m2 key (fun a => { a with val := .v_string (some s) })
      let m4 := subscript m3 key
      let copy := (fetch m4 key).changeListener
      { config := ⟨m4⟩, calls := copy.map (fun l => .stringValueChanged l key value),
        error := none }

/-- The C string `value.c_str()` of a `std::string`: the characters before
the first NUL. -/
def c_str (value : String) : String :=
  String.mk (value.data.takeWhile (fun ch => ch ≠ Char.ofNat 0))

/-- `Configuration::setParameter(const std::string&, const std::string&)`. -/
def setParameter_string (c : Configuration) (key : String) (value : String) : Result :=
  if value.length = 0 then setParameter_cstr c key none
  else setParameter_cstr c key (some (c_str value))

/-! ## Listeners and validators -/

/-- `Configuration::addValueChangedListener`. -/
def addValueChangedListener (c : Configuration) (key : String) (val : ValueChangedListener) :
    Configuration :=
  match find c.attributes key with
  | none => c
  | some _ =>
    ⟨assign c.attributes key (fun a => { a with changeListener := a.changeListener ++ [val] })⟩

/-- `Configuration::setValueValidator`: the validator returned (`none` is
`nullptr`) and the registry after the call. -/
def setValueValidator (c : Configuration) (key : String)
    (validator : Option ValueChangedValidator) :
    Option ValueChangedValidator × Configuration :=
  match find c.attributes key with
  | none => (none, c)
  | some _ =>
    let ret := (fetch (subscript c.attributes key) key).validator
    (ret, ⟨assign (subscript c.attributes key) key (fun a => { a with validator := validator })⟩)

/-! ## Statistics and printing -/

/-- The text that `value << ...` leaves in the stream of `addStats` for one
attribute; `none` when the step is not defined. `fmt` is the stream output of
a `float`. -/
def statValue (fmt : float → String) (a : value_t) : Option String :=
  match a.datatype with
  | none => none
  | some DT_BOOL => (a.val.get_bool).map (fun b => if b then "true" else "false")
  | some DT_STRING =>
    match a.val.get_string with
    | some (some s) => some s
    | _ => none
  | some DT_SIZE => (a.val.get_size).map (fun n => toString n)
  | some DT_SSIZE => (a.val.get_ssize).map (fun i => toString i)
  | some DT_FLOAT => (a.val.get_float).map fmt
  | some DT_CONFIGFILE => some ""

/-- Modelled from the spec: `add_casted_stat` (statwriter.h, not among the
sources) hands the name and the value to the callback `add_stat` once:
"emitting `ep_<key> = <value>` strings through an external callback". The
result is the entry the callback receives. -/
def add_casted_stat (k : String) (v : String) : String × String := (k, v)

/-- The loop of `Configuration::addStats` over the attributes in map order:
the entries handed to `add_stat`, first first. -/
def addStatsLoop (fmt : float → String) : List (String × value_t) → Option (List (String × String))
  | [] => some []
  | (k, a) :: m =>
    match statValue fmt a with
    | none => none
    | some v =>
      match addStatsLoop fmt m with
      | none => none
      | some rest => some (add_casted_stat ("ep_" ++ k) v :: rest)

/-- `Configuration::addStats`. -/
def addStats (fmt : float → String) (c : Configuration) : Option (List (String × String)) :=
  addStatsLoop fmt c.attributes

/-- One round of the loop of `operator<<`: `none` when the step has no
result, `some none` for `continue`, `some (some line)` for the line written
to `out`. -/
def printAttribute (fmt : float → String) (k : String) (a : value_t) : Option (Option String) :=
  match a.datatype with
  | none => none
  | some DT_BOOL =>
    (a.val.get_bool).map (fun b => some (k ++ " = [" ++ (if b then "true" else "false") ++ "]\n"))
  | some DT_STRING =>
    match a.val.get_string with
    | some (some s) => some (some (k ++ " = [" ++ s ++ "]\n"))
    | _ => none
  | some DT_SIZE => (a.val.get_size).map (fun n => some (k ++ " = [" ++ toString n ++ "]\n"))
  | some DT_SSIZE => (a.val.get_ssize).map (fun i => some (k ++ " = [" ++ toString i ++ "]\n"))
  | some DT_FLOAT => (a.val.get_float).map (fun f => some (k ++ " = [" ++ fmt f ++ "]\n"))
  | some DT_CONFIGFILE => some none

/-- The loop of `operator<<(std::ostream&, const Configuration&)`: the lines
written to `out`, in order. -/
def printLoop (fmt : float → String) : List (String × value_t) → Option (List String)
  | [] => some []
  | (k, a) :: m =>
    match printAttribute fmt k a with
    | none => none
    | some line =>
      match printLoop fmt m with
      | none => none
      | some rest => some (line.toList ++ rest)

/-- `operator<<(std::ostream&, const Configuration&)`. -/
def operator_lshift (fmt : float → String) (c : Configuration) : Option (List String) :=
  printLoop fmt c.attributes

/-! ## Vocabulary of the statements -/

/-- The listeners registered on `key`, in the order of the `changeListener`
vector; none for an absent key. -/
def listenersOf (c : Configuration) (key : String) : List ValueChangedListener :=
  (fetch c.attributes key).changeListener

/-- The stored tag of `key`, when the registry holds `key` and its tag has
been assigned. -/
def tagOf (c : Configuration) (key : String) : Option config_datatype :=
  (find c.attributes key).bind (fun a => a.datatype)

/-- A value of one of the five kinds. -/
inductive Stored
  | bool (b : Bool)
  | string (s : String)
  | unsigned (n : Nat)
  | signed (i : Int)
  | float (f : float)
  deriving DecidableEq, Repr

/-- The value an attribute holds: its tag is one of the five kinds and `val`
holds a value of that kind, for a string a pointer that is not null. An
attribute with the config-file tag, with a tag never assigned, with a null
string or with a `val` that does not hold its tag's kind has none. -/
def value_t.stored (a : value_t) : Option Stored :=
  match a.datatype with
  | some DT_BOOL => (a.val.get_bool).map Stored.bool
  | some DT_STRING =>
    match a.val.get_string with
    | some (some s) => some (Stored.string s)
    | _ => none
  | some DT_SIZE => (a.val.get_size).map Stored.unsigned
  | some DT_SSIZE => (a.val.get_ssize).map Stored.signed
  | some DT_FLOAT => (a.val.get_float).map Stored.float
  | _ => none

/-- The decimal numeral of a natural number. -/
def decimal (n : Nat) : String := String.mk (Nat.toDigits 10 n)

/-- The rendering of a value in the words of the spec: a bool as `true` or
`false`, an integer in decimal, a string verbatim; a float as the stream
prints it (`fmt`). -/
def rendering (fmt : float → String) : Stored → String
  | .bool true => "true"
  | .bool false => "false"
  | .string s => s
  | .unsigned n => decimal n
  | .signed i => if i < 0 then "-" ++ decimal (-i).toNat else decimal i.toNat
  | .float f => fmt f

/-- The entry the spec describes for an attribute: the name `ep_` followed by
the key, and the rendering of the value the attribute holds. -/
def statEntry (fmt : float → String) (p : String × value_t) : String × String :=
  ("ep_" ++ p.1, ((p.2).stored.map (rendering fmt)).getD "")

/-- The validator installed on `key`; none when the key is absent or has no
validator. -/
def validatorOf (c : Configuration) (key : String) : Option ValueChangedValidator :=
  (find c.attributes key).bind (fun a => a.validator)

/-! ## Parsing a configuration string -/

/-- One `config_item` of the array that `parseConfiguration` hands to the
parser: its `key` and its `datatype`. The two members the parser fills,
`found` and the slot behind `value`, are the `ParseOutcome`. -/
structure config_item where
  key : String
  datatype : config_datatype
  deriving DecidableEq, Repr

/-- What `sapi->core->parse_config` leaves behind: its return value, and for
the items of the array, by position, the `found` flag and the content of the
slot behind the `value` pointer (a null `holder` as long as the parser has
not written it). An item beyond the end of `marks` has not been found. -/
structure ParseOutcome where
  ret : Int
  marks : List (Bool × val_t)

/-- The first loop of `parseConfiguration`: a `ConfigItem` for each attribute,
in map order, with the key and the stored tag; `none` when an attribute has a
tag that was never assigned. -/
def configItems : List (String × value_t) → Option (List config_item)
  | [] => some []
  | (k, a) :: m =>
    match a.datatype with
    | none => none
    | some t =>
      match configItems m with
      | none => none
      | some rest => some (⟨k, t⟩ :: rest)

/-- The item `ConfigItem("cache_size", DT_SIZE)`. -/
def cacheSizeItem : config_item := { key := "cache_size", datatype := DT_SIZE }

/-- The item `ConfigItem("config_file", DT_CONFIGFILE)`. -/
def configFileItem : config_item := { key := "config_file", datatype := DT_CONFIGFILE }

/-- The array offered to the parser: the items of the attributes, then the
alias `cache_size` as a size, then `config_file`. -/
def offeredItems (config : List config_item) : List config_item :=
  config ++ [cacheSizeItem, configFileItem]

/-- The `switch` of `parseConfiguration` for an item that was found, after a
successful parse: the `setParameter` overload of the item's datatype, with
the value read from the item's slot through the pointer of that datatype. -/
def setFound (c : Configuration) (item : config_item) (slot : val_t) : Result :=
  match item.datatype with
  | DT_STRING =>
    match slot.get_string with
    | none => { config := c, calls := [], error := some .Undefined }
    | some s => setParameter_cstr c item.key s
  | DT_SIZE =>
    match slot.get_size with
    | none => { config := c, calls := [], error := some .Undefined }
    | some n => setParameter_size_t c item.key n
  | DT_SSIZE =>
    match slot.get_ssize with
    | none => { config := c, calls := [], error := some .Undefined }
    | some i => setParameter_ssize_t c item.key i
  | DT_BOOL =>
    match slot.get_bool with
    | none => { config := c, calls := [], error := some .Undefined }
    | some b => setParameter_bool c item.key b
  | DT_FLOAT =>
    match slot.get_float with
    | none => { config := c, calls := [], error := some .Undefined }
    | some f => setParameter_float c item.key f
  | DT_CONFIGFILE => { config := c, calls := [], error := some .InvariantViolation }

/-- What a `parseConfiguration` call leaves behind: the registry, the listener
callbacks made, the exception thrown if any, and the value returned when
there is none. -/
structure ParseResult where
  config : Configuration
  calls : List Call
  error : Option Error
  ret : Bool

/-- The second loop of `parseConfiguration` over the items as the parser left
them (item, `found`, slot): every item that was found is applied when the
parse succeeded (`ret`); the first exception ends the loop. -/
def parseLoop (ret : Bool) :
    List (config_item × Bool × val_t) → Configuration → List Call → ParseResult
  | [], c, calls => { config := c, calls := calls, error := none, ret := ret }
  | (item, found, slot) :: rest, c, calls =>
    if found then
      if ret then
        match (setFound c item slot).error with
        | some e =>
          { config := (setFound c item slot).config,
            calls := calls ++ (setFound c item slot).calls,
            error := some e, ret := ret }
        | none =>
          parseLoop ret rest (setFound c item slot).config
            (calls ++ (setFound c item slot).calls)
      else parseLoop ret rest c calls
    else parseLoop ret rest c calls

/-- The array `items` after the call of the parser: each item offered, with
the `found` flag and the slot the parser left for it. -/
def itemsAfterParse (config : List config_item) (o : ParseOutcome) :
    List (config_item × Bool × val_t) :=
  (offeredItems config).zip o.marks

/-- `Configuration::parseConfiguration`. The parser `sapi->core->parse_config`
is the function `sapi` of the string and the array offered. -/
def parseConfiguration (c : Configuration) (str : String)
    (sapi : String → List config_item → ParseOutcome) : ParseResult :=
  match configItems c.attributes with
  | none => { config := c, calls := [], error := some .Undefined, ret := false }
  | some config =>
    parseLoop (decide ((sapi str (offeredItems config)).ret = 0))
      (itemsAfterParse config (sapi str (offeredItems config))) c []

/-- The items the parser marked found, in the order of the array, each with
the value parsed into its slot. -/
def foundItems (l : List (config_item × Bool × val_t)) : List (config_item × val_t) :=
  (l.filter (fun e => e.2.1)).map (fun e => (e.1, e.2.2))

/-- The `set<Kind>` calls for a list of items with their parsed values, made
one after the other until one throws: the registry and the callbacks of the
calls made, and the exception of the last one, if it threw. -/
def applySets : List (config_item × val_t) → Configuration → List Call → Result
  | [], c, calls => { config := c, calls := calls, error := none }
  | (item, slot) :: rest, c, calls =>
    match (setFound c item slot).error with
    | some e =>
      { config := (setFound c item slot).config,
        calls := calls ++ (setFound c item slot).calls, error := some e }
    | none =>
      applySets rest (setFound c item slot).config (calls ++ (setFound c item slot).calls)

/-- The value an item's slot holds for the item's datatype, as the getter of
that kind returns it: a null string is the empty string. -/
def parsedValue (t : config_datatype) (slot : val_t) : Option Stored :=
  match t with
  | DT_STRING => (slot.get_string).map (fun s => Stored.string (s.getD ""))
  | DT_SIZE => (slot.get_size).map Stored.unsigned
  | DT_SSIZE => (slot.get_ssize).map Stored.signed
  | DT_BOOL => (slot.get_bool).map Stored.bool
  | DT_FLOAT => (slot.get_float).map Stored.float
  | DT_CONFIGFILE => none

/-- The typed read `get<Kind>(key)` for the kind of a datatype. There is no
getter for the config-file tag. -/
def getTyped (c : Configuration) (key : String) : config_datatype → Option (Except Error Stored)
  | DT_STRING => some ((getString c key).map Stored.string)
  | DT_SIZE => some ((getInteger c key).map Stored.unsigned)
  | DT_SSIZE => some ((getSignedInteger c key).map Stored.signed)
  | DT_BOOL => some ((getBool c key).map Stored.bool)
  | DT_FLOAT => some ((getFloat c key).map Stored.float)
  | DT_CONFIGFILE => none

/-- No attribute of the registry carries the config-file tag. -/
def noConfigFileTag (c : Configuration) : Prop :=
  ∀ p ∈ c.attributes, (p.2).datatype ≠ some DT_CONFIGFILE

/-- One call on the registry. -/
inductive ConfigOp
  | setBool (key : String) (value : Bool)
  | setSize (key : String) (value : Nat)
  | setSSize (key : String) (value : Int)
  | setFloat (key : String) (value : float)
  | setCstr (key : String) (value : Option String)
  | setString (key : String) (value : String)
  | addListener (key : String) (l : ValueChangedListener)
  | setValidator (key : String) (v : Option ValueChangedValidator)
  | parse (str : String) (sapi : String → List config_item → ParseOutcome)

/-- The registry after one call, whether the call returns or throws. -/
def ConfigOp.apply (c : Configuration) : ConfigOp → Configuration
  | .setBool key value => (setParameter_bool c key value).config
  | .setSize key value => (setParameter_size_t c key value).config
  | .setSSize key value => (setParameter_ssize_t c key value).config
  | .setFloat key value => (setParameter_float c key value).config
  | .setCstr key value => (setParameter_cstr c key value).config
  | .setString key value => (setParameter_string c key value).config
  | .addListener key l => addValueChangedListener c key l
  | .setValidator key v => (setValueValidator c key v).2
  | .parse str sapi => (parseConfiguration c str sapi).config

/-- The registry after a sequence of calls. -/
def runOps (c : Configuration) (ops : List ConfigOp) : Configuration :=
  ops.foldl ConfigOp.apply c

/-! ## Registries used as concrete inputs -/

/-- A validator in the manner of a size-range validator: it accepts every
size but `0` and rejects a value of any other kind. -/
def rejectsZero : ValueChangedValidator :=
  { validateBool := fun _ _ => false,
    validateSize := fun _ n => n != 0,
    validateSSize := fun _ _ => false,
    validateFloat := fun _ _ => false,
    validateString := fun _ _ => false }

/-- A registry holding `max_size` as the unsigned integer 100, with the
listener 1 and the validator `rejectsZero`. -/
def sampleConfig : Configuration :=
  ⟨[("max_size",
      { changeListener := [1]
        validator := some rejectsZero
        datatype := some DT_SIZE
        val := .v_size 100 })]⟩

/-- The registry reached from the empty one by `setParameter("max_size", 100)`,
`setParameter("cache_size", 1)` and the registration of listener 7 on
`cache_size`. -/
def aliasConfig : Configuration :=
  addValueChangedListener
    (setParameter_size_t (setParameter_size_t ⟨[]⟩ "max_size" 100).config "cache_size" 1).config
    "cache_size" 7

/-- The registry reached from the empty one by `setParameter("k", true)`. -/
def boolConfig : Configuration := (setParameter_bool ⟨[]⟩ "k" true).config

/-- A registry with one attribute that carries the config-file tag. -/
def markerConfig : Configuration :=
  ⟨[("config_file",
      { changeListener := []
        validator := none
        datatype := some DT_CONFIGFILE
        val := .v_string none })]⟩

/-- The registry reached from the empty one by one `setParameter` of each
kind: a bool `b`, an unsigned `n`, a signed `i`, a float `f` and a string
`s`. -/
def statsConfig : Configuration :=
  (setParameter_cstr
    (setParameter_float
      (setParameter_ssize_t
        (setParameter_size_t (setParameter_bool ⟨[]⟩ "b" true).config "n" 42).config
        "i" (-7)).config
      "f" ⟨1056964608⟩).config
    "s" (some "hello")).config

/-- A parser that reports success and marks the first item found with the
size 0 and the last of three items, `config_file`, found. -/
def parserZeroAndFile : String → List config_item → ParseOutcome :=
  fun _ _ => { ret := 0, marks := [(true, .v_size 0), (false, .v_string none),
                                   (true, .v_string none)] }

/-- A parser that reports success and marks only the third item,
`config_file` when the registry has one key, found. -/
def parserFile : String → List config_item → ParseOutcome :=
  fun _ _ => { ret := 0, marks := [(false, .v_string none), (false, .v_string none),
                                   (true, .v_string none)] }

/-- A parser that reports success and marks the first item found with the
size 0. -/
def parserZero : String → List config_item → ParseOutcome :=
  fun _ _ => { ret := 0, marks := [(true, .v_size 0)] }

/-- A parser that reports success and marks only the second item,
`cache_size` when the registry has one key, found with the size 9. -/
def parserAlias : String → List config_item → ParseOutcome :=
  fun _ _ => { ret := 0, marks := [(false, .v_string none), (true, .v_size 9)] }

/-- A parser that reports success and marks the first item found with the
size 5. -/
def parserFive : String → List config_item → ParseOutcome :=
  fun _ _ => { ret := 0, marks := [(true, .v_size 5)] }


/-! ## The executor pool and its task queues

The sources hold the tests of the pool and of its queues
(`executorpool_test.cc`, `evp_store_single_threaded_test.cc`), not their
code. The definitions of this section are modelled from the spec; time is a
natural number of clock ticks. -/

/-- The four task categories, with the names the tests use for them. -/
inductive task_type_t
  | WRITER_TASK_IDX
  | READER_TASK_IDX
  | AUXIO_TASK_IDX
  | NONIO_TASK_IDX
  deriving DecidableEq, Repr

open task_type_t

/-- Modelled from the spec: the state of a task, "`state` ∈ { `runnable`,
`running`, `dead` }"; the class `GlobalTask` is not among the sources. -/
inductive task_state_t
  | runnable
  | running
  | dead
  deriving DecidableEq, Repr

/-- Modelled from the spec: a task (`GlobalTask`, not among the sources) with
the attributes the queue operations use: its handle, its `priority` ("tasks
with smaller values are preferred"), the sleep time it is constructed with,
its `waketime` and its `state`. What its `run()` does is part of the task:
`snoozeInRun` is the duration that `run()` passes to `snooze`, if it calls
it, and `runAgain` the value `run()` returns. -/
structure GlobalTask where
  taskId : Nat
  priority : Nat
  sleeptime : Nat
  waketime : Nat
  state : task_state_t
  snoozeInRun : Option Nat
  runAgain : Bool
  deriving DecidableEq, Repr

/-- Modelled from the spec: `snooze(seconds)` "sets `waketime = now +
seconds`". -/
def GlobalTask.snooze (t : GlobalTask) (now : Nat) (dt : Nat) : GlobalTask :=
  { t with waketime := now + dt }

/-- Modelled from the spec: one call of `run()` at the time `now`: the task as
`run()` leaves it, and the value returned ("Returning `true` means re-insert
me", `false` "mark me dead"). -/
def GlobalTask.run (t : GlobalTask) (now : Nat) : GlobalTask × Bool :=
  match t.snoozeInRun with
  | none => (t, t.runAgain)
  | some dt => (t.snooze now dt, t.runAgain)

/-- Modelled from the spec: the state of a `TaskQueue` (not among the
sources): "`futureQueue` — ordered by `waketime` ascending", "`readyQueue` —
ordered by `priority` ascending (highest priority first), `waketime` as
tiebreak". The head of each list is dispensed first. -/
structure TaskQueue where
  futureQueue : List GlobalTask
  readyQueue : List GlobalTask
  deriving DecidableEq, Repr

/-- Modelled from the spec: insertion into the future queue, "ordered by
`waketime` ascending", after the tasks of the same waketime. -/
def insertFuture (t : GlobalTask) : List GlobalTask → List GlobalTask
  | [] => [t]
  | x :: xs => if t.waketime < x.waketime then t :: x :: xs else x :: insertFuture t xs

/-- Modelled from the spec: the order of the ready queue, "strict priority
wins. Equal priority: older `waketime` first". -/
def readyBefore (a b : GlobalTask) : Bool :=
  decide (a.priority < b.priority) ||
    (decide (a.priority = b.priority) && decide (a.waketime < b.waketime))

/-- Modelled from the spec: insertion into the ready queue, in the order
`readyBefore`, after its peers ("stable FIFO among peers"). -/
def insertReady (t : GlobalTask) : List GlobalTask → List GlobalTask
  | [] => [t]
  | x :: xs => if readyBefore t x then t :: x :: xs else x :: insertReady t xs

/-- Modelled from the spec: `getFutureQueueSize()`. -/
def TaskQueue.getFutureQueueSize (q : TaskQueue) : Nat := q.futureQueue.length

/-- Modelled from the spec: `getReadyQueueSize()`. -/
def TaskQueue.getReadyQueueSize (q : TaskQueue) : Nat := q.readyQueue.length

/-- Modelled from the spec: `TaskQueue::schedule(task)` "inserts into
`futureQueue`"; the task is runnable. -/
def TaskQueue.schedule (q : TaskQueue) (t : GlobalTask) : TaskQueue :=
  { q with futureQueue := insertFuture { t with state := .runnable } q.futureQueue }

/-- Modelled from the spec: `TaskQueue::wake(task)` "forcibly sets `waketime =
now`; the task remains in `futureQueue` until the next fetch promotes it".
The task is the one of the future queue with the given handle; it is put
back at the place of its new waketime. A task that is not in the future
queue is left alone. -/
def TaskQueue.wake (q : TaskQueue) (taskId : Nat) (now : Nat) : TaskQueue :=
  match q.futureQueue.find? (fun t => t.taskId = taskId) with
  | none => q
  | some t =>
    let others := q.futureQueue.filter (fun x => x.taskId ≠ taskId)
    { q with futureQueue := insertFuture { t with waketime := now } others }

/-- Modelled from the spec: step (i) of `fetchNextTask`, "sweep the head of
`futureQueue` moving any task with `waketime ≤ now` into `readyQueue`": the
two queues after the sweep. -/
def sweep (now : Nat) : List GlobalTask → List GlobalTask → List GlobalTask × List GlobalTask
  | [], ready => ([], ready)
  | t :: rest, ready =>
    if t.waketime ≤ now then sweep now rest (insertReady t ready) else (t :: rest, ready)

/-- Modelled from the spec: the promotion of `fetchNextTask`. The sweep is
made when the ready queue is empty: a task of the future queue that is due
does not pass a task that is already ready. The spec asks for this in "Wake
does not lose siblings" and in its scenario 2 ("Fetch once → `hpTask`. Call
`wake(hpTask)` before fetching again. Fetch → `lpTask`, then `hpTask`"),
which the test `MB18953_taskWake` checks. -/
def TaskQueue.moveReadyTasks (q : TaskQueue) (now : Nat) : TaskQueue :=
  match q.readyQueue with
  | [] => { futureQueue := (sweep now q.futureQueue []).1,
            readyQueue := (sweep now q.futureQueue []).2 }
  | _ :: _ => q

/-- Modelled from the spec: `fetchNextTask`, "(i) sweep ... (ii) pop the
highest-priority entry from `readyQueue`": the task dispensed, now running,
or none when no task is ready (the worker would block), and the queue
after the call. -/
def TaskQueue.fetchNextTask (q : TaskQueue) (now : Nat) : Option GlobalTask × TaskQueue :=
  match (q.moveReadyTasks now).readyQueue with
  | [] => (none, q.moveReadyTasks now)
  | t :: rest =>
    (some { t with state := .running }, { q.moveReadyTasks now with readyQueue := rest })

/-- Modelled from the spec: `doneTask(task, reschedule)`, "if `reschedule` and
not `dead`, insert back into `futureQueue` using the task's updated
`waketime` (which `run()` may have reset via `snooze`); otherwise mark
dead": the wake time of the reschedule, when there is one, and the queue
after the call. -/
def TaskQueue.doneTask (q : TaskQueue) (t : GlobalTask) (reschedule : Bool) :
    Option Nat × TaskQueue :=
  if reschedule && decide (t.state ≠ .dead) then
    (some t.waketime,
      { q with futureQueue := insertFuture { t with state := .runnable } q.futureQueue })
  else (none, q)

/-- One row of the thread-count test: the struct `ExpectedThreadCounts` of
`executorpool_test.cc`. -/
structure ExpectedThreadCounts where
  maxThreads : Nat
  reader : Nat
  writer : Nat
  auxIO : Nat
  nonIO : Nat
  deriving DecidableEq, Repr

/-- The vector `threadCountValues` of `executorpool_test.cc`. -/
def threadCountValues : List ExpectedThreadCounts :=
  [⟨1, 4, 4, 1, 2⟩, ⟨2, 4, 4, 1, 2⟩, ⟨4, 4, 4, 1, 2⟩, ⟨8, 4, 4, 1, 2⟩, ⟨10, 4, 4, 1, 3⟩,
   ⟨14, 4, 4, 2, 4⟩, ⟨20, 6, 4, 2, 6⟩, ⟨24, 7, 4, 3, 7⟩, ⟨32, 12, 4, 4, 8⟩,
   ⟨48, 12, 4, 5, 8⟩, ⟨64, 12, 4, 7, 8⟩, ⟨128, 12, 4, 8, 8⟩]

/-- Modelled from the spec: Table T1, the "thread-count calibration (MUST match
exactly)": for a value of `maxThreads`, the counts of readers, writers,
auxiliary and non-IO workers. The sizing code of the pool is not among the
sources and the spec gives its formulas only by this table, so a value of
`maxThreads` that is no row of the table has no counts here. -/
def tableT1 : Nat → Option (Nat × Nat × Nat × Nat)
  | 1 => some (4, 4, 1, 2)
  | 2 => some (4, 4, 1, 2)
  | 4 => some (4, 4, 1, 2)
  | 8 => some (4, 4, 1, 2)
  | 10 => some (4, 4, 1, 3)
  | 14 => some (4, 4, 2, 4)
  | 20 => some (6, 4, 2, 6)
  | 24 => some (7, 4, 3, 7)
  | 32 => some (12, 4, 4, 8)
  | 48 => some (12, 4, 5, 8)
  | 64 => some (12, 4, 7, 8)
  | 128 => some (12, 4, 8, 8)
  | _ => none

/-- Modelled from the spec: the state of the `ExecutorPool` (not among the
sources): the construction parameters ("`maxThreads`, ..., `maxReaders`,
`maxWriters`, `maxAuxIO`, `maxNonIO`. A zero cap means use default
formula"), the number of registered taskables, the number of worker threads
spawned, the clock, one queue for each category, and the "aggregate
ready-count per category" with its total. -/
structure ExecutorPool where
  maxThreads : Nat
  maxReaders : Nat
  maxWriters : Nat
  maxAuxio : Nat
  maxNonio : Nat
  numBuckets : Nat
  numWorkers : Nat
  now : Nat
  queues : task_type_t → TaskQueue
  numReadyTasks : task_type_t → Nat
  totReadyTasks : Nat

/-- Modelled from the spec: a pool as its constructor leaves it: no taskable,
no worker, empty queues, nothing ready. -/
def ExecutorPool.create (maxThreads maxReaders maxWriters maxAuxio maxNonio : Nat) :
    ExecutorPool :=
  { maxThreads := maxThreads, maxReaders := maxReaders, maxWriters := maxWriters,
    maxAuxio := maxAuxio, maxNonio := maxNonio, numBuckets := 0, numWorkers := 0, now := 0,
    queues := fun _ => { futureQueue := [], readyQueue := [] },
    numReadyTasks := fun _ => 0, totReadyTasks := 0 }

/-- Modelled from the spec: `getNumReaders`: the cap when it is not zero, the
count of Table T1 otherwise. -/
def ExecutorPool.getNumReaders (p : ExecutorPool) : Option Nat :=
  if p.maxReaders ≠ 0 then some p.maxReaders else (tableT1 p.maxThreads).map (fun r => r.1)

/-- Modelled from the spec: `getNumWriters`. -/
def ExecutorPool.getNumWriters (p : ExecutorPool) : Option Nat :=
  if p.maxWriters ≠ 0 then some p.maxWriters else (tableT1 p.maxThreads).map (fun r => r.2.1)

/-- Modelled from the spec: `getNumAuxIO`. -/
def ExecutorPool.getNumAuxIO (p : ExecutorPool) : Option Nat :=
  if p.maxAuxio ≠ 0 then some p.maxAuxio else (tableT1 p.maxThreads).map (fun r => r.2.2.1)

/-- Modelled from the spec: `getNumNonIO`. -/
def ExecutorPool.getNumNonIO (p : ExecutorPool) : Option Nat :=
  if p.maxNonio ≠ 0 then some p.maxNonio else (tableT1 p.maxThreads).map (fun r => r.2.2.2)

/-- Modelled from the spec: the number of worker threads of all four
categories, when the counts are given. -/
def ExecutorPool.totalWorkers (p : ExecutorPool) : Option Nat :=
  match p.getNumReaders, p.getNumWriters, ExecutorPool.getNumAuxIO p,
    ExecutorPool.getNumNonIO p with
  | some r, some w, some a, some n => some (r + w + a + n)
  | _, _, _, _ => none

/-- Modelled from the spec: `registerTaskable(t)`: "first registration lazily
spawns all workers. Subsequent registrations do not add threads ...
Post-condition: `numBuckets += 1`; `numWorkersStat` equals total spawned
threads". None when the spec does not give the number of workers. -/
def ExecutorPool.registerTaskable (p : ExecutorPool) : Option ExecutorPool :=
  match p.totalWorkers with
  | none => none
  | some n =>
    some { p with numBuckets := p.numBuckets + 1,
                  numWorkers := if p.numBuckets = 0 then n else p.numWorkers }

/-- The pool with the queue of one category replaced. -/
def ExecutorPool.setQueue (p : ExecutorPool) (c : task_type_t) (q : TaskQueue) : ExecutorPool :=
  { p with queues := fun x => if x = c then q else p.queues x }

/-- Modelled from the spec: `getNumReadyTasks(category)`. -/
def ExecutorPool.getNumReadyTasks (p : ExecutorPool) (c : task_type_t) : Nat :=
  p.numReadyTasks c

/-- Modelled from the spec: `getTotReadyTasks`. -/
def ExecutorPool.getTotReadyTasks (p : ExecutorPool) : Nat := p.totReadyTasks

/-- Modelled from the spec: the passing of `d` ticks of the monotonic clock. -/
def ExecutorPool.advance (p : ExecutorPool) (d : Nat) : ExecutorPool :=
  { p with now := p.now + d }

/-- Modelled from the spec: `schedule(task, category)`: "pool inserts task into
the category's queue as future with `waketime = now + sleeptime`". -/
def ExecutorPool.schedule (p : ExecutorPool) (t : GlobalTask) (c : task_type_t) : ExecutorPool :=
  p.setQueue c ((p.queues c).schedule { t with waketime := p.now + t.sleeptime })

/-- Modelled from the spec: `wake(taskId)` "locates and wakes": the task is
woken in the queue that holds it. The ready counts are not changed: the
task stays in its future queue. -/
def ExecutorPool.wake (p : ExecutorPool) (taskId : Nat) : ExecutorPool :=
  { p with queues := fun c => (p.queues c).wake taskId p.now }

/-- Modelled from the spec: `fetchNextTask` on the queue of a category, with
the ready counts kept: the tasks the sweep promotes are added to the count
of the category and to the total, the task dispensed is taken off both. -/
def ExecutorPool.fetchNextTask (p : ExecutorPool) (c : task_type_t) :
    Option GlobalTask × ExecutorPool :=
  let promoted := ((p.queues c).moveReadyTasks p.now).readyQueue.length -
    (p.queues c).readyQueue.length
  let r := (p.queues c).fetchNextTask p.now
  let taken := if r.1.isSome then 1 else 0
  (r.1,
    { p.setQueue c r.2 with
      numReadyTasks := fun x =>
        if x = c then p.numReadyTasks c + promoted - taken else p.numReadyTasks x,
      totReadyTasks := p.totReadyTasks + promoted - taken })

/-- Modelled from the spec: `doneTask` on the queue of a category. -/
def ExecutorPool.doneTask (p : ExecutorPool) (c : task_type_t) (t : GlobalTask)
    (reschedule : Bool) : Option Nat × ExecutorPool :=
  (((p.queues c).doneTask t reschedule).1, p.setQueue c ((p.queues c).doneTask t reschedule).2)

/-- The helper `runNextTask` of the single-threaded test: fetch the next task
of the queue, run it, complete it with the value `run()` returned. The
result is the task as it was run, the wake time the completion reports, and
the pool after it. -/
def ExecutorPool.runNextTask (p : ExecutorPool) (c : task_type_t) :
    Option GlobalTask × Option Nat × ExecutorPool :=
  match p.fetchNextTask c with
  | (none, p1) => (none, none, p1)
  | (some t, p1) =>
    (some (t.run p1.now).1,
      (p1.doneTask c (t.run p1.now).1 (t.run p1.now).2).1,
      (p1.doneTask c (t.run p1.now).1 (t.run p1.now).2).2)

/-- One operation on the pool. -/
inductive PoolOp
  | schedule (t : GlobalTask) (c : task_type_t)
  | wake (taskId : Nat)
  | fetchNextTask (c : task_type_t)
  | doneTask (c : task_type_t) (t : GlobalTask) (reschedule : Bool)
  | advance (d : Nat)

/-- The pool after one operation. -/
def PoolOp.apply (p : ExecutorPool) : PoolOp → ExecutorPool
  | .schedule t c => p.schedule t c
  | .wake taskId => p.wake taskId
  | .fetchNextTask c => (p.fetchNextTask c).2
  | .doneTask c t reschedule => (p.doneTask c t reschedule).2
  | .advance d => p.advance d

/-- The pool after a sequence of operations. -/
def ExecutorPool.runOps (p : ExecutorPool) (ops : List PoolOp) : ExecutorPool :=
  ops.foldl PoolOp.apply p


/-- The sum over the four categories of `getNumReadyTasks`. -/
def ExecutorPool.sumReadyTasks (p : ExecutorPool) : Nat :=
  p.getNumReadyTasks WRITER_TASK_IDX + p.getNumReadyTasks READER_TASK_IDX +
    p.getNumReadyTasks AUXIO_TASK_IDX + p.getNumReadyTasks NONIO_TASK_IDX

/-- Ready-count consistency: the total is the sum of the counts of the
categories, and the count of a category is the size of the ready queue of
its queue. -/
def ExecutorPool.readyCountsConsistent (p : ExecutorPool) : Prop :=
  p.getTotReadyTasks = p.sumReadyTasks ∧
  ∀ c, p.getNumReadyTasks c = (p.queues c).getReadyQueueSize


/-- A task for the scenarios of the tests: handle, priority, sleep time, what
`run()` returns and the duration it snoozes for, if it does. -/
def testTask (taskId priority sleeptime : Nat) (runAgain : Bool) (snoozeInRun : Option Nat) :
    GlobalTask :=
  { taskId := taskId, priority := priority, sleeptime := sleeptime, waketime := 0,
    state := .runnable, snoozeInRun := snoozeInRun, runAgain := runAgain }

/-- The pool of the test `MB20735_rescheduleWaketime` at the time 1000, with
the task scheduled: its `run()` snoozes for 100 ticks (0.1 s in
milliseconds) and returns true. -/
def snoozePool : ExecutorPool :=
  ((ExecutorPool.create 10 0 0 0 0).advance 1000).schedule
    (testTask 1 0 0 true (some 100)) NONIO_TASK_IDX

/-- The start of the test `MB18953_taskWake`: the tasks `a` and `b` scheduled,
in this order, into the queue of the category `c`. -/
def siblingsPool (p : ExecutorPool) (a b : GlobalTask) (c : task_type_t) : ExecutorPool :=
  (p.schedule a c).schedule b c

/-- The pool of the test `MB20235_wake_and_work_count` after its `schedule`:
one task "with a massive sleep", 99999, whose `run()` returns false, in the
auxiliary-IO queue. -/
def massiveSleepPool : ExecutorPool :=
  (ExecutorPool.create 10 0 0 0 0).schedule (testTask 1 0 99999 false none) AUXIO_TASK_IDX

/-- The pool of the test `MB18953_taskWake` after its first `runNextTask`: the
task 1, of priority 0, has run and is back in the future queue; the task 2,
of priority 5, is ready. -/
def siblingsAfterFirstRun : ExecutorPool :=
  ((siblingsPool (ExecutorPool.create 10 0 0 0 0) (testTask 1 0 0 true none)
    (testTask 2 5 0 true none) NONIO_TASK_IDX).runNextTask NONIO_TASK_IDX).2.2

/-- The task of the test `MB20235_wake_and_work_count` as `schedule` queues it
at the time 0: due at 99999. -/
def massiveSleepTask : GlobalTask :=
  { testTask 1 0 99999 false none with waketime := 99999 }

/-- Modelled from the spec: `getNumWorkersStat()`, "`numWorkersStat` equals
total spawned threads"; the pool is not among the sources. -/
def ExecutorPool.getNumWorkersStat (p : ExecutorPool) : Nat := p.numWorkers

/-- Modelled from the spec: `getNumBuckets()`, the number of registered
taskables; the pool is not among the sources. -/
def ExecutorPool.getNumBuckets (p : ExecutorPool) : Nat := p.numBuckets

/-- Modelled from the spec: `unregisterTaskable(t, force)`: "When the last
taskable unregisters, all workers are joined and `numWorkersStat` returns to
0". The pool counts its taskables; there is no result when no taskable is
registered. The tasks of the tenant, which the call drains or cancels
according to `force`, are not in the model: its queues are not partitioned
by tenant. -/
def ExecutorPool.unregisterTaskable (p : ExecutorPool) (_force : Bool) : Option ExecutorPool :=
  if p.numBuckets = 0 then none
  else
    some { p with numBuckets := p.numBuckets - 1,
                  numWorkers := if p.numBuckets = 1 then 0 else p.numWorkers }

/-- A registration or an unregistration of a taskable. -/
inductive TaskableOp
  | registerTaskable
  | unregisterTaskable (force : Bool)
  deriving DecidableEq, Repr

/-- The pool after a registration or an unregistration, when the call has a
result. -/
def TaskableOp.apply (p : ExecutorPool) : TaskableOp → Option ExecutorPool
  | .registerTaskable => p.registerTaskable
  | .unregisterTaskable force => p.unregisterTaskable force

/-- The pool after a sequence of registrations and unregistrations. -/
def ExecutorPool.runTaskableOps (p : ExecutorPool) : List TaskableOp → Option ExecutorPool
  | [] => some p
  | op :: ops =>
    match op.apply p with
    | none => none
    | some q => q.runTaskableOps ops

/-- The pool of the test `register_taskable_test`: at most 10 threads and the
caps 2, 2, 2, 2. -/
def registerTestPool : ExecutorPool := ExecutorPool.create 10 2 2 2 2

/-- The registry reached from the empty one by `setParameter("max_size",
"abc")` with a string and then `setParameter("cache_size", 5)` with a size:
the alias branch writes the size 5 into `val` of `max_size` and leaves the
tag of `max_size`, `DT_STRING`, as it is. -/
def staleStringConfig : Configuration :=
  (setParameter_size_t (setParameter_string ⟨[]⟩ "max_size" "abc").config "cache_size" 5).config

/-- The registry `aliasConfig` with the listener 8 registered on `max_size`:
`cache_size` has the listener 7, `max_size` the listener 8. -/
def listenedConfig : Configuration := addValueChangedListener aliasConfig "max_size" 8

/-- A parser that reports failure and marks the three items offered for a
registry of one key found, `config_file` among them. -/
def parserFailing : String → List config_item → ParseOutcome :=
  fun _ _ => { ret := -1, marks := [(true, .v_size 0), (true, .v_size 9),
                                    (true, .v_string none)] }

/-- A parser that reports success and marks the first item found with the
size 0 and the second, `cache_size` when the registry has one key, with the
size 9. -/
def parserBothZero : String → List config_item → ParseOutcome :=
  fun _ _ => { ret := 0, marks := [(true, .v_size 0), (true, .v_size 9)] }

/-- A parser that reports success and marks the first item found with the
size 3 and the second, `cache_size` when the registry has one key, with the
size 9. -/
def parserBoth : String → List config_item → ParseOutcome :=
  fun _ _ => { ret := 0, marks := [(true, .v_size 3), (true, .v_size 9)] }

/-- A queue with three tasks for the wake of one among others: at the time 0
the auxiliary-IO queue gets the task 1 of priority 1 with no sleep, the task
2 of priority 5 with the sleep time 99999, and the task 3 of priority 0 with
the sleep time 500. -/
def wakeAmongOthersPool : ExecutorPool :=
  (((ExecutorPool.create 10 0 0 0 0).schedule (testTask 1 1 0 false none)
    AUXIO_TASK_IDX).schedule (testTask 2 5 99999 false none) AUXIO_TASK_IDX).schedule
      (testTask 3 0 500 false none) AUXIO_TASK_IDX

/-! ## The map: `find` after `attributes[key]` and after an assignment -/

theorem find_modify_self (key : String) (f : value_t → value_t) (m : List (String × value_t)) :
    find (modify key f m) key = (find m key).map f := by
  induction m with
  | nil => rfl
  | cons p m ih =>
    obtain ⟨k, a⟩ := p
    by_cases h : k = key
    · simp [modify, find, h]
    · simp [modify, find, h, ih]

theorem find_modify_ne (key key2 : String) (f : value_t → value_t) (m : List (String × value_t))
    (h : key2 ≠ key) : find (modify key f m) key2 = find m key2 := by
  induction m with
  | nil => rfl
  | cons p m ih =>
    obtain ⟨k, a⟩ := p
    by_cases hk : k = key
    · subst hk
      have : ¬ k = key2 := fun e => h e.symm
      simp [modify, find, this]
    · by_cases hk2 : k = key2
      · subst hk2
        simp [modify, find, hk]
      · simp [modify, find, hk, hk2, ih]

theorem find_insertSorted_self (key : String) (a : value_t) (m : List (String × value_t))
    (h : find m key = none) : find (insertSorted key a m) key = some a := by
  induction m with
  | nil => simp [insertSorted, find]
  | cons p m ih =>
    obtain ⟨k, b⟩ := p
    by_cases hk : k = key
    · simp [find, hk] at h
    · simp only [find, hk, if_false] at h
      by_cases hlt : less key k = true
      · simp [insertSorted, find, hlt]
      · simp [insertSorted, find, hlt, hk, ih h]

theorem find_insertSorted_ne (key key2 : String) (a : value_t) (m : List (String × value_t))
    (h : key2 ≠ key) : find (insertSorted key a m) key2 = find m key2 := by
  induction m with
  | nil => simp [insertSorted, find, h.symm]
  | cons p m ih =>
    obtain ⟨k, b⟩ := p
    by_cases hlt : less key k = true
    · simp [insertSorted, find, hlt, h.symm]
    · by_cases hk2 : k = key2
      · subst hk2
        simp [insertSorted, find, hlt]
      · simp [insertSorted, find, hlt, hk2, ih]

theorem find_subscript_self (m : List (String × value_t)) (key : String) :
    find (subscript m key) key = some (fetch m key) := by
  unfold subscript fetch
  cases h : find m key with
  | none => simp [find_insertSorted_self key _ m h]
  | some a => simp [h]

theorem find_subscript_ne (m : List (String × value_t)) (key key2 : String) (h : key2 ≠ key) :
    find (subscript m key) key2 = find m key2 := by
  unfold subscript
  cases hf : find m key with
  | none => simp [find_insertSorted_ne key key2 _ m h]
  | some a => simp

theorem subscript_of_find (m : List (String × value_t)) (key : String) (a : value_t)
    (h : find m key = some a) : subscript m key = m := by
  simp [subscript, h]

theorem find_assign_self (m : List (String × value_t)) (key : String) (f : value_t → value_t) :
    find (assign m key f) key = some (f (fetch m key)) := by
  simp [assign, find_modify_self, find_subscript_self]

theorem find_assign_ne (m : List (String × value_t)) (key key2 : String) (f : value_t → value_t)
    (h : key2 ≠ key) : find (assign m key f) key2 = find m key2 := by
  simp [assign, find_modify_ne _ _ _ _ h, find_subscript_ne _ _ _ h]

theorem fetch_assign_self (m : List (String × value_t)) (key : String) (f : value_t → value_t) :
    fetch (assign m key f) key = f (fetch m key) := by
  simp [fetch, find_assign_self]

theorem fetch_assign_ne (m : List (String × value_t)) (key key2 : String) (f : value_t → value_t)
    (h : key2 ≠ key) : fetch (assign m key f) key2 = fetch m key2 := by
  simp [fetch, find_assign_ne _ _ _ _ h]

theorem subscript_assign_self (m : List (String × value_t)) (key : String) (f : value_t → value_t) :
    subscript (assign m key f) key = assign m key f :=
  subscript_of_find _ _ _ (find_assign_self m key f)

/-! ## The key order and the map invariant -/

theorem char_eq_of_toNat_eq (x y : Char) (h : x.toNat = y.toNat) : x = y := by
  rw [← Char.ofNat_toNat x, ← Char.ofNat_toNat y, h]

theorem lessChars_irrefl (xs : List Char) : lessChars xs xs = false := by
  induction xs with
  | nil => rfl
  | cons x xs ih => simp [lessChars, ih]

theorem lessChars_trans (xs ys zs : List Char) (h1 : lessChars xs ys = true)
    (h2 : lessChars ys zs = true) : lessChars xs zs = true := by
  induction xs generalizing ys zs with
  | nil =>
    cases ys with
    | nil => simp [lessChars] at h1
    | cons y ys =>
      cases zs with
      | nil => simp [lessChars] at h2
      | cons z zs => simp [lessChars]
  | cons x xs ih =>
    cases ys with
    | nil => simp [lessChars] at h1
    | cons y ys =>
      cases zs with
      | nil => simp [lessChars] at h2
      | cons z zs =>
        simp only [lessChars] at h1 h2 ⊢
        by_cases hxy : x.toNat < y.toNat
        · by_cases hyz : y.toNat < z.toNat
          · have : x.toNat < z.toNat := by omega
            simp [this]
          · by_cases hzy : z.toNat < y.toNat
            · simp [hyz, hzy] at h2
            · have : x.toNat < z.toNat := by omega
              simp [this]
        · by_cases hyx : y.toNat < x.toNat
          · simp [hxy, hyx] at h1
          · simp only [hxy, hyx, if_false] at h1
            by_cases hyz : y.toNat < z.toNat
            · have : x.toNat < z.toNat := by omega
              simp [this]
            · by_cases hzy : z.toNat < y.toNat
              · simp [hyz, hzy] at h2
              · simp only [hyz, hzy, if_false] at h2
                have h3 : ¬ x.toNat < z.toNat := by omega
                have h4 : ¬ z.toNat < x.toNat := by omega
                simp only [h3, h4, if_false]
                exact ih ys zs h1 h2

theorem lessChars_total (xs ys : List Char) (h1 : lessChars xs ys = false) (h2 : xs ≠ ys) :
    lessChars ys xs = true := by
  induction xs generalizing ys with
  | nil =>
    cases ys with
    | nil => exact absurd rfl h2
    | cons y ys => simp [lessChars] at h1
  | cons x xs ih =>
    cases ys with
    | nil => simp [lessChars]
    | cons y ys =>
      simp only [lessChars] at h1 ⊢
      by_cases hxy : x.toNat < y.toNat
      · simp [hxy] at h1
      · by_cases hyx : y.toNat < x.toNat
        · simp [hyx]
        · simp only [hxy, hyx, if_false] at h1 ⊢
          have hxe : x = y := char_eq_of_toNat_eq x y (by omega)
          subst hxe
          apply ih ys h1
          intro he
          exact h2 (by rw [he])

theorem less_trans (a b d : String) (h1 : less a b = true) (h2 : less b d = true) :
    less a d = true :=
  lessChars_trans a.data b.data d.data h1 h2

theorem less_total (a b : String) (h1 : less a b = false) (h2 : a ≠ b) : less b a = true := by
  apply lessChars_total a.data b.data h1
  intro he
  apply h2
  cases a
  cases b
  simp at he
  rw [he]

theorem find_none_of_not_mem (m : List (String × value_t)) (key : String)
    (h : find m key = none) : ∀ p ∈ m, p.1 ≠ key := by
  induction m with
  | nil => intro p hp; cases hp
  | cons q m ih =>
    obtain ⟨k, b⟩ := q
    by_cases hk : k = key
    · simp [find, hk] at h
    · simp only [find, hk, if_false] at h
      intro p hp
      rcases List.mem_cons.mp hp with hp | hp
      · rw [hp]; exact hk
      · exact ih h p hp

theorem mem_insertSorted (key : String) (a : value_t) (m : List (String × value_t))
    (p : String × value_t) (hp : p ∈ insertSorted key a m) : p = (key, a) ∨ p ∈ m := by
  induction m with
  | nil =>
    simp [insertSorted] at hp
    exact Or.inl hp
  | cons q m ih =>
    obtain ⟨k, b⟩ := q
    by_cases hlt : less key k = true
    · simp only [insertSorted, hlt, if_true] at hp
      rcases List.mem_cons.mp hp with hp | hp
      · exact Or.inl hp
      · exact Or.inr hp
    · simp only [insertSorted, hlt, if_false] at hp
      rcases List.mem_cons.mp hp with hp | hp
      · exact Or.inr (by rw [hp]; exact List.mem_cons_self _ _)
      · rcases ih hp with h | h
        · exact Or.inl h
        · exact Or.inr (List.mem_cons_of_mem _ h)

theorem sortedKeys_insertSorted (key : String) (a : value_t) (m : List (String × value_t))
    (hs : sortedKeys m) (habsent : find m key = none) : sortedKeys (insertSorted key a m) := by
  induction m with
  | nil => simp [insertSorted, sortedKeys]
  | cons q m ih =>
    obtain ⟨k, b⟩ := q
    have hk : k ≠ key := find_none_of_not_mem _ key habsent (k, b) (List.mem_cons_self _ _)
    have hrest : find m key = none := by
      simp only [find, hk, if_false] at habsent
      exact habsent
    unfold sortedKeys at hs ⊢
    rw [List.pairwise_cons] at hs
    by_cases hlt : less key k = true
    · rw [insertSorted, if_pos hlt, List.pairwise_cons]
      refine ⟨?_, List.pairwise_cons.mpr hs⟩
      intro p hp
      rcases List.mem_cons.mp hp with hp | hp
      · rw [hp]; exact hlt
      · exact less_trans key k p.1 hlt (hs.1 p hp)
    · rw [insertSorted, if_neg hlt, List.pairwise_cons]
      refine ⟨?_, ih hs.2 hrest⟩
      intro p hp
      rcases mem_insertSorted key a m p hp with h | h
      · rw [h]
        exact less_total key k (by simpa using hlt) (Ne.symm hk)
      · exact hs.1 p h

theorem keys_modify (key : String) (f : value_t → value_t) (m : List (String × value_t)) :
    (modify key f m).map Prod.fst = m.map Prod.fst := by
  induction m with
  | nil => rfl
  | cons q m ih =>
    obtain ⟨k, b⟩ := q
    by_cases hk : k = key
    · simp [modify, hk]
    · simp [modify, hk, ih]

theorem sortedKeys_iff_keys (m : List (String × value_t)) :
    sortedKeys m ↔ List.Pairwise (fun a b => less a b = true) (m.map Prod.fst) := by
  unfold sortedKeys
  rw [List.pairwise_map]

theorem sortedKeys_assign (m : List (String × value_t)) (key : String) (f : value_t → value_t)
    (hs : sortedKeys m) : sortedKeys (assign m key f) := by
  unfold assign
  rw [sortedKeys_iff_keys, keys_modify, ← sortedKeys_iff_keys]
  unfold subscript
  cases hf : find m key with
  | none => exact sortedKeys_insertSorted key _ m hs hf
  | some a => exact hs

/-- The setters keep the map's keys strictly ascending. -/
theorem sortedKeys_setParameter (c : Configuration) (key : String)
    (hs : sortedKeys c.attributes) :
    (∀ b, sortedKeys (setParameter_bool c key b).config.attributes) ∧
    (∀ n, sortedKeys (setParameter_size_t c key n).config.attributes) ∧
    (∀ i, sortedKeys (setParameter_ssize_t c key i).config.attributes) ∧
    (∀ f, sortedKeys (setParameter_float c key f).config.attributes) ∧
    (∀ s, sortedKeys (setParameter_cstr c key s).config.attributes) := by
  have hsub : ∀ m : List (String × value_t), sortedKeys m → ∀ k, sortedKeys (subscript m k) := by
    intro m hm k
    unfold subscript
    cases hf : find m k with
    | none => exact sortedKeys_insertSorted k _ m hm hf
    | some a => exact hm
  refine ⟨?_, ?_, ?_, ?_, ?_⟩
  · intro b
    unfold setParameter_bool
    split
    · exact hs
    · exact hsub _ (sortedKeys_assign _ _ _ (sortedKeys_assign _ _ _ hs)) _
  · intro n
    unfold setParameter_size_t
    split
    · exact hs
    · apply hsub
      split
      · exact sortedKeys_assign _ _ _ (sortedKeys_assign _ _ _ hs)
      · exact sortedKeys_assign _ _ _ (sortedKeys_assign _ _ _ hs)
  · intro i
    unfold setParameter_ssize_t
    split
    · exact hs
    · apply hsub
      split
      · exact sortedKeys_assign _ _ _ (sortedKeys_assign _ _ _ hs)
      · exact sortedKeys_assign _ _ _ (sortedKeys_assign _ _ _ hs)
  · intro f
    unfold setParameter_float
    split
    · exact hs
    · exact hsub _ (sortedKeys_assign _ _ _ (sortedKeys_assign _ _ _ hs)) _
  · intro s
    unfold setParameter_cstr
    split
    · exact hs
    · split
      · exact hs
      · apply hsub
        cases s with
        | none => exact sortedKeys_assign _ _ _ (sortedKeys_assign _ _ _ hs)
        | some v =>
          exact sortedKeys_assign _ _ _ (sortedKeys_assign _ _ _ (sortedKeys_assign _ _ _ hs))

/-! ## The validator check -/

theorem validatorThrows_of_rejects (m : List (String × value_t)) (key : String) (a : value_t)
    (w : ValueChangedValidator) (check : ValueChangedValidator → Bool)
    (hfind : find m key = some a) (hval : a.validator = some w) (hrej : check w = false) :
    validatorThrows m key check = true := by
  simp [validatorThrows, hfind, hval, hrej]

theorem validatorThrows_of_accepts (m : List (String × value_t)) (key : String)
    (check : ValueChangedValidator → Bool)
    (h : ∀ a w, find m key = some a → a.validator = some w → check w = true) :
    validatorThrows m key check = false := by
  unfold validatorThrows
  cases hfind : find m key with
  | none => rfl
  | some a =>
    cases hval : a.validator with
    | none => simp [hval]
    | some w => simp [hval, h a w hfind hval]

theorem validatorThrows_of_absent (m : List (String × value_t)) (key : String)
    (check : ValueChangedValidator → Bool) (h : find m key = none) :
    validatorThrows m key check = false := by
  simp [validatorThrows, h]

/-! ## Rejected values -/

/-- C1. When the validator installed on `key` rejects the value, every
`setParameter` overload throws the validation error, returns the registry it
was given, unchanged, and calls no listener. -/
theorem setParameter_rejected_leaves_registry (c : Configuration) (key : String) (a : value_t)
    (w : ValueChangedValidator) (hfind : find c.attributes key = some a)
    (hval : a.validator = some w) :
    (∀ b, w.validateBool key b = false →
      setParameter_bool c key b = ⟨c, [], some .ValidationError⟩) ∧
    (∀ n, w.validateSize key n = false →
      setParameter_size_t c key n = ⟨c, [], some .ValidationError⟩) ∧
    (∀ i, w.validateSSize key i = false →
      setParameter_ssize_t c key i = ⟨c, [], some .ValidationError⟩) ∧
    (∀ f, w.validateFloat key f = false →
      setParameter_float c key f = ⟨c, [], some .ValidationError⟩) ∧
    (∀ s, w.validateString key s = false →
      setParameter_cstr c key s = ⟨c, [], some .ValidationError⟩) ∧
    (∀ s, w.validateString key (if s.length = 0 then none else some (c_str s)) = false →
      setParameter_string c key s = ⟨c, [], some .ValidationError⟩) := by
  refine ⟨?_, ?_, ?_, ?_, ?_, ?_⟩
  · intro b hb
    have h := validatorThrows_of_rejects c.attributes key a w
      (fun v => v.validateBool key b) hfind hval hb
    simp [setParameter_bool, h]
  · intro n hn
    have h := validatorThrows_of_rejects c.attributes key a w
      (fun v => v.validateSize key n) hfind hval hn
    simp [setParameter_size_t, h]
  · intro i hi
    have h := validatorThrows_of_rejects c.attributes key a w
      (fun v => v.validateSSize key i) hfind hval hi
    simp [setParameter_ssize_t, h]
  · intro f hf
    have h := validatorThrows_of_rejects c.attributes key a w
      (fun v => v.validateFloat key f) hfind hval hf
    simp [setParameter_float, h]
  · intro s hs
    have h := validatorThrows_of_rejects c.attributes key a w
      (fun v => v.validateString key s) hfind hval hs
    simp [setParameter_cstr, h]
  · intro s hs
    by_cases hlen : s.length = 0
    · rw [if_pos hlen] at hs
      have h := validatorThrows_of_rejects c.attributes key a w
        (fun v => v.validateString key none) hfind hval hs
      simp [setParameter_string, hlen, setParameter_cstr, h]
    · rw [if_neg hlen] at hs
      have h := validatorThrows_of_rejects c.attributes key a w
        (fun v => v.validateString key (some (c_str s))) hfind hval hs
      simp [setParameter_string, hlen, setParameter_cstr, h]

/-- Witness of C1: on `sampleConfig`, whose validator rejects the size 0 and
every value of another kind, each overload throws and gives back
`sampleConfig`, with no callback. -/
theorem setParameter_rejected_leaves_registry_witness :
    setParameter_size_t sampleConfig "max_size" 0 =
      ⟨sampleConfig, [], some .ValidationError⟩ ∧
    setParameter_bool sampleConfig "max_size" true =
      ⟨sampleConfig, [], some .ValidationError⟩ ∧
    setParameter_ssize_t sampleConfig "max_size" (-1) =
      ⟨sampleConfig, [], some .ValidationError⟩ ∧
    setParameter_float sampleConfig "max_size" ⟨0⟩ =
      ⟨sampleConfig, [], some .ValidationError⟩ ∧
    setParameter_cstr sampleConfig "max_size" (some "x") =
      ⟨sampleConfig, [], some .ValidationError⟩ ∧
    setParameter_string sampleConfig "max_size" "" =
      ⟨sampleConfig, [], some .ValidationError⟩ :=
  have h := setParameter_rejected_leaves_registry sampleConfig "max_size"
    _ rejectsZero rfl rfl
  ⟨h.2.1 0 rfl, h.1 true rfl, h.2.2.1 (-1) rfl, h.2.2.2.1 ⟨0⟩ rfl, h.2.2.2.2.1 (some "x") rfl,
    h.2.2.2.2.2 "" rfl⟩

/-! ## What a `setParameter` call that passes the validator does -/

theorem modify_modify (key : String) (f g : value_t → value_t) (m : List (String × value_t)) :
    modify key g (modify key f m) = modify key (fun a => g (f a)) m := by
  induction m with
  | nil => rfl
  | cons p m ih =>
    obtain ⟨k, a⟩ := p
    by_cases h : k = key
    · simp [modify, h]
    · simp [modify, h, ih]

theorem assign_assign_self (m : List (String × value_t)) (key : String)
    (f g : value_t → value_t) :
    assign (assign m key f) key g = assign m key (fun a => g (f a)) := by
  have h := subscript_assign_self m key f
  unfold assign at h ⊢
  rw [h, modify_modify]

theorem setParameter_bool_ok (c : Configuration) (key : String) (value : Bool)
    (h : validatorThrows c.attributes key (fun v => v.validateBool key value) = false) :
    setParameter_bool c key value =
      ⟨⟨assign (assign c.attributes key (fun a => { a with datatype := some DT_BOOL })) key
          (fun a => { a with val := .v_bool value })⟩,
        (fetch c.attributes key).changeListener.map (fun l => .booleanValueChanged l key value),
        none⟩ := by
  simp [setParameter_bool, h, subscript_assign_self, fetch_assign_self]

theorem setParameter_float_ok (c : Configuration) (key : String) (value : float)
    (h : validatorThrows c.attributes key (fun v => v.validateFloat key value) = false) :
    setParameter_float c key value =
      ⟨⟨assign (assign c.attributes key (fun a => { a with datatype := some DT_FLOAT })) key
          (fun a => { a with val := .v_float value })⟩,
        (fetch c.attributes key).changeListener.map (fun l => .floatValueChanged l key value),
        none⟩ := by
  simp [setParameter_float, h, subscript_assign_self, fetch_assign_self]

theorem setParameter_size_t_ok (c : Configuration) (key : String) (value : Nat)
    (h : validatorThrows c.attributes key (fun v => v.validateSize key value) = false)
    (hkey : key ≠ "cache_size") :
    setParameter_size_t c key value =
      ⟨⟨assign (assign c.attributes key (fun a => { a with datatype := some DT_SIZE })) key
          (fun a => { a with val := .v_size value })⟩,
        (fetch c.attributes key).changeListener.map (fun l => .sizeValueChanged l key value),
        none⟩ := by
  simp [setParameter_size_t, h, hkey, subscript_assign_self, fetch_assign_self]

theorem setParameter_ssize_t_ok (c : Configuration) (key : String) (value : Int)
    (h : validatorThrows c.attributes key (fun v => v.validateSSize key value) = false)
    (hkey : key ≠ "cache_size") :
    setParameter_ssize_t c key value =
      ⟨⟨assign (assign c.attributes key (fun a => { a with datatype := some DT_SSIZE })) key
          (fun a => { a with val := .v_ssize value })⟩,
        (fetch c.attributes key).changeListener.map
          (fun l => .sizeValueChanged l key (size_t_of_ssize_t value)),
        none⟩ := by
  simp [setParameter_ssize_t, h, hkey, subscript_assign_self, fetch_assign_self]

theorem cache_size_ne_max_size : "cache_size" ≠ "max_size" := by decide

theorem setParameter_size_t_alias (c : Configuration) (value : Nat)
    (h : validatorThrows c.attributes "cache_size"
      (fun v => v.validateSize "cache_size" value) = false) :
    setParameter_size_t c "cache_size" value =
      ⟨⟨assign (assign c.attributes "cache_size" (fun a => { a with datatype := some DT_SIZE }))
          "max_size" (fun a => { a with val := .v_size value })⟩,
        (fetch c.attributes "cache_size").changeListener.map
          (fun l => .sizeValueChanged l "cache_size" value),
        none⟩ := by
  have hf : find (assign (assign c.attributes "cache_size"
      (fun a => { a with datatype := some DT_SIZE })) "max_size"
      (fun a => { a with val := .v_size value })) "cache_size" =
      some ({ fetch c.attributes "cache_size" with datatype := some DT_SIZE }) := by
    rw [find_assign_ne _ _ _ _ cache_size_ne_max_size, find_assign_self]
  simp [setParameter_size_t, h, subscript_of_find _ _ _ hf, fetch, hf]

theorem setParameter_ssize_t_alias (c : Configuration) (value : Int)
    (h : validatorThrows c.attributes "cache_size"
      (fun v => v.validateSSize "cache_size" value) = false) :
    setParameter_ssize_t c "cache_size" value =
      ⟨⟨assign (assign c.attributes "cache_size" (fun a => { a with datatype := some DT_SSIZE }))
          "max_size" (fun a => { a with val := .v_ssize value })⟩,
        (fetch c.attributes "cache_size").changeListener.map
          (fun l => .sizeValueChanged l "cache_size" (size_t_of_ssize_t value)),
        none⟩ := by
  have hf : find (assign (assign c.attributes "cache_size"
      (fun a => { a with datatype := some DT_SSIZE })) "max_size"
      (fun a => { a with val := .v_ssize value })) "cache_size" =
      some ({ fetch c.attributes "cache_size" with datatype := some DT_SSIZE }) := by
    rw [find_assign_ne _ _ _ _ cache_size_ne_max_size, find_assign_self]
  simp [setParameter_ssize_t, h, subscript_of_find _ _ _ hf, fetch, hf]

theorem setParameter_cstr_ok (c : Configuration) (key : String) (value : Option String)
    (h : validatorThrows c.attributes key (fun v => v.validateString key value) = false)
    (hfree : freesOldString c.attributes key ≠ none) :
    setParameter_cstr c key value =
      ⟨⟨assign c.attributes key
          (fun a => { a with datatype := some DT_STRING, val := .v_string value })⟩,
        (fetch c.attributes key).changeListener.map (fun l => .stringValueChanged l key value),
        none⟩ := by
  cases hfr : freesOldString c.attributes key with
  | none => exact absurd hfr hfree
  | some b =>
    cases value with
    | none =>
      simp [setParameter_cstr, h, hfr, subscript_assign_self, fetch_assign_self,
        assign_assign_self]
    | some s =>
      simp [setParameter_cstr, h, hfr, subscript_assign_self, fetch_assign_self,
        assign_assign_self]

/-! ## Notification of listeners -/

theorem validatorThrows_of_error_none (c : Configuration) (t : Bool) (r : Result)
    (h : (if t = true then (⟨c, [], some .ValidationError⟩ : Result) else r).error = none) :
    t = false := by
  cases t with
  | false => rfl
  | true => simp at h

theorem setParameter_cstr_error_none (c : Configuration) (key : String) (value : Option String)
    (h : (setParameter_cstr c key value).error = none) :
    validatorThrows c.attributes key (fun v => v.validateString key value) = false ∧
    freesOldString c.attributes key ≠ none := by
  unfold setParameter_cstr at h
  cases ht : validatorThrows c.attributes key (fun v => v.validateString key value) with
  | true => simp [ht] at h
  | false =>
    refine ⟨rfl, ?_⟩
    intro hfr
    simp [ht, hfr] at h

/-- C3. For a key other than `cache_size` and an unsigned value that the
key's validator, if there is one, accepts, `setParameter(key, v)` succeeds
and `getInteger(key)` then returns `v`. -/
theorem integer_round_trip (c : Configuration) (key : String) (v : Nat)
    (hkey : key ≠ "cache_size")
    (hacc : ∀ a w, find c.attributes key = some a → a.validator = some w →
      w.validateSize key v = true) :
    (setParameter_size_t c key v).error = none ∧
    getInteger (setParameter_size_t c key v).config key = .ok v := by
  have ht := validatorThrows_of_accepts c.attributes key (fun w => w.validateSize key v) hacc
  rw [setParameter_size_t_ok c key v ht hkey]
  simp [getInteger, find_assign_self, assign_assign_self, val_t.get_size]

/-- Witness of C3: `setParameter("max_size", 1048576)` on `sampleConfig`,
whose validator accepts the value, then `getInteger("max_size")`. -/
theorem integer_round_trip_witness :
    getInteger (setParameter_size_t sampleConfig "max_size" 1048576).config "max_size" =
      .ok 1048576 :=
  (integer_round_trip sampleConfig "max_size" 1048576 (by decide)
    (by
      intro a w hf hv
      simp only [sampleConfig, find, if_true, Option.some.injEq] at hf
      subst hf
      simp only [Option.some.injEq] at hv
      subst hv
      rfl)).2

/-- C7. When `max_size` is stored as an unsigned integer and the validator
consulted, the one installed on `cache_size` if there is one, accepts `v`,
`setParameter("cache_size", v)` succeeds and `getInteger("max_size")` then
returns `v`. -/
theorem alias_sets_max_size (c : Configuration) (a : value_t) (v : Nat)
    (hfind : find c.attributes "max_size" = some a) (htag : a.datatype = some DT_SIZE)
    (hacc : ∀ b w, find c.attributes "cache_size" = some b → b.validator = some w →
      w.validateSize "cache_size" v = true) :
    (setParameter_size_t c "cache_size" v).error = none ∧
    getInteger (setParameter_size_t c "cache_size" v).config "max_size" = .ok v := by
  have ht := validatorThrows_of_accepts c.attributes "cache_size"
    (fun w => w.validateSize "cache_size" v) hacc
  rw [setParameter_size_t_alias c v ht]
  have hm : fetch (assign c.attributes "cache_size"
      (fun a => { a with datatype := some DT_SIZE })) "max_size" = a := by
    rw [fetch_assign_ne _ _ _ _ (Ne.symm cache_size_ne_max_size)]
    simp [fetch, hfind]
  simp [getInteger, find_assign_self, hm, htag, val_t.get_size]

/-- Witness of C7: on `sampleConfig`, which holds `max_size` as an unsigned
integer and has no `cache_size`, `setParameter("cache_size", 7)` makes
`getInteger("max_size")` return 7. -/
theorem alias_sets_max_size_witness :
    getInteger (setParameter_size_t sampleConfig "cache_size" 7).config "max_size" = .ok 7 :=
  (alias_sets_max_size sampleConfig _ 7 rfl rfl
    (by
      intro b w hf
      simp [sampleConfig, find] at hf)).2

/-- C8. In a registry without a `cache_size` attribute,
`setParameter("cache_size", v)` succeeds and `getInteger("cache_size")` then
returns 0 and does not throw. -/
theorem alias_read_returns_zero (c : Configuration) (v : Nat)
    (habsent : find c.attributes "cache_size" = none) :
    (setParameter_size_t c "cache_size" v).error = none ∧
    getInteger (setParameter_size_t c "cache_size" v).config "cache_size" = .ok 0 := by
  have ht := validatorThrows_of_absent c.attributes "cache_size"
    (fun w => w.validateSize "cache_size" v) habsent
  rw [setParameter_size_t_alias c v ht]
  simp [getInteger, find_assign_ne _ _ _ _ cache_size_ne_max_size, find_assign_self, fetch,
    habsent, value_t.fresh, val_t.get_size]

/-- Witness of C8: `setParameter("cache_size", 7)` on `sampleConfig`, then
`getInteger("cache_size")`. -/
theorem alias_read_returns_zero_witness :
    getInteger (setParameter_size_t sampleConfig "cache_size" 7).config "cache_size" = .ok 0 :=
  (alias_read_returns_zero sampleConfig 7 rfl).2

/-! ## Typed reads -/

/-- C5. For a key that the registry does not hold, every getter returns the
zero of its kind and does not throw. The getters are `const`: they return
a value and no registry. -/
theorem get_absent_returns_zero (c : Configuration) (key : String)
    (habsent : find c.attributes key = none) :
    getString c key = .ok "" ∧ getBool c key = .ok false ∧ getFloat c key = .ok ⟨0⟩ ∧
    getInteger c key = .ok 0 ∧ getSignedInteger c key = .ok 0 := by
  simp [getString, getBool, getFloat, getInteger, getSignedInteger, habsent]

/-- Witness of C5: the key `cache_size`, which `sampleConfig` does not hold. -/
theorem get_absent_returns_zero_witness :
    getString sampleConfig "cache_size" = .ok "" ∧
    getBool sampleConfig "cache_size" = .ok false ∧
    getFloat sampleConfig "cache_size" = .ok ⟨0⟩ ∧
    getInteger sampleConfig "cache_size" = .ok 0 ∧
    getSignedInteger sampleConfig "cache_size" = .ok 0 :=
  get_absent_returns_zero sampleConfig "cache_size" rfl

/-- C4. Each getter throws the kind mismatch exactly when the key is in the
registry with a stored tag other than the getter's kind; when the tag is the
getter's kind it returns the value that `val` holds for that kind (for
`getString`, the empty string when the pointer is null). -/
theorem typed_read_kind_mismatch (c : Configuration) (key : String) :
    (getString c key = .error .KindMismatch ↔
      ∃ a t, find c.attributes key = some a ∧ a.datatype = some t ∧ t ≠ DT_STRING) ∧
    (getBool c key = .error .KindMismatch ↔
      ∃ a t, find c.attributes key = some a ∧ a.datatype = some t ∧ t ≠ DT_BOOL) ∧
    (getFloat c key = .error .KindMismatch ↔
      ∃ a t, find c.attributes key = some a ∧ a.datatype = some t ∧ t ≠ DT_FLOAT) ∧
    (getInteger c key = .error .KindMismatch ↔
      ∃ a t, find c.attributes key = some a ∧ a.datatype = some t ∧ t ≠ DT_SIZE) ∧
    (getSignedInteger c key = .error .KindMismatch ↔
      ∃ a t, find c.attributes key = some a ∧ a.datatype = some t ∧ t ≠ DT_SSIZE) ∧
    (∀ a s, find c.attributes key = some a → a.datatype = some DT_STRING →
      a.val.get_string = some s → getString c key = .ok (s.getD "")) ∧
    (∀ a b, find c.attributes key = some a → a.datatype = some DT_BOOL →
      a.val.get_bool = some b → getBool c key = .ok b) ∧
    (∀ a f, find c.attributes key = some a → a.datatype = some DT_FLOAT →
      a.val.get_float = some f → getFloat c key = .ok f) ∧
    (∀ a n, find c.attributes key = some a → a.datatype = some DT_SIZE →
      a.val.get_size = some n → getInteger c key = .ok n) ∧
    (∀ a i, find c.attributes key = some a → a.datatype = some DT_SSIZE →
      a.val.get_ssize = some i → getSignedInteger c key = .ok i) := by
  refine ⟨?_, ?_, ?_, ?_, ?_, ?_, ?_, ?_, ?_, ?_⟩
  · constructor
    · intro h
      unfold getString at h
      cases hf : find c.attributes key with
      | none => simp [hf] at h
      | some a =>
        cases hd : a.datatype with
        | none => simp [hf, hd] at h
        | some t =>
          refine ⟨a, t, rfl, hd, ?_⟩
          intro ht
          subst ht
          simp only [hf, hd] at h
          cases hv : a.val.get_string with
          | none => simp [hv] at h
          | some s => cases s <;> simp [hv] at h
    · rintro ⟨a, t, hf, hd, ht⟩
      simp [getString, hf, hd, ht]
  · constructor
    · intro h
      unfold getBool at h
      cases hf : find c.attributes key with
      | none => simp [hf] at h
      | some a =>
        cases hd : a.datatype with
        | none => simp [hf, hd] at h
        | some t =>
          refine ⟨a, t, rfl, hd, ?_⟩
          intro ht
          subst ht
          simp only [hf, hd] at h
          cases hv : a.val.get_bool <;> simp [hv] at h
    · rintro ⟨a, t, hf, hd, ht⟩
      simp [getBool, hf, hd, ht]
  · constructor
    · intro h
      unfold getFloat at h
      cases hf : find c.attributes key with
      | none => simp [hf] at h
      | some a =>
        cases hd : a.datatype with
        | none => simp [hf, hd] at h
        | some t =>
          refine ⟨a, t, rfl, hd, ?_⟩
          intro ht
          subst ht
          simp only [hf, hd] at h
          cases hv : a.val.get_float <;> simp [hv] at h
    · rintro ⟨a, t, hf, hd, ht⟩
      simp [getFloat, hf, hd, ht]
  · constructor
    · intro h
      unfold getInteger at h
      cases hf : find c.attributes key with
      | none => simp [hf] at h
      | some a =>
        cases hd : a.datatype with
        | none => simp [hf, hd] at h
        | some t =>
          refine ⟨a, t, rfl, hd, ?_⟩
          intro ht
          subst ht
          simp only [hf, hd] at h
          cases hv : a.val.get_size <;> simp [hv] at h
    · rintro ⟨a, t, hf, hd, ht⟩
      simp [getInteger, hf, hd, ht]
  · constructor
    · intro h
      unfold getSignedInteger at h
      cases hf : find c.attributes key with
      | none => simp [hf] at h
      | some a =>
        cases hd : a.datatype with
        | none => simp [hf, hd] at h
        | some t =>
          refine ⟨a, t, rfl, hd, ?_⟩
          intro ht
          subst ht
          simp only [hf, hd] at h
          cases hv : a.val.get_ssize <;> simp [hv] at h
    · rintro ⟨a, t, hf, hd, ht⟩
      simp [getSignedInteger, hf, hd, ht]
  · intro a s hf hd hv
    cases s <;> simp [getString, hf, hd, hv]
  · intro a b hf hd hv
    simp [getBool, hf, hd, hv]
  · intro a f hf hd hv
    simp [getFloat, hf, hd, hv]
  · intro a n hf hd hv
    simp [getInteger, hf, hd, hv]
  · intro a i hf hd hv
    simp [getSignedInteger, hf, hd, hv]

/-- Witness of C4: `sampleConfig` holds `max_size` with the unsigned tag and
the value 100, so `getInteger` returns 100 and `getBool` throws the kind
mismatch. -/
theorem typed_read_kind_mismatch_witness :
    getInteger sampleConfig "max_size" = .ok 100 ∧
    getBool sampleConfig "max_size" = .error .KindMismatch :=
  have h := typed_read_kind_mismatch sampleConfig "max_size"
  ⟨h.2.2.2.2.2.2.2.2.1 _ 100 rfl rfl rfl, h.2.1.mpr ⟨_, DT_SIZE, rfl, rfl, by decide⟩⟩

/-! ## Typed writes -/

theorem freesOldString_of_other_tag (m : List (String × value_t)) (key : String) (a : value_t)
    (K : config_datatype) (hfind : find m key = some a) (htag : a.datatype = some K)
    (hK : K ≠ DT_STRING) : freesOldString m key = some false := by
  simp [freesOldString, hfind, htag, hK]

theorem tagOf_assign_self (m : List (String × value_t)) (key : String) (f : value_t → value_t) :
    tagOf ⟨assign m key f⟩ key = (f (fetch m key)).datatype := by
  simp [tagOf, find_assign_self]

/-- C6, as stated, fails: in the registry reached by `setParameter("k", true)`
the key `k` is stored with the bool tag, and the unsigned
`setParameter("k", 5)` does not throw; it changes the stored tag to the
unsigned one and the value to 5. -/
theorem typed_write_counterexample :
    tagOf boolConfig "k" = some DT_BOOL ∧
    (setParameter_size_t boolConfig "k" 5).error = none ∧
    (setParameter_size_t boolConfig "k" 5).error ≠ some .KindMismatch ∧
    tagOf (setParameter_size_t boolConfig "k" 5).config "k" = some DT_SIZE ∧
    getInteger (setParameter_size_t boolConfig "k" 5).config "k" = .ok 5 := by
  decide

/-- C6 (amended). A typed write is not checked against the stored tag. For a
key stored with tag `K` and a setter of another kind, the call never throws
the kind mismatch; when the key's validator, if there is one, accepts the
value, the call succeeds and the stored tag of the key becomes the kind of
the setter. -/
theorem typed_write_replaces_tag (c : Configuration) (key : String) (a : value_t)
    (K : config_datatype) (hfind : find c.attributes key = some a)
    (htag : a.datatype = some K) :
    (K ≠ DT_BOOL → ∀ b,
      (setParameter_bool c key b).error ≠ some .KindMismatch ∧
      ((∀ w, a.validator = some w → w.validateBool key b = true) →
        (setParameter_bool c key b).error = none ∧
        tagOf (setParameter_bool c key b).config key = some DT_BOOL)) ∧
    (K ≠ DT_SIZE → ∀ n,
      (setParameter_size_t c key n).error ≠ some .KindMismatch ∧
      ((∀ w, a.validator = some w → w.validateSize key n = true) →
        (setParameter_size_t c key n).error = none ∧
        tagOf (setParameter_size_t c key n).config key = some DT_SIZE)) ∧
    (K ≠ DT_SSIZE → ∀ i,
      (setParameter_ssize_t c key i).error ≠ some .KindMismatch ∧
      ((∀ w, a.validator = some w → w.validateSSize key i = true) →
        (setParameter_ssize_t c key i).error = none ∧
        tagOf (setParameter_ssize_t c key i).config key = some DT_SSIZE)) ∧
    (K ≠ DT_FLOAT → ∀ f,
      (setParameter_float c key f).error ≠ some .KindMismatch ∧
      ((∀ w, a.validator = some w → w.validateFloat key f = true) →
        (setParameter_float c key f).error = none ∧
        tagOf (setParameter_float c key f).config key = some DT_FLOAT)) ∧
    (K ≠ DT_STRING → ∀ s,
      (setParameter_cstr c key s).error ≠ some .KindMismatch ∧
      ((∀ w, a.validator = some w → w.validateString key s = true) →
        (setParameter_cstr c key s).error = none ∧
        tagOf (setParameter_cstr c key s).config key = some DT_STRING)) := by
  have hacc : ∀ (check : ValueChangedValidator → Bool),
      (∀ w, a.validator = some w → check w = true) →
      validatorThrows c.attributes key check = false := by
    intro check h
    apply validatorThrows_of_accepts
    intro a2 w hf hv
    rw [hfind] at hf
    cases hf
    exact h w hv
  refine ⟨?_, ?_, ?_, ?_, ?_⟩
  · intro _ b
    constructor
    · unfold setParameter_bool
      split <;> simp
    · intro h
      rw [setParameter_bool_ok c key b (hacc _ h)]
      simp [assign_assign_self, tagOf_assign_self]
  · intro _ n
    constructor
    · unfold setParameter_size_t
      split <;> simp
    · intro h
      by_cases hkey : key = "cache_size"
      · subst hkey
        rw [setParameter_size_t_alias c n (hacc _ h)]
        simp [tagOf, find_assign_ne _ _ _ _ cache_size_ne_max_size, find_assign_self]
      · rw [setParameter_size_t_ok c key n (hacc _ h) hkey]
        simp [assign_assign_self, tagOf_assign_self]
  · intro _ i
    constructor
    · unfold setParameter_ssize_t
      split <;> simp
    · intro h
      by_cases hkey : key = "cache_size"
      · subst hkey
        rw [setParameter_ssize_t_alias c i (hacc _ h)]
        simp [tagOf, find_assign_ne _ _ _ _ cache_size_ne_max_size, find_assign_self]
      · rw [setParameter_ssize_t_ok c key i (hacc _ h) hkey]
        simp [assign_assign_self, tagOf_assign_self]
  · intro _ f
    constructor
    · unfold setParameter_float
      split <;> simp
    · intro h
      rw [setParameter_float_ok c key f (hacc _ h)]
      simp [assign_assign_self, tagOf_assign_self]
  · intro hK s
    have hfr := freesOldString_of_other_tag c.attributes key a K hfind htag hK
    constructor
    · unfold setParameter_cstr
      rw [hfr]
      split <;> simp
    · intro h
      rw [setParameter_cstr_ok c key s (hacc _ h) (by simp [hfr])]
      simp [tagOf_assign_self]

/-- Witness of C6 (amended): `boolConfig` holds `k` with the bool tag and no
validator; the unsigned `setParameter("k", 5)` succeeds and leaves `k` with
the unsigned tag. -/
theorem typed_write_replaces_tag_witness :
    (setParameter_size_t boolConfig "k" 5).error = none ∧
    tagOf (setParameter_size_t boolConfig "k" 5).config "k" = some DT_SIZE :=
  ((typed_write_replaces_tag boolConfig "k" _ DT_BOOL rfl rfl).2.1 (by decide) 5).2
    (by intro w hw; cases hw)

/-! ## Statistics -/

theorem printAttribute_skips_iff (fmt : float → String) (k : String) (a : value_t)
    (line : Option String) (h : printAttribute fmt k a = some line) :
    line = none ↔ a.datatype = some DT_CONFIGFILE := by
  unfold printAttribute at h
  cases hd : a.datatype with
  | none => simp [hd] at h
  | some t =>
    cases t with
    | DT_SIZE =>
      simp only [hd] at h
      cases hv : a.val.get_size <;> simp [hv] at h
      simp [← h]
    | DT_SSIZE =>
      simp only [hd] at h
      cases hv : a.val.get_ssize <;> simp [hv] at h
      simp [← h]
    | DT_FLOAT =>
      simp only [hd] at h
      cases hv : a.val.get_float <;> simp [hv] at h
      simp [← h]
    | DT_BOOL =>
      simp only [hd] at h
      cases hv : a.val.get_bool <;> simp [hv] at h
      simp [← h]
    | DT_STRING =>
      simp only [hd] at h
      cases hv : a.val.get_string with
      | none => simp [hv] at h
      | some s =>
        cases s with
        | none => simp [hv] at h
        | some s =>
          simp [hv] at h
          simp [← h]
    | DT_CONFIGFILE =>
      simp [hd] at h
      simp [← h]

/-- The sibling of `addStats`: `operator<<` writes one line for each attribute
but those that carry the config-file tag. -/
theorem printLoop_length (fmt : float → String) (m : List (String × value_t)) :
    ∀ out, printLoop fmt m = some out →
      out.length = (m.filter (fun p => decide (p.2.datatype ≠ some DT_CONFIGFILE))).length := by
  induction m with
  | nil =>
    intro out h
    simp [printLoop] at h
    simp [← h]
  | cons p m ih =>
    obtain ⟨k, a⟩ := p
    intro out h
    unfold printLoop at h
    cases hv : printAttribute fmt k a with
    | none => simp [hv] at h
    | some line =>
      cases hr : printLoop fmt m with
      | none => simp [hv, hr] at h
      | some rest =>
        simp only [hv, hr, Option.some.injEq] at h
        have hskip := printAttribute_skips_iff fmt k a line hv
        cases line with
        | none =>
          have hd : a.datatype = some DT_CONFIGFILE := hskip.mp rfl
          simp [← h, ih rest hr, List.filter_cons, hd]
        | some l =>
          have hd : a.datatype ≠ some DT_CONFIGFILE := fun e => by
            have := hskip.mpr e
            cases this
          simp [← h, ih rest hr, List.filter_cons, hd]

/-- Outside the registries that the calls reach: for a registry whose only
attribute carries the config-file tag, `addStats` hands the callback one
entry, `ep_config_file` with an empty value, and `operator<<` writes no line
for it. No statement of the source stores this tag. -/
theorem addStats_emits_config_file_marker (fmt : float → String) :
    addStats fmt markerConfig = some [("ep_config_file", "")] ∧
    operator_lshift fmt markerConfig = some [] := by
  constructor <;> rfl

theorem toString_nat_eq_decimal (n : Nat) : toString n = decimal n := rfl

theorem toString_int_eq_decimal (i : Int) :
    toString i = if i < 0 then "-" ++ decimal (-i).toNat else decimal i.toNat := by
  cases i with
  | ofNat n =>
    have h : ¬ (Int.ofNat n < 0) := by simp
    rw [if_neg h]
    rfl
  | negSucc n =>
    have h : Int.negSucc n < 0 := Int.negSucc_lt_zero n
    rw [if_pos h]
    rfl

theorem statValue_of_stored (fmt : float → String) (a : value_t) (v : Stored)
    (h : a.stored = some v) : statValue fmt a = some (rendering fmt v) := by
  unfold value_t.stored at h
  unfold statValue
  cases hd : a.datatype with
  | none => simp [hd] at h
  | some t =>
    cases t with
    | DT_SIZE =>
      simp only [hd] at h ⊢
      cases hv : a.val.get_size with
      | none => simp [hv] at h
      | some n =>
        simp [hv] at h
        simp [← h, rendering, toString_nat_eq_decimal]
    | DT_SSIZE =>
      simp only [hd] at h ⊢
      cases hv : a.val.get_ssize with
      | none => simp [hv] at h
      | some i =>
        simp [hv] at h
        simp only [← h, rendering, Option.map_some', toString_int_eq_decimal]
    | DT_FLOAT =>
      simp only [hd] at h ⊢
      cases hv : a.val.get_float with
      | none => simp [hv] at h
      | some f =>
        simp [hv] at h
        simp [← h, rendering]
    | DT_BOOL =>
      simp only [hd] at h ⊢
      cases hv : a.val.get_bool with
      | none => simp [hv] at h
      | some b =>
        simp [hv] at h
        cases b <;> simp [← h, rendering]
    | DT_STRING =>
      simp only [hd] at h ⊢
      cases hv : a.val.get_string with
      | none => simp [hv] at h
      | some s =>
        cases s with
        | none => simp [hv] at h
        | some s =>
          simp [hv] at h
          simp [← h, rendering]
    | DT_CONFIGFILE => simp [hd] at h

theorem addStatsLoop_of_stored (fmt : float → String) (m : List (String × value_t))
    (h : ∀ p ∈ m, (p.2).stored ≠ none) :
    addStatsLoop fmt m = some (m.map (statEntry fmt)) := by
  induction m with
  | nil => rfl
  | cons p m ih =>
    obtain ⟨k, a⟩ := p
    have ha : a.stored ≠ none := h (k, a) (List.mem_cons_self _ _)
    have hm : ∀ p ∈ m, (p.2).stored ≠ none := fun p hp => h p (List.mem_cons_of_mem _ hp)
    cases hs : a.stored with
    | none => exact absurd hs ha
    | some v =>
      simp [addStatsLoop, statValue_of_stored fmt a v hs, ih hm, statEntry, hs,
        add_casted_stat]

/-- C10. When every attribute holds a value of its tag's kind (bool, string
that is not null, unsigned, signed or float), `addStats` hands the callback
one entry for each attribute, in the order of the map, named `ep_` followed
by the key, with the rendering of the value: `true` or `false`, the decimal
numeral, the string itself. `addStats` is `const`: it returns entries and no
registry. -/
theorem addStats_emits_every_attribute (fmt : float → String) (c : Configuration)
    (h : ∀ p ∈ c.attributes, (p.2).stored ≠ none) :
    addStats fmt c = some (c.attributes.map (statEntry fmt)) :=
  addStatsLoop_of_stored fmt c.attributes h

/-- Witness of C10: the entries for `statsConfig`, in key order, when the
stream prints the float as `0.5`. -/
theorem addStats_emits_every_attribute_witness :
    addStats (fun _ => "0.5") statsConfig =
      some [("ep_b", "true"), ("ep_f", "0.5"), ("ep_i", "-7"), ("ep_n", "42"),
        ("ep_s", "hello")] :=
  addStats_emits_every_attribute (fun _ => "0.5") statsConfig (by decide)

/-! ## Registration of listeners and validators -/

theorem keys_subscript_of_find (m : List (String × value_t)) (key : String) (a : value_t)
    (h : find m key = some a) : (subscript m key).map Prod.fst = m.map Prod.fst := by
  rw [subscript_of_find m key a h]

theorem keys_assign_of_find (m : List (String × value_t)) (key : String) (a : value_t)
    (f : value_t → value_t) (h : find m key = some a) :
    (assign m key f).map Prod.fst = m.map Prod.fst := by
  unfold assign
  rw [keys_modify, keys_subscript_of_find m key a h]

theorem fetch_of_find (m : List (String × value_t)) (key : String) (a : value_t)
    (h : find m key = some a) : fetch m key = a := by
  simp [fetch, h]

/-- C13. `addValueChangedListener(key, l)` gives back the registry unchanged
when the key is absent. When the key is present, its record is the old one
with `l` appended to the list of listeners (value, tag, validator and the
earlier listeners in their order are the old ones), every other key has the
record it had, and the keys of the map are the same. -/
theorem addValueChangedListener_appends (c : Configuration) (key : String)
    (l : ValueChangedListener) :
    (find c.attributes key = none → addValueChangedListener c key l = c) ∧
    (∀ a, find c.attributes key = some a →
      find (addValueChangedListener c key l).attributes key =
        some { a with changeListener := a.changeListener ++ [l] } ∧
      (∀ k2, k2 ≠ key →
        find (addValueChangedListener c key l).attributes k2 = find c.attributes k2) ∧
      (addValueChangedListener c key l).attributes.map Prod.fst =
        c.attributes.map Prod.fst) := by
  constructor
  · intro h
    simp [addValueChangedListener, h]
  · intro a h
    refine ⟨?_, ?_, ?_⟩
    · simp [addValueChangedListener, h, find_assign_self, fetch_of_find _ _ _ h]
    · intro k2 hk
      simp [addValueChangedListener, h, find_assign_ne _ _ _ _ hk]
    · simp [addValueChangedListener, h, keys_assign_of_find _ _ _ _ h]

/-- Witness of C13: listener 9 registered on `cache_size`, which `sampleConfig`
does not hold, and on `max_size`, which it holds with listener 1. -/
theorem addValueChangedListener_appends_witness :
    addValueChangedListener sampleConfig "cache_size" 9 = sampleConfig ∧
    listenersOf (addValueChangedListener sampleConfig "max_size" 9) "max_size" = [1, 9] :=
  have h := addValueChangedListener_appends sampleConfig "max_size" 9
  have h2 := addValueChangedListener_appends sampleConfig "cache_size" 9
  ⟨h2.1 rfl, by
    have h3 := (h.2 _ rfl).1
    simp [listenersOf, fetch, h3]⟩

theorem fetch_subscript (m : List (String × value_t)) (key k2 : String) :
    fetch (subscript m key) k2 = fetch m k2 := by
  by_cases h : k2 = key
  · subst h
    simp [fetch, find_subscript_self]
  · simp [fetch, find_subscript_ne _ _ _ h]

theorem fetch_assign_proj {β : Type} (proj : value_t → β) (m : List (String × value_t))
    (key : String) (f : value_t → value_t) (hf : ∀ a, proj (f a) = proj a) (k2 : String) :
    proj (fetch (assign m key f) k2) = proj (fetch m k2) := by
  by_cases h : k2 = key
  · subst h
    rw [fetch_assign_self, hf]
  · rw [fetch_assign_ne _ _ _ _ h]

theorem validatorOf_eq_fetch (c : Configuration) (key : String) :
    validatorOf c key = (fetch c.attributes key).validator := by
  unfold validatorOf fetch
  cases find c.attributes key <;> simp [value_t.fresh]

/-- What a setter leaves alone: a quantity that depends only on the listeners
and the validator of a record has, at every key, the value it had. -/
theorem setParameter_frame {β : Type} (proj : value_t → β)
    (hp : ∀ a1 a2 : value_t, a1.changeListener = a2.changeListener →
      a1.validator = a2.validator → proj a1 = proj a2)
    (c : Configuration) (key k2 : String) :
    (∀ b, proj (fetch (setParameter_bool c key b).config.attributes k2) =
      proj (fetch c.attributes k2)) ∧
    (∀ n, proj (fetch (setParameter_size_t c key n).config.attributes k2) =
      proj (fetch c.attributes k2)) ∧
    (∀ i, proj (fetch (setParameter_ssize_t c key i).config.attributes k2) =
      proj (fetch c.attributes k2)) ∧
    (∀ f, proj (fetch (setParameter_float c key f).config.attributes k2) =
      proj (fetch c.attributes k2)) ∧
    (∀ s, proj (fetch (setParameter_cstr c key s).config.attributes k2) =
      proj (fetch c.attributes k2)) := by
  have htag : ∀ (t : Option config_datatype) (a : value_t),
      proj { a with datatype := t } = proj a := fun t a => hp _ _ rfl rfl
  have hval : ∀ (v : val_t) (a : value_t), proj { a with val := v } = proj a :=
    fun v a => hp _ _ rfl rfl
  have hboth : ∀ (t : Option config_datatype) (v : val_t) (a : value_t),
      proj { a with datatype := t, val := v } = proj a := fun t v a => hp _ _ rfl rfl
  refine ⟨?_, ?_, ?_, ?_, ?_⟩
  · intro b
    cases ht : validatorThrows c.attributes key (fun v => v.validateBool key b) with
    | true => simp [setParameter_bool, ht]
    | false =>
      rw [setParameter_bool_ok c key b ht]
      simp only []
      rw [fetch_assign_proj proj _ _ _ (hval _), fetch_assign_proj proj _ _ _ (htag _)]
  · intro n
    cases ht : validatorThrows c.attributes key (fun v => v.validateSize key n) with
    | true => simp [setParameter_size_t, ht]
    | false =>
      by_cases hkey : key = "cache_size"
      · subst hkey
        rw [setParameter_size_t_alias c n ht]
        simp only []
        rw [fetch_assign_proj proj _ _ _ (hval _), fetch_assign_proj proj _ _ _ (htag _)]
      · rw [setParameter_size_t_ok c key n ht hkey]
        simp only []
        rw [fetch_assign_proj proj _ _ _ (hval _), fetch_assign_proj proj _ _ _ (htag _)]
  · intro i
    cases ht : validatorThrows c.attributes key (fun v => v.validateSSize key i) with
    | true => simp [setParameter_ssize_t, ht]
    | false =>
      by_cases hkey : key = "cache_size"
      · subst hkey
        rw [setParameter_ssize_t_alias c i ht]
        simp only []
        rw [fetch_assign_proj proj _ _ _ (hval _), fetch_assign_proj proj _ _ _ (htag _)]
      · rw [setParameter_ssize_t_ok c key i ht hkey]
        simp only []
        rw [fetch_assign_proj proj _ _ _ (hval _), fetch_assign_proj proj _ _ _ (htag _)]
  · intro f
    cases ht : validatorThrows c.attributes key (fun v => v.validateFloat key f) with
    | true => simp [setParameter_float, ht]
    | false =>
      rw [setParameter_float_ok c key f ht]
      simp only []
      rw [fetch_assign_proj proj _ _ _ (hval _), fetch_assign_proj proj _ _ _ (htag _)]
  · intro s
    cases ht : validatorThrows c.attributes key (fun v => v.validateString key s) with
    | true => simp [setParameter_cstr, ht]
    | false =>
      cases hfr : freesOldString c.attributes key with
      | none => simp [setParameter_cstr, ht, hfr]
      | some b =>
        rw [setParameter_cstr_ok c key s ht (by simp [hfr])]
        simp only []
        rw [fetch_assign_proj proj _ _ _ (hboth _ _)]

theorem setParameter_error_validation (c : Configuration) (key : String) :
    (∀ b, (setParameter_bool c key b).error = some .ValidationError ↔
      validatorThrows c.attributes key (fun v => v.validateBool key b) = true) ∧
    (∀ n, (setParameter_size_t c key n).error = some .ValidationError ↔
      validatorThrows c.attributes key (fun v => v.validateSize key n) = true) ∧
    (∀ i, (setParameter_ssize_t c key i).error = some .ValidationError ↔
      validatorThrows c.attributes key (fun v => v.validateSSize key i) = true) ∧
    (∀ f, (setParameter_float c key f).error = some .ValidationError ↔
      validatorThrows c.attributes key (fun v => v.validateFloat key f) = true) ∧
    (∀ s, (setParameter_cstr c key s).error = some .ValidationError ↔
      validatorThrows c.attributes key (fun v => v.validateString key s) = true) := by
  refine ⟨?_, ?_, ?_, ?_, ?_⟩
  · intro b
    unfold setParameter_bool
    cases validatorThrows c.attributes key (fun v => v.validateBool key b) <;> simp
  · intro n
    unfold setParameter_size_t
    cases validatorThrows c.attributes key (fun v => v.validateSize key n) <;> simp
  · intro i
    unfold setParameter_ssize_t
    cases validatorThrows c.attributes key (fun v => v.validateSSize key i) <;> simp
  · intro f
    unfold setParameter_float
    cases validatorThrows c.attributes key (fun v => v.validateFloat key f) <;> simp
  · intro s
    unfold setParameter_cstr
    cases validatorThrows c.attributes key (fun v => v.validateString key s) with
    | true => simp
    | false => cases freesOldString c.attributes key <;> simp

theorem validatorThrows_eq (c : Configuration) (key : String)
    (check : ValueChangedValidator → Bool) :
    validatorThrows c.attributes key check =
      match validatorOf c key with
      | none => false
      | some w => !check w := by
  unfold validatorThrows validatorOf
  cases find c.attributes key with
  | none => rfl
  | some a => cases hv : a.validator <;> simp [hv]

/-- C14. In a registry that holds `key`, `setValueValidator(key, v)` returns
the validator that was installed on the key (none when there was none) and
leaves the record of the key with `v` as its validator and the same value,
tag and listeners; the other keys keep their records. Every `setParameter`
on the key then throws the validation error exactly when `v` is a validator
that rejects the value, and leaves `v` installed on the key. -/
theorem setValueValidator_installs (c : Configuration) (key : String) (a : value_t)
    (v : Option ValueChangedValidator) (hfind : find c.attributes key = some a) :
    (setValueValidator c key v).1 = a.validator ∧
    find (setValueValidator c key v).2.attributes key = some { a with validator := v } ∧
    (∀ k2, k2 ≠ key →
      find (setValueValidator c key v).2.attributes k2 = find c.attributes k2) ∧
    (∀ b, ((setParameter_bool (setValueValidator c key v).2 key b).error =
        some .ValidationError ↔ ∃ w, v = some w ∧ w.validateBool key b = false) ∧
      validatorOf (setParameter_bool (setValueValidator c key v).2 key b).config key = v) ∧
    (∀ n, ((setParameter_size_t (setValueValidator c key v).2 key n).error =
        some .ValidationError ↔ ∃ w, v = some w ∧ w.validateSize key n = false) ∧
      validatorOf (setParameter_size_t (setValueValidator c key v).2 key n).config key = v) ∧
    (∀ i, ((setParameter_ssize_t (setValueValidator c key v).2 key i).error =
        some .ValidationError ↔ ∃ w, v = some w ∧ w.validateSSize key i = false) ∧
      validatorOf (setParameter_ssize_t (setValueValidator c key v).2 key i).config key = v) ∧
    (∀ f, ((setParameter_float (setValueValidator c key v).2 key f).error =
        some .ValidationError ↔ ∃ w, v = some w ∧ w.validateFloat key f = false) ∧
      validatorOf (setParameter_float (setValueValidator c key v).2 key f).config key = v) ∧
    (∀ s, ((setParameter_cstr (setValueValidator c key v).2 key s).error =
        some .ValidationError ↔ ∃ w, v = some w ∧ w.validateString key s = false) ∧
      validatorOf (setParameter_cstr (setValueValidator c key v).2 key s).config key = v) := by
  have hpost : find (setValueValidator c key v).2.attributes key =
      some { a with validator := v } := by
    simp [setValueValidator, hfind, subscript_of_find _ _ _ hfind, find_assign_self,
      fetch_of_find _ _ _ hfind]
  have hvo : validatorOf (setValueValidator c key v).2 key = v := by
    simp [validatorOf, hpost]
  have hthrows : ∀ check : ValueChangedValidator → Bool,
      validatorThrows (setValueValidator c key v).2.attributes key check = true ↔
        ∃ w, v = some w ∧ check w = false := by
    intro check
    rw [validatorThrows_eq, hvo]
    cases v with
    | none => simp
    | some w => simp
  have hframe := setParameter_frame (fun r => r.validator) (fun _ _ _ h => h)
    (setValueValidator c key v).2 key key
  have herr := setParameter_error_validation (setValueValidator c key v).2 key
  refine ⟨?_, hpost, ?_, ?_, ?_, ?_, ?_, ?_⟩
  · simp [setValueValidator, hfind, subscript_of_find _ _ _ hfind, fetch_of_find _ _ _ hfind]
  · intro k2 hk
    simp [setValueValidator, hfind, subscript_of_find _ _ _ hfind, find_assign_ne _ _ _ _ hk]
  · intro b
    refine ⟨(herr.1 b).trans (hthrows _), ?_⟩
    rw [validatorOf_eq_fetch, hframe.1 b, ← validatorOf_eq_fetch, hvo]
  · intro n
    refine ⟨(herr.2.1 n).trans (hthrows _), ?_⟩
    rw [validatorOf_eq_fetch, hframe.2.1 n, ← validatorOf_eq_fetch, hvo]
  · intro i
    refine ⟨(herr.2.2.1 i).trans (hthrows _), ?_⟩
    rw [validatorOf_eq_fetch, hframe.2.2.1 i, ← validatorOf_eq_fetch, hvo]
  · intro f
    refine ⟨(herr.2.2.2.1 f).trans (hthrows _), ?_⟩
    rw [validatorOf_eq_fetch, hframe.2.2.2.1 f, ← validatorOf_eq_fetch, hvo]
  · intro s
    refine ⟨(herr.2.2.2.2 s).trans (hthrows _), ?_⟩
    rw [validatorOf_eq_fetch, hframe.2.2.2.2 s, ← validatorOf_eq_fetch, hvo]

/-- Witness of C14: on `sampleConfig` the validator of `max_size` is replaced
by none; the call returns `rejectsZero`, and `setParameter("max_size", 0)`,
rejected before, now succeeds. -/
theorem setValueValidator_installs_witness :
    (setValueValidator sampleConfig "max_size" none).1 = some rejectsZero ∧
    (setParameter_size_t sampleConfig "max_size" 0).error = some .ValidationError ∧
    (setParameter_size_t (setValueValidator sampleConfig "max_size" none).2 "max_size" 0).error
      ≠ some .ValidationError :=
  have h := setValueValidator_installs sampleConfig "max_size" _ none rfl
  ⟨h.1, by decide, fun e => by
    have h2 := (h.2.2.2.2.1 0).1.mp e
    obtain ⟨w, hw, _⟩ := h2
    cases hw⟩

/-! ## Properties of every attribute that the calls preserve -/

theorem forall_modify (Q : value_t → Prop) (key : String) (f : value_t → value_t)
    (hf : ∀ a, Q a → Q (f a)) (m : List (String × value_t)) (h : ∀ p ∈ m, Q p.2) :
    ∀ p ∈ modify key f m, Q p.2 := by
  induction m with
  | nil => intro p hp; cases hp
  | cons q m ih =>
    obtain ⟨k, a⟩ := q
    have ha : Q a := h (k, a) (List.mem_cons_self _ _)
    have hm : ∀ p ∈ m, Q p.2 := fun p hp => h p (List.mem_cons_of_mem _ hp)
    intro p hp
    by_cases hk : k = key
    · rw [modify, if_pos hk] at hp
      rcases List.mem_cons.mp hp with hp | hp
      · rw [hp]; exact hf a ha
      · exact hm p hp
    · rw [modify, if_neg hk] at hp
      rcases List.mem_cons.mp hp with hp | hp
      · rw [hp]; exact ha
      · exact ih hm p hp

theorem forall_subscript (Q : value_t → Prop) (key : String) (hfresh : Q value_t.fresh)
    (m : List (String × value_t)) (h : ∀ p ∈ m, Q p.2) :
    ∀ p ∈ subscript m key, Q p.2 := by
  unfold subscript
  cases hfind : find m key with
  | some a => exact h
  | none =>
    intro p hp
    rcases mem_insertSorted key _ m p hp with hp | hp
    · rw [hp]; exact hfresh
    · exact h p hp

theorem forall_assign (Q : value_t → Prop) (key : String) (f : value_t → value_t)
    (hfresh : Q value_t.fresh) (hf : ∀ a, Q a → Q (f a)) (m : List (String × value_t))
    (h : ∀ p ∈ m, Q p.2) : ∀ p ∈ assign m key f, Q p.2 :=
  forall_modify Q key f hf _ (forall_subscript Q key hfresh m h)

/-- A property of records that holds of a fresh record and survives a write
of `val` and the assignment of a tag other than the config-file tag holds of
every attribute after a `setParameter` call when it held of every attribute
before. -/
theorem setParameter_forall (Q : value_t → Prop) (hfresh : Q value_t.fresh)
    (hval : ∀ (a : value_t) (v : val_t), Q a → Q { a with val := v })
    (htag : ∀ (a : value_t) (t : config_datatype), t ≠ DT_CONFIGFILE → Q a →
      Q { a with datatype := some t })
    (c : Configuration) (key : String) (h : ∀ p ∈ c.attributes, Q p.2) :
    (∀ b, ∀ p ∈ (setParameter_bool c key b).config.attributes, Q p.2) ∧
    (∀ n, ∀ p ∈ (setParameter_size_t c key n).config.attributes, Q p.2) ∧
    (∀ i, ∀ p ∈ (setParameter_ssize_t c key i).config.attributes, Q p.2) ∧
    (∀ f, ∀ p ∈ (setParameter_float c key f).config.attributes, Q p.2) ∧
    (∀ s, ∀ p ∈ (setParameter_cstr c key s).config.attributes, Q p.2) ∧
    (∀ s, ∀ p ∈ (setParameter_string c key s).config.attributes, Q p.2) := by
  have hstep : ∀ (t : config_datatype) (v : val_t) (k2 : String), t ≠ DT_CONFIGFILE →
      ∀ p ∈ assign (assign c.attributes key (fun a => { a with datatype := some t })) k2
        (fun a => { a with val := v }), Q p.2 := by
    intro t v k2 ht
    exact forall_assign Q k2 _ hfresh (fun a ha => hval a v ha) _
      (forall_assign Q key _ hfresh (fun a ha => htag a t ht ha) _ h)
  have hcstr : ∀ s, ∀ p ∈ (setParameter_cstr c key s).config.attributes, Q p.2 := by
    intro s
    cases ht : validatorThrows c.attributes key (fun v => v.validateString key s) with
    | true => simpa [setParameter_cstr, ht] using h
    | false =>
      cases hfr : freesOldString c.attributes key with
      | none => simpa [setParameter_cstr, ht, hfr] using h
      | some b =>
        rw [setParameter_cstr_ok c key s ht (by simp [hfr])]
        exact forall_assign Q key _ hfresh
          (fun a ha => hval _ _ (htag a DT_STRING (by decide) ha)) _ h
  refine ⟨?_, ?_, ?_, ?_, hcstr, ?_⟩
  · intro b
    cases ht : validatorThrows c.attributes key (fun v => v.validateBool key b) with
    | true => simpa [setParameter_bool, ht] using h
    | false =>
      rw [setParameter_bool_ok c key b ht]
      exact hstep DT_BOOL _ key (by decide)
  · intro n
    cases ht : validatorThrows c.attributes key (fun v => v.validateSize key n) with
    | true => simpa [setParameter_size_t, ht] using h
    | false =>
      by_cases hkey : key = "cache_size"
      · subst hkey
        rw [setParameter_size_t_alias c n ht]
        exact hstep DT_SIZE _ "max_size" (by decide)
      · rw [setParameter_size_t_ok c key n ht hkey]
        exact hstep DT_SIZE _ key (by decide)
  · intro i
    cases ht : validatorThrows c.attributes key (fun v => v.validateSSize key i) with
    | true => simpa [setParameter_ssize_t, ht] using h
    | false =>
      by_cases hkey : key = "cache_size"
      · subst hkey
        rw [setParameter_ssize_t_alias c i ht]
        exact hstep DT_SSIZE _ "max_size" (by decide)
      · rw [setParameter_ssize_t_ok c key i ht hkey]
        exact hstep DT_SSIZE _ key (by decide)
  · intro f
    cases ht : validatorThrows c.attributes key (fun v => v.validateFloat key f) with
    | true => simpa [setParameter_float, ht] using h
    | false =>
      rw [setParameter_float_ok c key f ht]
      exact hstep DT_FLOAT _ key (by decide)
  · intro s
    unfold setParameter_string
    split
    · exact hcstr _
    · exact hcstr _

theorem setFound_forall (Q : value_t → Prop) (hfresh : Q value_t.fresh)
    (hval : ∀ (a : value_t) (v : val_t), Q a → Q { a with val := v })
    (htag : ∀ (a : value_t) (t : config_datatype), t ≠ DT_CONFIGFILE → Q a →
      Q { a with datatype := some t })
    (c : Configuration) (item : config_item) (slot : val_t)
    (h : ∀ p ∈ c.attributes, Q p.2) :
    ∀ p ∈ (setFound c item slot).config.attributes, Q p.2 := by
  have hs := setParameter_forall Q hfresh hval htag c item.key h
  unfold setFound
  cases item.datatype with
  | DT_SIZE =>
    cases slot.get_size with
    | none => exact h
    | some n => exact hs.2.1 n
  | DT_SSIZE =>
    cases slot.get_ssize with
    | none => exact h
    | some i => exact hs.2.2.1 i
  | DT_FLOAT =>
    cases slot.get_float with
    | none => exact h
    | some f => exact hs.2.2.2.1 f
  | DT_BOOL =>
    cases slot.get_bool with
    | none => exact h
    | some b => exact hs.1 b
  | DT_STRING =>
    cases slot.get_string with
    | none => exact h
    | some s => exact hs.2.2.2.2.1 s
  | DT_CONFIGFILE => exact h

theorem parseLoop_forall (Q : value_t → Prop) (hfresh : Q value_t.fresh)
    (hval : ∀ (a : value_t) (v : val_t), Q a → Q { a with val := v })
    (htag : ∀ (a : value_t) (t : config_datatype), t ≠ DT_CONFIGFILE → Q a →
      Q { a with datatype := some t })
    (ret : Bool) (l : List (config_item × Bool × val_t)) :
    ∀ (c : Configuration) (calls : List Call), (∀ p ∈ c.attributes, Q p.2) →
      ∀ p ∈ (parseLoop ret l c calls).config.attributes, Q p.2 := by
  induction l with
  | nil => intro c calls h; exact h
  | cons e rest ih =>
    obtain ⟨item, found, slot⟩ := e
    intro c calls h
    have hsf := setFound_forall Q hfresh hval htag c item slot h
    unfold parseLoop
    cases found with
    | false => exact ih c calls h
    | true =>
      cases ret with
      | false => exact ih c calls h
      | true =>
        simp only [if_true]
        cases he : (setFound c item slot).error with
        | some e => exact hsf
        | none => exact ih _ _ hsf

/-- C15. When no attribute carries the config-file tag, none does after a
`setParameter` of any overload, after `addValueChangedListener`, after
`setValueValidator` or after `parseConfiguration`, whether the call returns
or throws; so none does after any sequence of such calls. -/
theorem config_file_tag_never_stored (c : Configuration) (h : noConfigFileTag c) :
    (∀ op : ConfigOp, noConfigFileTag (op.apply c)) ∧
    (∀ ops : List ConfigOp, noConfigFileTag (runOps c ops)) := by
  have hfresh : (value_t.fresh).datatype ≠ some DT_CONFIGFILE := by simp [value_t.fresh]
  have hval : ∀ (a : value_t) (v : val_t), a.datatype ≠ some DT_CONFIGFILE →
      ({ a with val := v } : value_t).datatype ≠ some DT_CONFIGFILE := fun _ _ ha => ha
  have htag : ∀ (a : value_t) (t : config_datatype), t ≠ DT_CONFIGFILE →
      a.datatype ≠ some DT_CONFIGFILE →
      ({ a with datatype := some t } : value_t).datatype ≠ some DT_CONFIGFILE := by
    intro a t ht _ e
    simp at e
    exact ht e
  have hop : ∀ (c : Configuration), noConfigFileTag c →
      ∀ op : ConfigOp, noConfigFileTag (op.apply c) := by
    intro c h op
    have hs := setParameter_forall (fun a => a.datatype ≠ some DT_CONFIGFILE) hfresh hval htag
    cases op with
    | setBool key value => exact (hs c key h).1 value
    | setSize key value => exact (hs c key h).2.1 value
    | setSSize key value => exact (hs c key h).2.2.1 value
    | setFloat key value => exact (hs c key h).2.2.2.1 value
    | setCstr key value => exact (hs c key h).2.2.2.2.1 value
    | setString key value => exact (hs c key h).2.2.2.2.2 value
    | addListener key l =>
      show noConfigFileTag (addValueChangedListener c key l)
      unfold addValueChangedListener
      cases hf : find c.attributes key with
      | none => exact h
      | some a =>
        exact forall_assign (fun a => a.datatype ≠ some DT_CONFIGFILE) key
          (fun a => { a with changeListener := a.changeListener ++ [l] }) hfresh
          (fun a ha => ha) _ h
    | setValidator key v =>
      show noConfigFileTag (setValueValidator c key v).2
      unfold setValueValidator
      cases hf : find c.attributes key with
      | none => exact h
      | some a =>
        exact forall_assign (fun a => a.datatype ≠ some DT_CONFIGFILE) key
          (fun a => { a with validator := v }) hfresh (fun a ha => ha) _
          (forall_subscript (fun a => a.datatype ≠ some DT_CONFIGFILE) key hfresh _ h)
    | parse str sapi =>
      show noConfigFileTag (parseConfiguration c str sapi).config
      unfold parseConfiguration
      cases hc : configItems c.attributes with
      | none => exact h
      | some config =>
        exact parseLoop_forall (fun a => a.datatype ≠ some DT_CONFIGFILE) hfresh hval htag
          _ _ c [] h
  refine ⟨hop c h, ?_⟩
  intro ops
  unfold runOps
  induction ops generalizing c with
  | nil => exact h
  | cons op ops ih => exact ih (op.apply c) (hop c h op)

/-- Witness of C15: `sampleConfig` carries no config-file tag, and none is
there after an alias write, a bool write and a parse that marks `config_file`
found. -/
theorem config_file_tag_never_stored_witness :
    noConfigFileTag (runOps sampleConfig
      [.setSize "cache_size" 7, .setBool "b" true, .parse "" parserFile]) :=
  (config_file_tag_never_stored sampleConfig (by
    intro p hp
    simp [sampleConfig] at hp
    rw [hp]
    simp)).2 _

/-! ## The loop of `parseConfiguration` -/

theorem parseLoop_eq_applySets (l : List (config_item × Bool × val_t)) :
    ∀ (c : Configuration) (calls : List Call),
      parseLoop true l c calls =
        { config := (applySets (foundItems l) c calls).config,
          calls := (applySets (foundItems l) c calls).calls,
          error := (applySets (foundItems l) c calls).error, ret := true } := by
  induction l with
  | nil => intro c calls; rfl
  | cons e rest ih =>
    obtain ⟨item, found, slot⟩ := e
    intro c calls
    cases found with
    | false =>
      have hf : foundItems ((item, false, slot) :: rest) = foundItems rest := by
        simp [foundItems]
      rw [hf]
      simp only [parseLoop, Bool.false_eq_true, if_false]
      exact ih c calls
    | true =>
      have hf : foundItems ((item, true, slot) :: rest) = (item, slot) :: foundItems rest := by
        simp [foundItems]
      rw [hf]
      simp only [parseLoop, if_true, applySets]
      cases he : (setFound c item slot).error with
      | some e => rfl
      | none => exact ih _ _

theorem parseLoop_false (l : List (config_item × Bool × val_t)) :
    ∀ (c : Configuration) (calls : List Call),
      parseLoop false l c calls = { config := c, calls := calls, error := none, ret := false } := by
  induction l with
  | nil => intro c calls; rfl
  | cons e rest ih =>
    obtain ⟨item, found, slot⟩ := e
    intro c calls
    cases found <;> simp [parseLoop, ih]

theorem applySets_append (l1 l2 : List (config_item × val_t)) :
    ∀ (c : Configuration) (calls : List Call),
      applySets (l1 ++ l2) c calls =
        match (applySets l1 c calls).error with
        | some _ => applySets l1 c calls
        | none => applySets l2 (applySets l1 c calls).config (applySets l1 c calls).calls := by
  induction l1 with
  | nil => intro c calls; rfl
  | cons e rest ih =>
    obtain ⟨item, slot⟩ := e
    intro c calls
    simp only [List.cons_append, applySets]
    cases he : (setFound c item slot).error with
    | some e => simp
    | none => exact ih _ _

theorem foundItems_append (l1 l2 : List (config_item × Bool × val_t)) :
    foundItems (l1 ++ l2) = foundItems l1 ++ foundItems l2 := by
  simp [foundItems]

theorem zip_append_drop {α β : Type} (l1 l2 : List α) :
    ∀ m : List β, (l1 ++ l2).zip m = l1.zip m ++ l2.zip (m.drop l1.length) := by
  induction l1 with
  | nil => intro m; simp
  | cons x l1 ih =>
    intro m
    cases m with
    | nil => simp
    | cons y m => simp [ih m]

theorem setFound_error_ne_invariant (c : Configuration) (item : config_item) (slot : val_t)
    (h : item.datatype ≠ DT_CONFIGFILE) :
    (setFound c item slot).error ≠ some .InvariantViolation := by
  unfold setFound
  cases hd : item.datatype with
  | DT_SIZE =>
    cases slot.get_size with
    | none => simp
    | some n =>
      simp only []
      unfold setParameter_size_t
      split <;> simp
  | DT_SSIZE =>
    cases slot.get_ssize with
    | none => simp
    | some n =>
      simp only []
      unfold setParameter_ssize_t
      split <;> simp
  | DT_FLOAT =>
    cases slot.get_float with
    | none => simp
    | some n =>
      simp only []
      unfold setParameter_float
      split <;> simp
  | DT_BOOL =>
    cases slot.get_bool with
    | none => simp
    | some n =>
      simp only []
      unfold setParameter_bool
      split <;> simp
  | DT_STRING =>
    cases slot.get_string with
    | none => simp
    | some n =>
      simp only []
      unfold setParameter_cstr
      split
      · simp
      · split <;> simp
  | DT_CONFIGFILE => exact absurd hd h

theorem applySets_error_ne_invariant (l : List (config_item × val_t))
    (h : ∀ e ∈ l, e.1.datatype ≠ DT_CONFIGFILE) :
    ∀ (c : Configuration) (calls : List Call),
      (applySets l c calls).error ≠ some .InvariantViolation := by
  induction l with
  | nil => intro c calls; simp [applySets]
  | cons e rest ih =>
    obtain ⟨item, slot⟩ := e
    intro c calls
    have h1 := setFound_error_ne_invariant c item slot (h (item, slot) (List.mem_cons_self _ _))
    unfold applySets
    cases he : (setFound c item slot).error with
    | some e =>
      simp only []
      rw [he] at h1
      exact h1
    | none => exact ih (fun e he => h e (List.mem_cons_of_mem _ he)) _ _

/-- The keys a `setParameter(key, ...)` call can write: the key itself and,
for the key `cache_size`, the key `max_size`. Every other key has the record
it had. -/
theorem setParameter_find_ne (c : Configuration) (key k2 : String) (hk : k2 ≠ key)
    (halias : key = "cache_size" → k2 ≠ "max_size") :
    (∀ b, find (setParameter_bool c key b).config.attributes k2 = find c.attributes k2) ∧
    (∀ n, find (setParameter_size_t c key n).config.attributes k2 = find c.attributes k2) ∧
    (∀ i, find (setParameter_ssize_t c key i).config.attributes k2 = find c.attributes k2) ∧
    (∀ f, find (setParameter_float c key f).config.attributes k2 = find c.attributes k2) ∧
    (∀ s, find (setParameter_cstr c key s).config.attributes k2 = find c.attributes k2) := by
  refine ⟨?_, ?_, ?_, ?_, ?_⟩
  · intro b
    cases ht : validatorThrows c.attributes key (fun v => v.validateBool key b) with
    | true => simp [setParameter_bool, ht]
    | false =>
      rw [setParameter_bool_ok c key b ht]
      simp only []
      rw [find_assign_ne _ _ _ _ hk, find_assign_ne _ _ _ _ hk]
  · intro n
    cases ht : validatorThrows c.attributes key (fun v => v.validateSize key n) with
    | true => simp [setParameter_size_t, ht]
    | false =>
      by_cases hkey : key = "cache_size"
      · subst hkey
        rw [setParameter_size_t_alias c n ht]
        simp only []
        rw [find_assign_ne _ _ _ _ (halias rfl), find_assign_ne _ _ _ _ hk]
      · rw [setParameter_size_t_ok c key n ht hkey]
        simp only []
        rw [find_assign_ne _ _ _ _ hk, find_assign_ne _ _ _ _ hk]
  · intro i
    cases ht : validatorThrows c.attributes key (fun v => v.validateSSize key i) with
    | true => simp [setParameter_ssize_t, ht]
    | false =>
      by_cases hkey : key = "cache_size"
      · subst hkey
        rw [setParameter_ssize_t_alias c i ht]
        simp only []
        rw [find_assign_ne _ _ _ _ (halias rfl), find_assign_ne _ _ _ _ hk]
      · rw [setParameter_ssize_t_ok c key i ht hkey]
        simp only []
        rw [find_assign_ne _ _ _ _ hk, find_assign_ne _ _ _ _ hk]
  · intro f
    cases ht : validatorThrows c.attributes key (fun v => v.validateFloat key f) with
    | true => simp [setParameter_float, ht]
    | false =>
      rw [setParameter_float_ok c key f ht]
      simp only []
      rw [find_assign_ne _ _ _ _ hk, find_assign_ne _ _ _ _ hk]
  · intro s
    cases ht : validatorThrows c.attributes key (fun v => v.validateString key s) with
    | true => simp [setParameter_cstr, ht]
    | false =>
      cases hfr : freesOldString c.attributes key with
      | none => simp [setParameter_cstr, ht, hfr]
      | some b =>
        rw [setParameter_cstr_ok c key s ht (by simp [hfr])]
        simp only []
        rw [find_assign_ne _ _ _ _ hk]

/-- A typed get of the key after a `setParameter` of the same kind that
succeeded, for the two integer kinds on a key other than `cache_size`. -/
theorem get_after_setParameter (c : Configuration) (key : String) :
    (∀ b, (setParameter_bool c key b).error = none →
      getBool (setParameter_bool c key b).config key = .ok b) ∧
    (∀ n, (setParameter_size_t c key n).error = none → key ≠ "cache_size" →
      getInteger (setParameter_size_t c key n).config key = .ok n) ∧
    (∀ i, (setParameter_ssize_t c key i).error = none → key ≠ "cache_size" →
      getSignedInteger (setParameter_ssize_t c key i).config key = .ok i) ∧
    (∀ f, (setParameter_float c key f).error = none →
      getFloat (setParameter_float c key f).config key = .ok f) ∧
    (∀ s, (setParameter_cstr c key s).error = none →
      getString (setParameter_cstr c key s).config key = .ok (s.getD "")) := by
  refine ⟨?_, ?_, ?_, ?_, ?_⟩
  · intro b h
    have ht := validatorThrows_of_error_none c _ _ h
    rw [setParameter_bool_ok c key b ht]
    simp [getBool, find_assign_self, assign_assign_self, val_t.get_bool]
  · intro n h hkey
    have ht := validatorThrows_of_error_none c _ _ h
    rw [setParameter_size_t_ok c key n ht hkey]
    simp [getInteger, find_assign_self, assign_assign_self, val_t.get_size]
  · intro i h hkey
    have ht := validatorThrows_of_error_none c _ _ h
    rw [setParameter_ssize_t_ok c key i ht hkey]
    simp [getSignedInteger, find_assign_self, assign_assign_self, val_t.get_ssize]
  · intro f h
    have ht := validatorThrows_of_error_none c _ _ h
    rw [setParameter_float_ok c key f ht]
    simp [getFloat, find_assign_self, assign_assign_self, val_t.get_float]
  · intro s h
    obtain ⟨ht, hfr⟩ := setParameter_cstr_error_none c key s h
    rw [setParameter_cstr_ok c key s ht hfr]
    cases s <;> simp [getString, find_assign_self, val_t.get_string]

theorem setFound_find_ne (c : Configuration) (item : config_item) (slot : val_t) (k2 : String)
    (hk : k2 ≠ item.key) (halias : item.key = "cache_size" → k2 ≠ "max_size") :
    find (setFound c item slot).config.attributes k2 = find c.attributes k2 := by
  have hs := setParameter_find_ne c item.key k2 hk halias
  unfold setFound
  cases item.datatype with
  | DT_SIZE =>
    cases slot.get_size with
    | none => rfl
    | some n => exact hs.2.1 n
  | DT_SSIZE =>
    cases slot.get_ssize with
    | none => rfl
    | some i => exact hs.2.2.1 i
  | DT_FLOAT =>
    cases slot.get_float with
    | none => rfl
    | some f => exact hs.2.2.2.1 f
  | DT_BOOL =>
    cases slot.get_bool with
    | none => rfl
    | some b => exact hs.1 b
  | DT_STRING =>
    cases slot.get_string with
    | none => rfl
    | some s => exact hs.2.2.2.2 s
  | DT_CONFIGFILE => rfl

theorem setFound_get (c : Configuration) (item : config_item) (slot : val_t)
    (hkey : item.key ≠ "cache_size") (herr : (setFound c item slot).error = none) :
    ∃ v, parsedValue item.datatype slot = some v ∧
      getTyped (setFound c item slot).config item.key item.datatype = some (.ok v) := by
  have hg := get_after_setParameter c item.key
  unfold setFound at herr ⊢
  cases hd : item.datatype with
  | DT_SIZE =>
    simp only [hd] at herr ⊢
    cases hv : slot.get_size with
    | none => simp [hv] at herr
    | some n =>
      simp only [hv] at herr ⊢
      exact ⟨.unsigned n, by simp [parsedValue, hv], by
        simp [getTyped, hg.2.1 n herr hkey, Except.map]⟩
  | DT_SSIZE =>
    simp only [hd] at herr ⊢
    cases hv : slot.get_ssize with
    | none => simp [hv] at herr
    | some n =>
      simp only [hv] at herr ⊢
      exact ⟨.signed n, by simp [parsedValue, hv], by
        simp [getTyped, hg.2.2.1 n herr hkey, Except.map]⟩
  | DT_FLOAT =>
    simp only [hd] at herr ⊢
    cases hv : slot.get_float with
    | none => simp [hv] at herr
    | some n =>
      simp only [hv] at herr ⊢
      exact ⟨.float n, by simp [parsedValue, hv], by
        simp [getTyped, hg.2.2.2.1 n herr, Except.map]⟩
  | DT_BOOL =>
    simp only [hd] at herr ⊢
    cases hv : slot.get_bool with
    | none => simp [hv] at herr
    | some n =>
      simp only [hv] at herr ⊢
      exact ⟨.bool n, by simp [parsedValue, hv], by
        simp [getTyped, hg.1 n herr, Except.map]⟩
  | DT_STRING =>
    simp only [hd] at herr ⊢
    cases hv : slot.get_string with
    | none => simp [hv] at herr
    | some n =>
      simp only [hv] at herr ⊢
      exact ⟨.string (n.getD ""), by simp [parsedValue, hv], by
        simp [getTyped, hg.2.2.2.2 n herr, Except.map]⟩
  | DT_CONFIGFILE =>
    simp [hd] at herr

theorem getTyped_congr (c1 c2 : Configuration) (key : String) (t : config_datatype)
    (h : find c1.attributes key = find c2.attributes key) :
    getTyped c1 key t = getTyped c2 key t := by
  cases t <;> simp [getTyped, getString, getBool, getFloat, getInteger, getSignedInteger, h]

/-- A key that no applied item touches keeps its record. An item touches its
own key and, when it is `cache_size`, the key `max_size`. -/
theorem applySets_find_of_untouched (l : List (config_item × val_t)) (k : String)
    (h : ∀ e ∈ l, k ≠ e.1.key ∧ (e.1.key = "cache_size" → k ≠ "max_size")) :
    ∀ (c : Configuration) (calls : List Call),
      find (applySets l c calls).config.attributes k = find c.attributes k := by
  induction l with
  | nil => intro c calls; rfl
  | cons e rest ih =>
    obtain ⟨item, slot⟩ := e
    intro c calls
    have h1 := h (item, slot) (List.mem_cons_self _ _)
    have hsf := setFound_find_ne c item slot k h1.1 h1.2
    unfold applySets
    cases he : (setFound c item slot).error with
    | some e => exact hsf
    | none =>
      simp only []
      rw [ih (fun e he => h e (List.mem_cons_of_mem _ he)), hsf]

theorem applySets_get (l1 l2 : List (config_item × val_t)) (item : config_item) (slot : val_t)
    (hkey : item.key ≠ "cache_size")
    (h2 : ∀ e ∈ l2, item.key ≠ e.1.key ∧ (e.1.key = "cache_size" → item.key ≠ "max_size"))
    (c : Configuration) (calls : List Call)
    (herr : (applySets (l1 ++ (item, slot) :: l2) c calls).error = none) :
    ∃ v, parsedValue item.datatype slot = some v ∧
      getTyped (applySets (l1 ++ (item, slot) :: l2) c calls).config item.key item.datatype =
        some (.ok v) := by
  rw [applySets_append] at herr ⊢
  cases h1 : (applySets l1 c calls).error with
  | some e => simp [h1] at herr
  | none =>
    simp only [h1] at herr ⊢
    unfold applySets at herr ⊢
    cases hs : (setFound (applySets l1 c calls).config item slot).error with
    | some e => simp [hs] at herr
    | none =>
      simp only [hs] at herr ⊢
      obtain ⟨v, hv, hg⟩ := setFound_get _ item slot hkey hs
      refine ⟨v, hv, ?_⟩
      rw [getTyped_congr _ _ _ _ (applySets_find_of_untouched l2 item.key h2 _ _)]
      exact hg

theorem drop_of_getElem? {α : Type} (l : List α) :
    ∀ (i : Nat) (x : α), l[i]? = some x → l.drop i = x :: l.drop (i + 1) := by
  induction l with
  | nil => intro i x h; simp at h
  | cons y l ih =>
    intro i x h
    cases i with
    | zero =>
      simp at h
      simp [h]
    | succ i =>
      simp at h
      simpa using ih i x h

theorem configItems_map (m : List (String × value_t)) :
    ∀ config, configItems m = some config →
      config.map (fun item => (item.key, some item.datatype)) =
        m.map (fun p => (p.1, (p.2).datatype)) := by
  induction m with
  | nil =>
    intro config h
    simp [configItems] at h
    simp [← h]
  | cons p m ih =>
    obtain ⟨k, a⟩ := p
    intro config h
    unfold configItems at h
    cases hd : a.datatype with
    | none => simp [hd] at h
    | some t =>
      cases hr : configItems m with
      | none => simp [hd, hr] at h
      | some rest =>
        simp [hd, hr] at h
        simp [← h, ih rest hr, hd]

theorem configItems_keys (m : List (String × value_t)) (config : List config_item)
    (h : configItems m = some config) :
    config.map (fun item => item.key) = m.map Prod.fst := by
  have h1 := congrArg (List.map Prod.fst) (configItems_map m config h)
  simpa [List.map_map, Function.comp_def] using h1

theorem less_irrefl (a : String) : less a a = false := lessChars_irrefl a.data

theorem distinct_keys_of_sortedKeys (m : List (String × value_t)) (h : sortedKeys m) :
    List.Pairwise (fun a b : String => a ≠ b) (m.map Prod.fst) := by
  rw [List.pairwise_map]
  refine List.Pairwise.imp ?_ h
  intro p q hlt he
  rw [he, less_irrefl] at hlt
  cases hlt

theorem pairwise_zip_left {α β : Type} (r : α → α → Prop) (l : List α) :
    ∀ m : List β, List.Pairwise r l → List.Pairwise (fun e f => r e.1 f.1) (l.zip m) := by
  induction l with
  | nil => intro m _; simp
  | cons x l ih =>
    intro m h
    cases m with
    | nil => simp
    | cons y m =>
      rw [List.pairwise_cons] at h
      simp only [List.zip_cons_cons, List.pairwise_cons]
      refine ⟨?_, ih m h.2⟩
      intro e he
      exact h.1 e.1 (List.of_mem_zip he).1

theorem mem_foundItems (l : List (config_item × Bool × val_t)) (e : config_item × val_t) :
    e ∈ foundItems l ↔ ∃ b ∈ l, b.2.1 = true ∧ e = (b.1, b.2.2) := by
  unfold foundItems
  simp only [List.mem_map, List.mem_filter]
  constructor
  · rintro ⟨b, ⟨hb, hf⟩, rfl⟩
    exact ⟨b, hb, hf, rfl⟩
  · rintro ⟨b, hb, hf, rfl⟩
    exact ⟨b, ⟨hb, hf⟩, rfl⟩

theorem applySets_config_file (c : Configuration) (calls : List Call) (slot : val_t) :
    applySets [(configFileItem, slot)] c calls =
      { config := c, calls := calls, error := some .InvariantViolation } := by
  simp [applySets, setFound, configFileItem]

theorem itemsAfterParse_split (config : List config_item) (o : ParseOutcome) :
    itemsAfterParse config o =
      config.zip o.marks ++
        [cacheSizeItem, configFileItem].zip
          (o.marks.drop config.length) := by
  unfold itemsAfterParse offeredItems
  rw [zip_append_drop]

theorem itemsAfterParse_config_file (config : List config_item) (o : ParseOutcome)
    (slot : val_t) (h : o.marks[config.length + 1]? = some (true, slot)) :
    itemsAfterParse config o =
      (config ++ [cacheSizeItem]).zip o.marks ++
        [(configFileItem, true, slot)] := by
  have hoff : offeredItems config =
      (config ++ [cacheSizeItem]) ++ [configFileItem] := by
    simp [offeredItems]
  unfold itemsAfterParse
  rw [hoff, zip_append_drop]
  have hlen : (config ++ [cacheSizeItem]).length =
      config.length + 1 := by simp
  rw [hlen, drop_of_getElem? _ _ _ h]
  simp

/-- C11, as stated, fails: on `sampleConfig`, whose validator rejects the size 0
for `max_size`, a parser that reports success and marks both `max_size`, with
the value 0, and `config_file` found makes `parseConfiguration` throw the
validation error of the setter, not the invariant violation. -/
theorem parse_config_file_counterexample :
    (parserZeroAndFile "" (offeredItems [⟨"max_size", DT_SIZE⟩])).ret = 0 ∧
    (parserZeroAndFile "" (offeredItems [⟨"max_size", DT_SIZE⟩])).marks[2]? =
      some (true, .v_string none) ∧
    (parseConfiguration sampleConfig "" parserZeroAndFile).error = some .ValidationError ∧
    (parseConfiguration sampleConfig "" parserZeroAndFile).error ≠
      some .InvariantViolation := by
  decide

/-- C11 (amended). When the parser reports success and marks the item
`config_file` found, `parseConfiguration` does not return: the items before
it that were found are applied first, in order; the exception of the first
of their setters that throws is the one that leaves the call, and when none
throws the call throws the invariant violation, with the registry and the
callbacks those setters have made. When no other item was found the registry
is unchanged. No attribute gets the config-file tag, and a key `config_file`
is not created. -/
theorem parse_config_file_found_throws (c : Configuration) (str : String)
    (sapi : String → List config_item → ParseOutcome) (config : List config_item)
    (slot : val_t) (hc : configItems c.attributes = some config)
    (hret : (sapi str (offeredItems config)).ret = 0)
    (hfound : (sapi str (offeredItems config)).marks[config.length + 1]? = some (true, slot)) :
    (parseConfiguration c str sapi).error ≠ none ∧
    (parseConfiguration c str sapi).error =
      some (((applySets (foundItems ((config ++ [cacheSizeItem]).zip
        (sapi str (offeredItems config)).marks)) c []).error).getD .InvariantViolation) ∧
    (parseConfiguration c str sapi).config =
      (applySets (foundItems ((config ++ [cacheSizeItem]).zip
        (sapi str (offeredItems config)).marks)) c []).config ∧
    (parseConfiguration c str sapi).calls =
      (applySets (foundItems ((config ++ [cacheSizeItem]).zip
        (sapi str (offeredItems config)).marks)) c []).calls ∧
    ((∀ e ∈ (config ++ [cacheSizeItem]).zip (sapi str (offeredItems config)).marks,
        e.2.1 = false) →
      (parseConfiguration c str sapi).error = some .InvariantViolation ∧
      (parseConfiguration c str sapi).config = c ∧
      (parseConfiguration c str sapi).calls = []) ∧
    (noConfigFileTag c → noConfigFileTag (parseConfiguration c str sapi).config) ∧
    (find c.attributes "config_file" = none →
      find (parseConfiguration c str sapi).config.attributes "config_file" = none) := by
  have hsplit := itemsAfterParse_config_file config (sapi str (offeredItems config)) slot hfound
  have hp : parseConfiguration c str sapi =
      parseLoop true (itemsAfterParse config (sapi str (offeredItems config))) c [] := by
    simp [parseConfiguration, hc, hret]
  have hres : parseConfiguration c str sapi =
      { config := (applySets (foundItems ((config ++ [cacheSizeItem]).zip
          (sapi str (offeredItems config)).marks)) c []).config,
        calls := (applySets (foundItems ((config ++ [cacheSizeItem]).zip
          (sapi str (offeredItems config)).marks)) c []).calls,
        error := some (((applySets (foundItems ((config ++ [cacheSizeItem]).zip
          (sapi str (offeredItems config)).marks)) c []).error).getD .InvariantViolation),
        ret := true } := by
    rw [hp, parseLoop_eq_applySets, hsplit, foundItems_append, applySets_append]
    have hcf : foundItems [(configFileItem, true, slot)] =
        [(configFileItem, slot)] := by simp [foundItems]
    rw [hcf]
    cases he : (applySets (foundItems ((config ++ [cacheSizeItem]).zip
        (sapi str (offeredItems config)).marks)) c []).error with
    | some e => simp [he]
    | none => simp [applySets_config_file, he]
  refine ⟨?_, ?_, ?_, ?_, ?_, ?_, ?_⟩
  · rw [hres]; simp
  · rw [hres]
  · rw [hres]
  · rw [hres]
  · intro hnone
    have hempty : foundItems ((config ++ [cacheSizeItem]).zip
        (sapi str (offeredItems config)).marks) = [] := by
      unfold foundItems
      rw [List.map_eq_nil_iff, List.filter_eq_nil_iff]
      intro e he
      simp [hnone e he]
    rw [hres, hempty]
    simp [applySets]
  · intro h
    rw [hp]
    refine parseLoop_forall (fun a => a.datatype ≠ some DT_CONFIGFILE) ?_ ?_ ?_ _ _ c [] h
    · simp [value_t.fresh]
    · intro a v ha; exact ha
    · intro a t ht _ e
      simp at e
      exact ht e
  · intro habsent
    rw [hres]
    simp only []
    rw [applySets_find_of_untouched _ "config_file" ?_ c [], habsent]
    intro e he
    obtain ⟨b, hb, _, rfl⟩ := (mem_foundItems _ _).mp he
    have hmem := (List.of_mem_zip hb).1
    have hkeys := configItems_keys c.attributes config hc
    have hne : b.1.key ≠ "config_file" := by
      rcases List.mem_append.mp hmem with h1 | h1
      · have h2 : b.1.key ∈ c.attributes.map Prod.fst := by
          rw [← hkeys]
          exact List.mem_map_of_mem (fun item => item.key) h1
        obtain ⟨p, hp1, hp2⟩ := List.mem_map.mp h2
        rw [← hp2]
        exact find_none_of_not_mem _ _ habsent p hp1
      · simp at h1
        rw [h1]
        decide
    exact ⟨fun e => hne e.symm, fun _ => by decide⟩

/-- Witness of C11 (amended): on `sampleConfig` a parser that reports success
and marks only `config_file` found: the invariant violation, and the
registry is the one given. -/
theorem parse_config_file_found_throws_witness :
    (parseConfiguration sampleConfig "" parserFile).error = some .InvariantViolation ∧
    (parseConfiguration sampleConfig "" parserFile).config = sampleConfig :=
  have h := (parse_config_file_found_throws sampleConfig "" parserFile
    [⟨"max_size", DT_SIZE⟩] (.v_string none) rfl rfl rfl).2.2.2.2.1 (by decide)
  ⟨h.1, h.2.1⟩

/-- C12, as stated, fails. On `sampleConfig`, whose validator rejects the size
0 for `max_size`, a parser that reports success and marks `max_size` found
with the value 0 makes `parseConfiguration` throw instead of returning true.
And a parser that marks only `cache_size` found, with the value 9, changes
`max_size`, which was not found, from 100 to 9, while a following
`getInteger("cache_size")` returns 0, not the parsed value. -/
theorem parse_applies_counterexample :
    (parseConfiguration sampleConfig "" parserZero).error = some .ValidationError ∧
    getInteger sampleConfig "max_size" = .ok 100 ∧
    (parseConfiguration sampleConfig "" parserAlias).error = none ∧
    getInteger (parseConfiguration sampleConfig "" parserAlias).config "max_size" = .ok 9 ∧
    getInteger (parseConfiguration sampleConfig "" parserAlias).config "cache_size" = .ok 0 := by
  decide

/-- C12 (amended). For a registry whose keys are distinct and whose tags are
all assigned, and a parser outcome that reports success and marks no item of
the config-file datatype found: the items offered are the keys with their
stored tags, in map order, then `cache_size` as a size, then `config_file`;
the call makes, in the order of the array, the `set<Kind>` of the declared
datatype with the parsed value for every item marked found, until one of
them throws, and returns true when none does; it never throws the invariant
violation. When the call returns, a typed get of a found key of the registry
other than `cache_size` returns the parsed value, for `max_size` when no
item `cache_size` was found. A key of which no item was found keeps its
record, `max_size` when no item `cache_size` was found. -/
theorem parse_applies_found_items (c : Configuration) (str : String)
    (sapi : String → List config_item → ParseOutcome) (config : List config_item)
    (hs : sortedKeys c.attributes) (hc : configItems c.attributes = some config)
    (hret : (sapi str (offeredItems config)).ret = 0)
    (hcf : ∀ e ∈ itemsAfterParse config (sapi str (offeredItems config)),
      e.2.1 = true → e.1.datatype ≠ DT_CONFIGFILE) :
    config.map (fun item => (item.key, some item.datatype)) =
      c.attributes.map (fun p => (p.1, (p.2).datatype)) ∧
    parseConfiguration c str sapi =
      { config := (applySets (foundItems
          (itemsAfterParse config (sapi str (offeredItems config)))) c []).config,
        calls := (applySets (foundItems
          (itemsAfterParse config (sapi str (offeredItems config)))) c []).calls,
        error := (applySets (foundItems
          (itemsAfterParse config (sapi str (offeredItems config)))) c []).error,
        ret := true } ∧
    (parseConfiguration c str sapi).error ≠ some .InvariantViolation ∧
    (∀ item slot, (item, true, slot) ∈ config.zip (sapi str (offeredItems config)).marks →
      item.key ≠ "cache_size" →
      (item.key = "max_size" →
        ∀ e ∈ itemsAfterParse config (sapi str (offeredItems config)),
          e.1.key = "cache_size" → e.2.1 = false) →
      (parseConfiguration c str sapi).error = none →
      ∃ v, parsedValue item.datatype slot = some v ∧
        getTyped (parseConfiguration c str sapi).config item.key item.datatype =
          some (.ok v)) ∧
    (∀ k, (∀ e ∈ itemsAfterParse config (sapi str (offeredItems config)),
        e.2.1 = true → e.1.key ≠ k) →
      (k = "max_size" →
        ∀ e ∈ itemsAfterParse config (sapi str (offeredItems config)),
          e.1.key = "cache_size" → e.2.1 = false) →
      find (parseConfiguration c str sapi).config.attributes k = find c.attributes k) := by
  have hres : parseConfiguration c str sapi =
      { config := (applySets (foundItems
          (itemsAfterParse config (sapi str (offeredItems config)))) c []).config,
        calls := (applySets (foundItems
          (itemsAfterParse config (sapi str (offeredItems config)))) c []).calls,
        error := (applySets (foundItems
          (itemsAfterParse config (sapi str (offeredItems config)))) c []).error,
        ret := true } := by
    have hp : parseConfiguration c str sapi =
        parseLoop true (itemsAfterParse config (sapi str (offeredItems config))) c [] := by
      simp [parseConfiguration, hc, hret]
    rw [hp, parseLoop_eq_applySets]
  refine ⟨configItems_map _ _ hc, hres, ?_, ?_, ?_⟩
  · rw [hres]
    apply applySets_error_ne_invariant
    intro e he
    obtain ⟨b, hb, hf, rfl⟩ := (mem_foundItems _ _).mp he
    exact hcf b hb hf
  · intro item slot hmem hkey hmax herr
    rw [hres] at herr ⊢
    simp only [] at herr ⊢
    have hsplit := itemsAfterParse_split config (sapi str (offeredItems config))
    obtain ⟨s, t, hst⟩ := List.append_of_mem hmem
    have hz : itemsAfterParse config (sapi str (offeredItems config)) =
        s ++ (item, true, slot) :: (t ++ [cacheSizeItem, configFileItem].zip
          ((sapi str (offeredItems config)).marks.drop config.length)) := by
      rw [hsplit, hst]
      simp
    have hfi : foundItems (itemsAfterParse config (sapi str (offeredItems config))) =
        foundItems s ++ (item, slot) :: foundItems (t ++ [cacheSizeItem, configFileItem].zip
          ((sapi str (offeredItems config)).marks.drop config.length)) := by
      rw [hz]
      simp [foundItems]
    rw [hfi] at herr ⊢
    apply applySets_get _ _ item slot hkey _ c [] herr
    intro e he
    obtain ⟨b, hb, hf, rfl⟩ := (mem_foundItems _ _).mp he
    have hbz : b ∈ itemsAfterParse config (sapi str (offeredItems config)) := by
      rw [hz]
      exact List.mem_append_right _ (List.mem_cons_of_mem _ hb)
    have halias : b.1.key = "cache_size" → item.key ≠ "max_size" := by
      intro hbk hik
      have := hmax hik b hbz hbk
      rw [hf] at this
      cases this
    refine ⟨?_, halias⟩
    rcases List.mem_append.mp hb with hb | hb
    · have hpw : List.Pairwise (fun a b : config_item => a.key ≠ b.key) config := by
        have h1 := distinct_keys_of_sortedKeys c.attributes hs
        rw [← configItems_keys c.attributes config hc, List.pairwise_map] at h1
        exact h1
      have hpz := pairwise_zip_left (fun a b : config_item => a.key ≠ b.key) config
        (sapi str (offeredItems config)).marks hpw
      rw [hst, List.pairwise_append] at hpz
      exact (List.pairwise_cons.mp hpz.2.1).1 b hb
    · have hb1 := (List.of_mem_zip hb).1
      simp at hb1
      rcases hb1 with h1 | h1
      · rw [h1]
        exact hkey
      · exfalso
        apply hcf b hbz hf
        rw [h1]
        rfl
  · intro k hk hmax
    rw [hres]
    simp only []
    apply applySets_find_of_untouched
    intro e he
    obtain ⟨b, hb, hf, rfl⟩ := (mem_foundItems _ _).mp he
    refine ⟨fun e => hk b hb hf e.symm, ?_⟩
    intro hbk hkm
    have := hmax hkm b hb hbk
    rw [hf] at this
    cases this

/-- Witness of C12 (amended): on `sampleConfig` a parser that reports success
and marks `max_size` found with the value 5: the call returns true, calls the
listener of `max_size` once with 5, and `getInteger("max_size")` returns
5. -/
theorem parse_applies_found_items_witness :
    (parseConfiguration sampleConfig "" parserFive).error = none ∧
    (parseConfiguration sampleConfig "" parserFive).ret = true ∧
    (parseConfiguration sampleConfig "" parserFive).calls =
      [.sizeValueChanged 1 "max_size" 5] ∧
    getTyped (parseConfiguration sampleConfig "" parserFive).config "max_size" DT_SIZE =
      some (.ok (.unsigned 5)) :=
  have h := parse_applies_found_items sampleConfig "" parserFive [⟨"max_size", DT_SIZE⟩]
    (by simp [sortedKeys, sampleConfig]) rfl rfl (by decide)
  ⟨by rw [h.2.1]; rfl, by rw [h.2.1], by rw [h.2.1]; rfl, by
    obtain ⟨v, hv, hg⟩ := h.2.2.2.1 ⟨"max_size", DT_SIZE⟩ (.v_size 5) (by decide) (by decide)
      (by decide) (by rw [h.2.1]; rfl)
    rw [hg]
    simp [parsedValue, val_t.get_size] at hv
    rw [hv]⟩

/-! ## The executor pool: thread counts -/

/-- C16. For every row of the test's `threadCountValues`, a pool constructed
with the row's `maxThreads` and the four caps 0 has, after the registration
of one taskable, the row's numbers of readers, writers, auxiliary and non-IO
workers; the rows are those of Table T1, with at most 12 readers, 4 writers
and at most 8 auxiliary and 8 non-IO workers. -/
theorem thread_count_calibration :
    (∀ row ∈ threadCountValues,
      ((ExecutorPool.create row.maxThreads 0 0 0 0).registerTaskable).map
          (fun p => (p.getNumReaders, p.getNumWriters, ExecutorPool.getNumAuxIO p,
            ExecutorPool.getNumNonIO p)) =
        some (some row.reader, some row.writer, some row.auxIO, some row.nonIO) ∧
      row.reader ≤ 12 ∧ row.writer = 4 ∧ row.auxIO ≤ 8 ∧ row.nonIO ≤ 8) ∧
    threadCountValues.map (fun row => row.maxThreads) =
      [1, 2, 4, 8, 10, 14, 20, 24, 32, 48, 64, 128] := by
  decide

/-- Witness of C16: the rows for 20 and for 32 threads. -/
theorem thread_count_calibration_witness :
    ((ExecutorPool.create 20 0 0 0 0).registerTaskable).map
        (fun p => (p.getNumReaders, p.getNumWriters, ExecutorPool.getNumAuxIO p,
          ExecutorPool.getNumNonIO p)) = some (some 6, some 4, some 2, some 6) ∧
    ((ExecutorPool.create 32 0 0 0 0).registerTaskable).map
        (fun p => (p.getNumReaders, p.getNumWriters, ExecutorPool.getNumAuxIO p,
          ExecutorPool.getNumNonIO p)) = some (some 12, some 4, some 4, some 8) :=
  ⟨(thread_count_calibration.1 ⟨20, 6, 4, 2, 6⟩ (by decide)).1,
    (thread_count_calibration.1 ⟨32, 12, 4, 4, 8⟩ (by decide)).1⟩

/-! ## The executor pool: ready counts -/

theorem length_insertReady (t : GlobalTask) (l : List GlobalTask) :
    (insertReady t l).length = l.length + 1 := by
  induction l with
  | nil => rfl
  | cons x xs ih =>
    unfold insertReady
    split
    · simp
    · simp [ih]

theorem length_insertFuture (t : GlobalTask) (l : List GlobalTask) :
    (insertFuture t l).length = l.length + 1 := by
  induction l with
  | nil => rfl
  | cons x xs ih =>
    unfold insertFuture
    split
    · simp
    · simp [ih]

theorem length_sweep (now : Nat) (future : List GlobalTask) :
    ∀ ready, (sweep now future ready).1.length + (sweep now future ready).2.length =
      future.length + ready.length := by
  induction future with
  | nil => intro ready; simp [sweep]
  | cons t rest ih =>
    intro ready
    unfold sweep
    split
    · rw [ih, length_insertReady]
      simp
      omega
    · simp

theorem moveReadyTasks_ready_length (q : TaskQueue) (now : Nat) :
    q.readyQueue.length ≤ (q.moveReadyTasks now).readyQueue.length := by
  unfold TaskQueue.moveReadyTasks
  cases h : q.readyQueue with
  | nil => simp
  | cons x xs => simp [h]

theorem fetchNextTask_ready_length (q : TaskQueue) (now : Nat) :
    (q.fetchNextTask now).2.readyQueue.length =
      (q.moveReadyTasks now).readyQueue.length -
        (if (q.fetchNextTask now).1.isSome then 1 else 0) := by
  unfold TaskQueue.fetchNextTask
  cases h : (q.moveReadyTasks now).readyQueue with
  | nil => simp [h]
  | cons x xs => simp

theorem fetchNextTask_isSome (q : TaskQueue) (now : Nat) :
    (q.fetchNextTask now).1.isSome = true → 0 < (q.moveReadyTasks now).readyQueue.length := by
  unfold TaskQueue.fetchNextTask
  cases h : (q.moveReadyTasks now).readyQueue with
  | nil => simp
  | cons x xs => simp

theorem readyCountsConsistent_apply (p : ExecutorPool) (h : p.readyCountsConsistent)
    (op : PoolOp) : (op.apply p).readyCountsConsistent := by
  obtain ⟨htot, hnum⟩ := h
  cases op with
  | schedule t c =>
    refine ⟨htot, ?_⟩
    intro x
    have := hnum x
    by_cases hx : x = c
    · subst hx
      simpa [PoolOp.apply, ExecutorPool.schedule, ExecutorPool.setQueue,
        ExecutorPool.getNumReadyTasks, TaskQueue.getReadyQueueSize, TaskQueue.schedule]
        using this
    · simpa [PoolOp.apply, ExecutorPool.schedule, ExecutorPool.setQueue,
        ExecutorPool.getNumReadyTasks, TaskQueue.getReadyQueueSize, hx] using this
  | wake taskId =>
    refine ⟨htot, ?_⟩
    intro x
    have := hnum x
    simp only [PoolOp.apply, ExecutorPool.wake, ExecutorPool.getNumReadyTasks,
      TaskQueue.getReadyQueueSize] at this ⊢
    unfold TaskQueue.wake
    cases List.find? (fun t => decide (t.taskId = taskId)) (p.queues x).futureQueue with
    | none => exact this
    | some t => exact this
  | doneTask c t reschedule =>
    refine ⟨htot, ?_⟩
    intro x
    have := hnum x
    by_cases hx : x = c
    · subst hx
      simp only [PoolOp.apply, ExecutorPool.doneTask, ExecutorPool.setQueue,
        ExecutorPool.getNumReadyTasks, TaskQueue.getReadyQueueSize, if_true] at this ⊢
      unfold TaskQueue.doneTask
      split <;> exact this
    · simpa [PoolOp.apply, ExecutorPool.doneTask, ExecutorPool.setQueue,
        ExecutorPool.getNumReadyTasks, TaskQueue.getReadyQueueSize, hx] using this
  | advance d => exact ⟨htot, hnum⟩
  | fetchNextTask c =>
    have hc := hnum c
    have h1 := moveReadyTasks_ready_length (p.queues c) p.now
    have h2 := fetchNextTask_ready_length (p.queues c) p.now
    have h3 := fetchNextTask_isSome (p.queues c) p.now
    simp only [ExecutorPool.getNumReadyTasks, TaskQueue.getReadyQueueSize] at hc
    have hnew : ∀ x, (PoolOp.apply p (.fetchNextTask c)).getNumReadyTasks x =
        ((PoolOp.apply p (.fetchNextTask c)).queues x).getReadyQueueSize := by
      intro x
      by_cases hx : x = c
      · subst hx
        simp only [PoolOp.apply, ExecutorPool.fetchNextTask, ExecutorPool.setQueue,
          ExecutorPool.getNumReadyTasks, TaskQueue.getReadyQueueSize, if_true]
        rw [h2, hc]
        omega
      · have := hnum x
        simpa [PoolOp.apply, ExecutorPool.fetchNextTask, ExecutorPool.setQueue,
          ExecutorPool.getNumReadyTasks, TaskQueue.getReadyQueueSize, hx] using this
    refine ⟨?_, hnew⟩
    simp only [ExecutorPool.getTotReadyTasks, ExecutorPool.sumReadyTasks,
      ExecutorPool.getNumReadyTasks] at htot ⊢
    simp only [PoolOp.apply, ExecutorPool.fetchNextTask]
    rw [htot]
    by_cases hs : ((p.queues c).fetchNextTask p.now).1.isSome = true
    · have h4 := h3 hs
      cases c <;> simp [hs] <;> omega
    · cases c <;> simp [hs] <;> omega

/-- C17. Ready-count consistency holds in the pool as constructed and is kept
by `schedule`, `wake`, `fetchNextTask`, `doneTask` and the passing of time;
so after any sequence of these operations, and so right after a `wake`,
`getTotReadyTasks()` is the sum over the four categories of
`getNumReadyTasks(c)` and `getNumReadyTasks(c)` is the size of the ready
queue of the category `c`. -/
theorem ready_counts_consistent (maxThreads maxReaders maxWriters maxAuxio maxNonio : Nat)
    (ops : List PoolOp) :
    ((ExecutorPool.create maxThreads maxReaders maxWriters maxAuxio maxNonio).runOps
        ops).readyCountsConsistent ∧
    (∀ taskId,
      (((ExecutorPool.create maxThreads maxReaders maxWriters maxAuxio maxNonio).runOps
        ops).wake taskId).readyCountsConsistent) := by
  have hinit : (ExecutorPool.create maxThreads maxReaders maxWriters maxAuxio
      maxNonio).readyCountsConsistent := by
    constructor
    · rfl
    · intro c; rfl
  have hall : ∀ (l : List PoolOp) (p : ExecutorPool), p.readyCountsConsistent →
      (p.runOps l).readyCountsConsistent := by
    intro l
    induction l with
    | nil => intro p h; exact h
    | cons op l ih =>
      intro p h
      exact ih _ (readyCountsConsistent_apply p h op)
  exact ⟨hall ops _ hinit,
    fun taskId => readyCountsConsistent_apply _ (hall ops _ hinit) (.wake taskId)⟩

/-! ## The executor pool: reschedule -/

theorem mem_insertFuture (t x : GlobalTask) (l : List GlobalTask) :
    x ∈ insertFuture t l ↔ x = t ∨ x ∈ l := by
  induction l with
  | nil => simp [insertFuture]
  | cons y ys ih =>
    unfold insertFuture
    split
    · simp
    · simp only [List.mem_cons, ih]
      constructor
      · rintro (h | h | h)
        · exact Or.inr (Or.inl h)
        · exact Or.inl h
        · exact Or.inr (Or.inr h)
      · rintro (h | h | h)
        · exact Or.inr (Or.inl h)
        · exact Or.inl h
        · exact Or.inr (Or.inr h)

theorem mem_insertReady (t x : GlobalTask) (l : List GlobalTask) :
    x ∈ insertReady t l ↔ x = t ∨ x ∈ l := by
  induction l with
  | nil => simp [insertReady]
  | cons y ys ih =>
    unfold insertReady
    split
    · simp
    · simp only [List.mem_cons, ih]
      constructor
      · rintro (h | h | h)
        · exact Or.inr (Or.inl h)
        · exact Or.inl h
        · exact Or.inr (Or.inr h)
      · rintro (h | h | h)
        · exact Or.inr (Or.inl h)
        · exact Or.inl h
        · exact Or.inr (Or.inr h)

theorem fetchNextTask_running (q : TaskQueue) (now : Nat) (t : GlobalTask)
    (h : (q.fetchNextTask now).1 = some t) : t.state = .running := by
  unfold TaskQueue.fetchNextTask at h
  cases hr : (q.moveReadyTasks now).readyQueue with
  | nil => simp [hr] at h
  | cons x xs =>
    simp [hr] at h
    rw [← h]

/-- C20. When the task that `fetchNextTask` dispenses calls `snooze(dt)` in
its `run()` and returns true, the completion re-inserts it in the future
queue with the waketime that `run()` set, the time of the run plus `dt`, and
this is the wake time that the completion reports. -/
theorem reschedule_uses_snoozed_waketime (p : ExecutorPool) (c : task_type_t)
    (t : GlobalTask) (dt : Nat) (hfetch : (p.fetchNextTask c).1 = some t)
    (hsnooze : t.snoozeInRun = some dt) (hagain : t.runAgain = true) :
    (p.runNextTask c).1 = some { t with waketime := p.now + dt } ∧
    (p.runNextTask c).2.1 = some (p.now + dt) ∧
    { t with waketime := p.now + dt, state := .runnable } ∈
      ((p.runNextTask c).2.2.queues c).futureQueue := by
  have hstate : t.state = .running := by
    apply fetchNextTask_running (p.queues c) p.now t
    simpa [ExecutorPool.fetchNextTask] using hfetch
  have hnow : (p.fetchNextTask c).2.now = p.now := by
    simp [ExecutorPool.fetchNextTask, ExecutorPool.setQueue]
  have hsplit : p.fetchNextTask c = (some t, (p.fetchNextTask c).2) := by
    rw [← hfetch]
  unfold ExecutorPool.runNextTask
  rw [hsplit]
  simp only [hnow]
  have hrun : t.run p.now = ({ t with waketime := p.now + dt }, true) := by
    simp [GlobalTask.run, hsnooze, hagain, GlobalTask.snooze]
  rw [hrun]
  refine ⟨rfl, ?_, ?_⟩
  · simp [ExecutorPool.doneTask, TaskQueue.doneTask, hstate]
  · simp [ExecutorPool.doneTask, TaskQueue.doneTask, hstate, ExecutorPool.setQueue,
      mem_insertFuture]

/-- Witness of C20: the scenario of the test `MB20735_rescheduleWaketime`, 7
ticks after the task was scheduled at the time 1000: the run is at 1007, the
task snoozes for 100 ticks, the completion reports 1107 and the task is in
the future queue with the waketime 1107. -/
theorem reschedule_uses_snoozed_waketime_witness :
    ((snoozePool.advance 7).runNextTask NONIO_TASK_IDX).2.1 = some 1107 ∧
    ((((snoozePool.advance 7).runNextTask NONIO_TASK_IDX).2.2.queues
      NONIO_TASK_IDX).futureQueue).map (fun t => t.waketime) = [1107] :=
  have h := reschedule_uses_snoozed_waketime (snoozePool.advance 7) NONIO_TASK_IDX
    { testTask 1 0 0 true (some 100) with waketime := 1000, state := .running } 100
    (by decide) rfl rfl
  ⟨h.2.1, by decide⟩

/-! ## The executor pool: wake and siblings -/

theorem queues_setQueue_self (p : ExecutorPool) (c : task_type_t) (q : TaskQueue) :
    (p.setQueue c q).queues c = q := by
  simp [ExecutorPool.setQueue]

theorem find_of_filter_singleton (f : GlobalTask → Bool) (l : List GlobalTask) (t : GlobalTask)
    (h : l.filter f = [t]) : l.find? f = some t := by
  induction l with
  | nil => simp at h
  | cons x xs ih =>
    by_cases hx : f x = true
    · rw [List.filter_cons_of_pos hx] at h
      rw [List.find?_cons_of_pos _ hx]
      simp at h
      rw [h.1]
    · rw [List.filter_cons_of_neg hx] at h
      rw [List.find?_cons_of_neg _ hx]
      exact ih h

theorem length_filter_taskId (l : List GlobalTask) (taskId : Nat) :
    (l.filter (fun x => x.taskId ≠ taskId)).length +
      (l.filter (fun x => x.taskId = taskId)).length = l.length := by
  induction l with
  | nil => rfl
  | cons x xs ih =>
    by_cases hx : x.taskId = taskId
    · simp [List.filter_cons, hx] at ih ⊢
      omega
    · simp [List.filter_cons, hx] at ih ⊢
      omega

theorem wake_of_filter_singleton (q : TaskQueue) (t : GlobalTask) (now : Nat)
    (hin : q.futureQueue.filter (fun x => x.taskId = t.taskId) = [t]) :
    (q.wake t.taskId now).futureQueue = insertFuture { t with waketime := now }
      (q.futureQueue.filter (fun x => x.taskId ≠ t.taskId)) ∧
    (q.wake t.taskId now).readyQueue = q.readyQueue := by
  unfold TaskQueue.wake
  rw [find_of_filter_singleton _ _ _ hin]
  exact ⟨rfl, rfl⟩

theorem insertFuture_split (w : GlobalTask) (l : List GlobalTask) :
    ∃ pre post, insertFuture w l = pre ++ w :: post ∧ l = pre ++ post ∧
      ∀ x ∈ pre, x.waketime ≤ w.waketime := by
  induction l with
  | nil => exact ⟨[], [], by simp [insertFuture]⟩
  | cons y ys ih =>
    unfold insertFuture
    split
    · exact ⟨[], y :: ys, by simp⟩
    · rename_i hlt
      obtain ⟨pre, post, h1, h2, h3⟩ := ih
      refine ⟨y :: pre, post, by simp [h1], by simp [h2], ?_⟩
      intro x hx
      simp at hx
      rcases hx with hx | hx
      · rw [hx]; omega
      · exact h3 x hx

theorem sweep_due_prefix (now : Nat) (pre rest ready : List GlobalTask)
    (h : ∀ x ∈ pre, x.waketime ≤ now) :
    sweep now (pre ++ rest) ready =
      sweep now rest (pre.foldl (fun r x => insertReady x r) ready) := by
  induction pre generalizing ready with
  | nil => rfl
  | cons y ys ih =>
    have hy : y.waketime ≤ now := h y (by simp)
    simp only [List.cons_append, sweep, hy, if_true, List.foldl_cons]
    exact ih _ (fun x hx => h x (by simp [hx]))

theorem sweep_ready_mem (now : Nat) (l ready : List GlobalTask) (x : GlobalTask)
    (h : x ∈ ready) : x ∈ (sweep now l ready).2 := by
  induction l generalizing ready with
  | nil => simpa [sweep] using h
  | cons y ys ih =>
    unfold sweep
    split
    · exact ih _ ((mem_insertReady y x ready).2 (Or.inr h))
    · exact h

theorem sweep_future_suffix (now : Nat) (l ready : List GlobalTask) :
    (sweep now l ready).1 <:+ l := by
  induction l generalizing ready with
  | nil => simp [sweep]
  | cons y ys ih =>
    unfold sweep
    split
    · exact (ih _).trans (List.suffix_cons y ys)
    · exact List.suffix_refl _

/-- The sweep of a future queue into which a task that is due has been
inserted: the task comes out ready, and what stays in the future queue is a
part of the queue as it was before the insertion. -/
theorem sweep_insertFuture (now : Nat) (w : GlobalTask) (l : List GlobalTask)
    (hw : w.waketime ≤ now) :
    w ∈ (sweep now (insertFuture w l) []).2 ∧
    (sweep now (insertFuture w l) []).1.Sublist l := by
  obtain ⟨pre, post, h1, h2, h3⟩ := insertFuture_split w l
  rw [h1, sweep_due_prefix now pre (w :: post) [] (fun x hx => le_trans (h3 x hx) hw)]
  have hstep : ∀ r, sweep now (w :: post) r = sweep now post (insertReady w r) := by
    intro r
    simp [sweep, hw]
  rw [hstep]
  constructor
  · exact sweep_ready_mem now post _ w ((mem_insertReady w w _).2 (Or.inl rfl))
  · rw [h2]
    exact ((sweep_future_suffix now post _).sublist).trans (List.sublist_append_right pre post)

theorem fetchNextTask_fst (p : ExecutorPool) (c : task_type_t) :
    (p.fetchNextTask c).1 = ((p.queues c).fetchNextTask p.now).1 := rfl

theorem fetchNextTask_queue (p : ExecutorPool) (c : task_type_t) :
    (p.fetchNextTask c).2.queues c = ((p.queues c).fetchNextTask p.now).2 := by
  simp [ExecutorPool.fetchNextTask, ExecutorPool.setQueue]

/-- The fetch that follows the wake of a task of the future queue, when no
task is ready: a task is dispensed; the woken task is this task or is ready;
what stays in the future queue was there before the wake and is not the
woken task. -/
theorem fetch_after_wake (q : TaskQueue) (t : GlobalTask) (now : Nat)
    (hin : q.futureQueue.filter (fun x => x.taskId = t.taskId) = [t])
    (hr : q.readyQueue = []) :
    ∃ u, ((q.wake t.taskId now).fetchNextTask now).1 = some { u with state := .running } ∧
      ({ t with waketime := now } = u ∨
        { t with waketime := now } ∈ ((q.wake t.taskId now).fetchNextTask now).2.readyQueue) ∧
      ((q.wake t.taskId now).fetchNextTask now).2.futureQueue.Sublist
        (q.futureQueue.filter (fun x => x.taskId ≠ t.taskId)) := by
  obtain ⟨hf, hrq⟩ := wake_of_filter_singleton q t now hin
  obtain ⟨hmem, hsub⟩ := sweep_insertFuture now { t with waketime := now }
    (q.futureQueue.filter (fun x => x.taskId ≠ t.taskId)) (le_refl now)
  have hmove : (q.wake t.taskId now).moveReadyTasks now =
      TaskQueue.mk (sweep now (q.wake t.taskId now).futureQueue []).1
        (sweep now (q.wake t.taskId now).futureQueue []).2 := by
    unfold TaskQueue.moveReadyTasks
    rw [hrq, hr]
  rw [← hf] at hmem hsub
  unfold TaskQueue.fetchNextTask
  rw [hmove]
  cases hs : (sweep now (q.wake t.taskId now).futureQueue []).2 with
  | nil => rw [hs] at hmem; simp at hmem
  | cons u rest =>
    rw [hs] at hmem
    refine ⟨u, rfl, ?_, hsub⟩
    simp only [List.mem_cons] at hmem
    exact hmem

theorem readyBefore_asymm (a b : GlobalTask) (h : readyBefore a b = true) :
    readyBefore b a = false := by
  simp only [readyBefore, Bool.or_eq_true, Bool.and_eq_true, decide_eq_true_eq] at h
  simp only [readyBefore, Bool.or_eq_false_iff, Bool.and_eq_false_iff, decide_eq_false_iff_not]
  omega

theorem readyBefore_trans (a b d : GlobalTask) (h1 : readyBefore a b = true)
    (h2 : readyBefore b d = true) : readyBefore a d = true := by
  simp only [readyBefore, Bool.or_eq_true, Bool.and_eq_true, decide_eq_true_eq] at h1 h2 ⊢
  omega

theorem priority_le_of_not_readyBefore (a b : GlobalTask) (h : readyBefore a b = false) :
    b.priority ≤ a.priority := by
  simp only [readyBefore, Bool.or_eq_false_iff, Bool.and_eq_false_iff,
    decide_eq_false_iff_not] at h
  omega

/-- The ready queue is in its order: no task comes before a task that is
ahead of it in the queue. -/
theorem insertReady_ordered (t : GlobalTask) (l : List GlobalTask)
    (h : l.Pairwise (fun a b => readyBefore b a = false)) :
    (insertReady t l).Pairwise (fun a b => readyBefore b a = false) := by
  induction l with
  | nil => simp [insertReady]
  | cons x xs ih =>
    obtain ⟨hx, hxs⟩ := List.pairwise_cons.mp h
    unfold insertReady
    by_cases hb : readyBefore t x = true
    · simp only [hb, if_true]
      refine List.pairwise_cons.mpr ⟨?_, h⟩
      intro y hy
      rcases List.mem_cons.mp hy with rfl | hy
      · exact readyBefore_asymm t y hb
      · cases hyt : readyBefore y t with
        | false => rfl
        | true =>
          have := readyBefore_trans y t x hyt hb
          rw [hx y hy] at this
          cases this
    · simp only [hb]
      refine List.pairwise_cons.mpr ⟨?_, ih hxs⟩
      intro y hy
      rcases (mem_insertReady t y xs).mp hy with rfl | hy
      · simpa using hb
      · exact hx y hy

theorem insertReady_perm (t : GlobalTask) (l : List GlobalTask) :
    (insertReady t l).Perm (t :: l) := by
  induction l with
  | nil => simp [insertReady]
  | cons x xs ih =>
    unfold insertReady
    split
    · exact List.Perm.refl _
    · exact (List.Perm.cons x ih).trans (List.Perm.swap t x xs)

theorem insertFuture_ordered (t : GlobalTask) (l : List GlobalTask)
    (h : l.Pairwise (fun a b => a.waketime ≤ b.waketime)) :
    (insertFuture t l).Pairwise (fun a b => a.waketime ≤ b.waketime) := by
  induction l with
  | nil => simp [insertFuture]
  | cons x xs ih =>
    obtain ⟨hx, hxs⟩ := List.pairwise_cons.mp h
    unfold insertFuture
    by_cases hb : t.waketime < x.waketime
    · simp only [hb, if_true]
      refine List.pairwise_cons.mpr ⟨?_, h⟩
      intro y hy
      rcases List.mem_cons.mp hy with rfl | hy
      · omega
      · have := hx y hy
        omega
    · simp only [hb, if_false]
      refine List.pairwise_cons.mpr ⟨?_, ih hxs⟩
      intro y hy
      rcases (mem_insertFuture t y xs).mp hy with rfl | hy
      · omega
      · exact hx y hy

/-- What the sweep does: the two queues it leaves hold the tasks of the two
queues it found; the ready queue stays in its order; every task it adds to
the ready queue is due; and when the future queue is in the order of the
waketimes, no task it leaves there is due. -/
theorem sweep_spec (now : Nat) (l : List GlobalTask) :
    ∀ ready : List GlobalTask,
      ((sweep now l ready).2 ++ (sweep now l ready).1).Perm (ready ++ l) ∧
      (ready.Pairwise (fun a b => readyBefore b a = false) →
        (sweep now l ready).2.Pairwise (fun a b => readyBefore b a = false)) ∧
      ((∀ x ∈ ready, x.waketime ≤ now) → ∀ x ∈ (sweep now l ready).2, x.waketime ≤ now) ∧
      (l.Pairwise (fun a b => a.waketime ≤ b.waketime) →
        ∀ x ∈ (sweep now l ready).1, now < x.waketime) := by
  induction l with
  | nil =>
    intro ready
    simp [sweep]
  | cons t rest ih =>
    intro ready
    unfold sweep
    by_cases hd : t.waketime ≤ now
    · simp only [hd, if_true]
      obtain ⟨h1, h2, h3, h4⟩ := ih (insertReady t ready)
      refine ⟨?_, ?_, ?_, ?_⟩
      · refine h1.trans ?_
        refine ((insertReady_perm t ready).append_right rest).trans ?_
        simp only [List.cons_append]
        exact List.perm_middle.symm
      · intro hr
        exact h2 (insertReady_ordered t ready hr)
      · intro hr
        apply h3
        intro x hx
        rcases (mem_insertReady t x ready).mp hx with rfl | hx
        · exact hd
        · exact hr x hx
      · intro hs
        exact h4 (List.pairwise_cons.mp hs).2
    · simp only [hd, if_false]
      refine ⟨List.Perm.refl _, fun hr => hr, fun hr => hr, ?_⟩
      intro hs x hx
      rcases List.mem_cons.mp hx with rfl | hx
      · omega
      · have := (List.pairwise_cons.mp hs).1 x hx
        omega

/-- The fetch that follows the wake of a task of the future queue, when no
task is ready: the sweep promotes tasks that are due, all of them when the
future queue is in the order of the waketimes, and the task dispensed is the
first of them in the order of the ready queue. -/
theorem fetch_after_wake_order (q : TaskQueue) (t : GlobalTask) (now : Nat)
    (hin : q.futureQueue.filter (fun x => x.taskId = t.taskId) = [t])
    (hr : q.readyQueue = []) :
    ∃ u : GlobalTask, ((q.wake t.taskId now).fetchNextTask now).1 =
        some { u with state := .running } ∧
      (u :: (((q.wake t.taskId now).fetchNextTask now).2.readyQueue ++
        ((q.wake t.taskId now).fetchNextTask now).2.futureQueue)).Perm
          (q.wake t.taskId now).futureQueue ∧
      u.waketime ≤ now ∧
      (∀ x ∈ ((q.wake t.taskId now).fetchNextTask now).2.readyQueue,
        x.waketime ≤ now ∧ readyBefore x u = false ∧ u.priority ≤ x.priority) ∧
      (q.futureQueue.Pairwise (fun a b => a.waketime ≤ b.waketime) →
        ∀ x ∈ ((q.wake t.taskId now).fetchNextTask now).2.futureQueue, now < x.waketime) := by
  obtain ⟨hf, hrq⟩ := wake_of_filter_singleton q t now hin
  obtain ⟨hmem, _⟩ := sweep_insertFuture now { t with waketime := now }
    (q.futureQueue.filter (fun x => x.taskId ≠ t.taskId)) (le_refl now)
  have hmove : (q.wake t.taskId now).moveReadyTasks now =
      TaskQueue.mk (sweep now (q.wake t.taskId now).futureQueue []).1
        (sweep now (q.wake t.taskId now).futureQueue []).2 := by
    unfold TaskQueue.moveReadyTasks
    rw [hrq, hr]
  rw [← hf] at hmem
  obtain ⟨hperm, hord, hdue, hnot⟩ := sweep_spec now (q.wake t.taskId now).futureQueue []
  have hsorted : q.futureQueue.Pairwise (fun a b => a.waketime ≤ b.waketime) →
      (q.wake t.taskId now).futureQueue.Pairwise (fun a b => a.waketime ≤ b.waketime) := by
    intro hs
    rw [hf]
    exact insertFuture_ordered _ _ (List.Pairwise.filter _ hs)
  unfold TaskQueue.fetchNextTask
  rw [hmove]
  cases hs : (sweep now (q.wake t.taskId now).futureQueue []).2 with
  | nil => rw [hs] at hmem; simp at hmem
  | cons u rest =>
    rw [hs] at hperm hord hdue
    have hord2 := List.pairwise_cons.mp (hord List.Pairwise.nil)
    have hdue2 := hdue (by simp)
    refine ⟨u, rfl, ?_, hdue2 u (by simp), ?_, ?_⟩
    · simpa using hperm
    · intro x hx
      have hxu := hord2.1 x hx
      exact ⟨hdue2 x (List.mem_cons_of_mem _ hx), hxu, priority_le_of_not_readyBefore x u hxu⟩
    · intro hsq x hx
      exact hnot (hsorted hsq) x hx

/-- C18, amended. For a task `t` that is in the future queue of a category,
the only one there with its handle: `wake` leaves the sizes of the future
queue and of the ready queue as they were, and the task, now due, is in the
future queue. When no task of the queue is ready, the next `fetchNextTask`
promotes the woken task together with other tasks of the future queue, all
of them due, and leaves the others in the future queue: none of these is due
when the future queue was in the order of the waketimes. It dispenses the
promoted task that is first in the order of the ready queue: no promoted
task comes before it, so none has a smaller priority value. The woken task
is thus the one dispensed or is in the ready queue, it is no longer in the
future queue, and the size of the future queue has dropped by one at least;
when the task is alone in the queue it is the one dispensed and both queues
are left empty. When a task is ready, the next `fetchNextTask` dispenses the
head of the ready queue and leaves the future queue, with the woken task, as
it is. -/
theorem wake_keeps_task_in_future_queue (p : ExecutorPool) (c : task_type_t) (t : GlobalTask)
    (hin : (p.queues c).futureQueue.filter (fun x => x.taskId = t.taskId) = [t]) :
    ((p.wake t.taskId).queues c).getFutureQueueSize = (p.queues c).getFutureQueueSize ∧
    ((p.wake t.taskId).queues c).getReadyQueueSize = (p.queues c).getReadyQueueSize ∧
    { t with waketime := p.now } ∈ ((p.wake t.taskId).queues c).futureQueue ∧
    ((p.queues c).readyQueue = [] →
      ((p.wake t.taskId).fetchNextTask c).1.isSome = true ∧
      (((p.wake t.taskId).fetchNextTask c).1 =
          some { t with waketime := p.now, state := .running } ∨
        { t with waketime := p.now } ∈
          (((p.wake t.taskId).fetchNextTask c).2.queues c).readyQueue) ∧
      (∀ x ∈ (((p.wake t.taskId).fetchNextTask c).2.queues c).futureQueue,
        x.taskId ≠ t.taskId) ∧
      (((p.wake t.taskId).fetchNextTask c).2.queues c).getFutureQueueSize + 1 ≤
        (p.queues c).getFutureQueueSize) ∧
    ((p.queues c).readyQueue = [] →
      ∃ u : GlobalTask, ((p.wake t.taskId).fetchNextTask c).1 = some { u with state := .running } ∧
        (u :: ((((p.wake t.taskId).fetchNextTask c).2.queues c).readyQueue ++
          (((p.wake t.taskId).fetchNextTask c).2.queues c).futureQueue)).Perm
            ((p.wake t.taskId).queues c).futureQueue ∧
        u.waketime ≤ p.now ∧
        (∀ x ∈ (((p.wake t.taskId).fetchNextTask c).2.queues c).readyQueue,
          x.waketime ≤ p.now ∧ readyBefore x u = false ∧ u.priority ≤ x.priority) ∧
        ((p.queues c).futureQueue.Pairwise (fun a b => a.waketime ≤ b.waketime) →
          ∀ x ∈ (((p.wake t.taskId).fetchNextTask c).2.queues c).futureQueue,
            p.now < x.waketime)) ∧
    ((p.queues c).readyQueue = [] → (p.queues c).futureQueue = [t] →
      ((p.wake t.taskId).fetchNextTask c).1 =
        some { t with waketime := p.now, state := .running } ∧
      (((p.wake t.taskId).fetchNextTask c).2.queues c).getFutureQueueSize = 0 ∧
      (((p.wake t.taskId).fetchNextTask c).2.queues c).getReadyQueueSize = 0) ∧
    (∀ y r, (p.queues c).readyQueue = y :: r →
      ((p.wake t.taskId).fetchNextTask c).1 = some { y with state := .running } ∧
      (((p.wake t.taskId).fetchNextTask c).2.queues c).futureQueue =
        ((p.wake t.taskId).queues c).futureQueue) := by
  have hq : (p.wake t.taskId).queues c = (p.queues c).wake t.taskId p.now := rfl
  have hnow : (p.wake t.taskId).now = p.now := rfl
  obtain ⟨hf, hrq⟩ := wake_of_filter_singleton (p.queues c) t p.now hin
  have hlen := length_filter_taskId (p.queues c).futureQueue t.taskId
  rw [hin] at hlen
  simp only [List.length_singleton] at hlen
  rw [fetchNextTask_fst, fetchNextTask_queue, hq, hnow]
  refine ⟨?_, ?_, ?_, ?_, ?_, ?_, ?_⟩
  · simp only [TaskQueue.getFutureQueueSize, hf, length_insertFuture]
    exact hlen
  · simp only [TaskQueue.getReadyQueueSize, hrq]
  · rw [hf]
    exact (mem_insertFuture _ _ _).2 (Or.inl rfl)
  · intro hr
    obtain ⟨u, hu, hmem, hsub⟩ := fetch_after_wake (p.queues c) t p.now hin hr
    refine ⟨by rw [hu]; rfl, ?_, ?_, ?_⟩
    · rcases hmem with h | h
      · left
        rw [hu, ← h]
      · right
        exact h
    · intro x hx
      have hx2 := hsub.subset hx
      simp only [List.mem_filter, decide_eq_true_eq] at hx2
      exact hx2.2
    · have := hsub.length_le
      simp only [TaskQueue.getFutureQueueSize]
      omega
  · intro hr
    exact fetch_after_wake_order (p.queues c) t p.now hin hr
  · intro hr hfq
    have hw : (p.queues c).wake t.taskId p.now =
        TaskQueue.mk [{ t with waketime := p.now }] [] := by
      have h1 : ((p.queues c).wake t.taskId p.now).futureQueue = [{ t with waketime := p.now }] := by
        rw [hf, hfq]
        simp [insertFuture]
      have h2 : ((p.queues c).wake t.taskId p.now).readyQueue = [] := by
        rw [hrq, hr]
      cases hw : (p.queues c).wake t.taskId p.now
      rw [hw] at h1 h2
      simp at h1 h2
      rw [h1, h2]
    rw [hw]
    simp [TaskQueue.fetchNextTask, TaskQueue.moveReadyTasks, sweep, insertReady,
      TaskQueue.getFutureQueueSize, TaskQueue.getReadyQueueSize]
  · intro y r hr
    have hr2 : ((p.queues c).wake t.taskId p.now).readyQueue = y :: r := by
      rw [hrq, hr]
    have hmove : ((p.queues c).wake t.taskId p.now).moveReadyTasks p.now =
        (p.queues c).wake t.taskId p.now := by
      unfold TaskQueue.moveReadyTasks
      rw [hr2]
    unfold TaskQueue.fetchNextTask
    rw [hmove, hr2]
    exact ⟨rfl, rfl⟩

/-- Witness of the amended C18. In the test `MB20235_wake_and_work_count` the
task with the sleep time 99999 is alone in the auxiliary-IO queue: the sizes
are 1 and 0 before the wake and after it, the next fetch dispenses the
task, and the sizes are then 0 and 0. In `wakeAmongOthersPool` the task 2,
of priority 5, is woken at the time 0, when the task 1, of priority 1, is
due and the task 3 is not: the fetch promotes the tasks 1 and 2, dispenses
the task 1, leaves the task 2 ready and the task 3 in the future queue. -/
theorem wake_keeps_task_in_future_queue_witness :
    (massiveSleepPool.queues AUXIO_TASK_IDX).futureQueue.filter
        (fun x => x.taskId = massiveSleepTask.taskId) = [massiveSleepTask] ∧
    (massiveSleepPool.queues AUXIO_TASK_IDX).getFutureQueueSize = 1 ∧
    (massiveSleepPool.queues AUXIO_TASK_IDX).getReadyQueueSize = 0 ∧
    ((massiveSleepPool.wake massiveSleepTask.taskId).queues AUXIO_TASK_IDX).getFutureQueueSize
      = 1 ∧
    ((massiveSleepPool.wake massiveSleepTask.taskId).queues AUXIO_TASK_IDX).getReadyQueueSize
      = 0 ∧
    ((massiveSleepPool.wake massiveSleepTask.taskId).fetchNextTask AUXIO_TASK_IDX).1 =
      some { massiveSleepTask with waketime := 0, state := .running } ∧
    (((massiveSleepPool.wake massiveSleepTask.taskId).fetchNextTask AUXIO_TASK_IDX).2.queues
      AUXIO_TASK_IDX).getFutureQueueSize = 0 ∧
    (((massiveSleepPool.wake massiveSleepTask.taskId).fetchNextTask AUXIO_TASK_IDX).2.queues
      AUXIO_TASK_IDX).getReadyQueueSize = 0 ∧
    (wakeAmongOthersPool.queues AUXIO_TASK_IDX).futureQueue.map (fun x => x.taskId) =
      [1, 3, 2] ∧
    ((wakeAmongOthersPool.wake 2).queues AUXIO_TASK_IDX).futureQueue.map (fun x => x.taskId) =
      [1, 2, 3] ∧
    ((wakeAmongOthersPool.wake 2).fetchNextTask AUXIO_TASK_IDX).1.map (fun x => x.taskId) =
      some 1 ∧
    (((wakeAmongOthersPool.wake 2).fetchNextTask AUXIO_TASK_IDX).2.queues
      AUXIO_TASK_IDX).readyQueue.map (fun x => x.taskId) = [2] ∧
    (((wakeAmongOthersPool.wake 2).fetchNextTask AUXIO_TASK_IDX).2.queues
      AUXIO_TASK_IDX).futureQueue.map (fun x => x.taskId) = [3] ∧
    (∃ u : GlobalTask, ((wakeAmongOthersPool.wake 2).fetchNextTask AUXIO_TASK_IDX).1 =
        some { u with state := .running } ∧
      ∀ x ∈ (((wakeAmongOthersPool.wake 2).fetchNextTask AUXIO_TASK_IDX).2.queues
        AUXIO_TASK_IDX).readyQueue, u.priority ≤ x.priority) :=
  have h := wake_keeps_task_in_future_queue massiveSleepPool AUXIO_TASK_IDX massiveSleepTask
    (by decide)
  have h2 := wake_keeps_task_in_future_queue wakeAmongOthersPool AUXIO_TASK_IDX
    { testTask 2 5 99999 false none with waketime := 99999 } (by decide)
  ⟨by decide, by decide, by decide, h.1.trans (by decide), h.2.1.trans (by decide),
    (h.2.2.2.2.2.1 (by decide) (by decide)).1, (h.2.2.2.2.2.1 (by decide) (by decide)).2.1,
    (h.2.2.2.2.2.1 (by decide) (by decide)).2.2, by decide, by decide, by decide, by decide,
    by decide,
    (h2.2.2.2.2.1 (by decide)).imp (fun _ hu => ⟨hu.1, fun x hx => (hu.2.2.2.1 x hx).2.2⟩)⟩

/-- Counterexample to C18 as stated, the scenario of the test
`MB18953_taskWake`: after the first run the task 1 is in the future queue
and the task 2 is ready. The task 1 is woken; the next `fetchNextTask`
dispenses the task 2, not the task 1, and the task 1 is still in the future
queue, whose size has not dropped. -/
theorem wake_promotion_counterexample :
    (siblingsAfterFirstRun.queues NONIO_TASK_IDX).futureQueue.map (fun t => t.taskId) = [1] ∧
    ((siblingsAfterFirstRun.wake 1).queues NONIO_TASK_IDX).getFutureQueueSize = 1 ∧
    ((siblingsAfterFirstRun.wake 1).fetchNextTask NONIO_TASK_IDX).1.map (fun t => t.taskId)
      = some 2 ∧
    ((siblingsAfterFirstRun.wake 1).fetchNextTask NONIO_TASK_IDX).1.map (fun t => t.taskId)
      ≠ some 1 ∧
    (((siblingsAfterFirstRun.wake 1).fetchNextTask NONIO_TASK_IDX).2.queues
      NONIO_TASK_IDX).futureQueue.map (fun t => t.taskId) = [1] ∧
    ¬ ((((siblingsAfterFirstRun.wake 1).fetchNextTask NONIO_TASK_IDX).2.queues
      NONIO_TASK_IDX).getFutureQueueSize + 1 =
        ((siblingsAfterFirstRun.wake 1).queues NONIO_TASK_IDX).getFutureQueueSize) := by
  decide

/-! ## The executor pool: registration of taskables -/

/-- What the registrations and unregistrations keep: the number of workers
that a first registration spawns is `k`, and `k` workers are there exactly
when a taskable is registered. -/
theorem lifecycle_step (k : Nat) (p q : ExecutorPool) (op : TaskableOp)
    (hk : p.totalWorkers = some k)
    (hw : p.numWorkers = if p.numBuckets = 0 then 0 else k)
    (h : op.apply p = some q) :
    q.totalWorkers = some k ∧ q.numWorkers = if q.numBuckets = 0 then 0 else k := by
  cases op with
  | registerTaskable =>
    simp only [TaskableOp.apply, ExecutorPool.registerTaskable, hk] at h
    cases h
    refine ⟨hk, ?_⟩
    by_cases h0 : p.numBuckets = 0
    · simp [h0]
    · simp [h0, hw]
  | unregisterTaskable force =>
    simp only [TaskableOp.apply, ExecutorPool.unregisterTaskable] at h
    by_cases h0 : p.numBuckets = 0
    · simp [h0] at h
    · simp only [h0, if_false, Option.some.injEq] at h
      cases h
      refine ⟨hk, ?_⟩
      by_cases h1 : p.numBuckets = 1
      · simp [h1]
      · have h2 : ¬ p.numBuckets - 1 = 0 := by omega
        simp [h1, h2, hw, h0]

theorem lifecycle_run (k : Nat) (ops : List TaskableOp) :
    ∀ p q : ExecutorPool, p.totalWorkers = some k →
      (p.numWorkers = if p.numBuckets = 0 then 0 else k) →
      p.runTaskableOps ops = some q →
      q.totalWorkers = some k ∧ q.numWorkers = if q.numBuckets = 0 then 0 else k := by
  induction ops with
  | nil =>
    intro p q hk hw h
    simp only [ExecutorPool.runTaskableOps, Option.some.injEq] at h
    subst h
    exact ⟨hk, hw⟩
  | cons op ops ih =>
    intro p q hk hw h
    unfold ExecutorPool.runTaskableOps at h
    cases hop : op.apply p with
    | none => simp [hop] at h
    | some r =>
      simp only [hop] at h
      obtain ⟨hk2, hw2⟩ := lifecycle_step k p r op hk hw hop
      exact ih r q hk2 hw2 h

theorem runTaskableOps_append (l1 l2 : List TaskableOp) :
    ∀ p : ExecutorPool, p.runTaskableOps (l1 ++ l2) =
      match p.runTaskableOps l1 with
      | none => none
      | some q => q.runTaskableOps l2 := by
  induction l1 with
  | nil => intro p; rfl
  | cons op ops ih =>
    intro p
    simp only [List.cons_append, ExecutorPool.runTaskableOps]
    cases op.apply p with
    | none => rfl
    | some r => exact ih r

theorem registerTaskable_some (k : Nat) (p : ExecutorPool) (hk : p.totalWorkers = some k) :
    ∃ q, p.registerTaskable = some q ∧ q.numBuckets = p.numBuckets + 1 ∧
      q.totalWorkers = some k ∧
      q.numWorkers = if p.numBuckets = 0 then k else p.numWorkers := by
  simp only [ExecutorPool.registerTaskable, hk]
  exact ⟨_, rfl, rfl, hk, rfl⟩

theorem unregisterTaskable_some (p : ExecutorPool) (force : Bool) (h : 0 < p.numBuckets) :
    ∃ q, p.unregisterTaskable force = some q ∧ q.numBuckets + 1 = p.numBuckets ∧
      q.totalWorkers = p.totalWorkers ∧
      q.numWorkers = if p.numBuckets = 1 then 0 else p.numWorkers := by
  have h0 : ¬ p.numBuckets = 0 := by omega
  simp only [ExecutorPool.unregisterTaskable, h0, if_false]
  refine ⟨_, rfl, ?_, rfl, rfl⟩
  simp only []
  omega

theorem run_registrations (k : Nat) (n : Nat) :
    ∀ p : ExecutorPool, p.totalWorkers = some k →
      ∃ q, p.runTaskableOps (List.replicate n .registerTaskable) = some q ∧
        q.numBuckets = p.numBuckets + n ∧ q.totalWorkers = some k := by
  induction n with
  | zero => intro p hk; exact ⟨p, rfl, rfl, hk⟩
  | succ n ih =>
    intro p hk
    obtain ⟨r, hr, hb, hk2, _⟩ := registerTaskable_some k p hk
    obtain ⟨q, hq, hb2, hk3⟩ := ih r hk2
    refine ⟨q, ?_, ?_, hk3⟩
    · simp only [List.replicate_succ, ExecutorPool.runTaskableOps, TaskableOp.apply, hr]
      exact hq
    · omega

theorem run_unregistrations (force : Bool) (n : Nat) :
    ∀ p : ExecutorPool, n ≤ p.numBuckets →
      ∃ q, p.runTaskableOps (List.replicate n (.unregisterTaskable force)) = some q ∧
        q.numBuckets + n = p.numBuckets := by
  induction n with
  | zero => intro p _; exact ⟨p, rfl, rfl⟩
  | succ n ih =>
    intro p hn
    obtain ⟨r, hr, hb, _, _⟩ := unregisterTaskable_some p force (by omega)
    obtain ⟨q, hq, hb2⟩ := ih r (by omega)
    refine ⟨q, ?_, ?_⟩
    · simp only [List.replicate_succ, ExecutorPool.runTaskableOps, TaskableOp.apply, hr]
      exact hq
    · omega

/-- C21. For a pool whose four category counts are given and add up to `k`
workers: the pool as constructed has `getNumWorkersStat() = 0` and
`getNumBuckets() = 0`. In every state reached from it by registrations and
unregistrations, `getNumWorkersStat()` is 0 when no taskable is registered
and `k` otherwise; a `registerTaskable` adds one to `getNumBuckets()`, leaves
`k` workers, spawned by it when it is the first, and does not change
`getNumWorkersStat()` when a taskable was registered; an
`unregisterTaskable` takes one off `getNumBuckets()`, does not change
`getNumWorkersStat()` when a taskable stays registered and leaves 0 workers
when it was the last. Registering `n` taskables and then unregistering `n`
leaves 0 workers and 0 taskables. -/
theorem register_unregister_lifecycle
    (maxThreads maxReaders maxWriters maxAuxio maxNonio k : Nat)
    (hk : (ExecutorPool.create maxThreads maxReaders maxWriters maxAuxio
      maxNonio).totalWorkers = some k) :
    (∀ r w a n,
      (ExecutorPool.create maxThreads maxReaders maxWriters maxAuxio
        maxNonio).getNumReaders = some r →
      (ExecutorPool.create maxThreads maxReaders maxWriters maxAuxio
        maxNonio).getNumWriters = some w →
      ExecutorPool.getNumAuxIO (ExecutorPool.create maxThreads maxReaders maxWriters maxAuxio
        maxNonio) = some a →
      ExecutorPool.getNumNonIO (ExecutorPool.create maxThreads maxReaders maxWriters maxAuxio
        maxNonio) = some n → k = r + w + a + n) ∧
    (ExecutorPool.create maxThreads maxReaders maxWriters maxAuxio
      maxNonio).getNumWorkersStat = 0 ∧
    (ExecutorPool.create maxThreads maxReaders maxWriters maxAuxio
      maxNonio).getNumBuckets = 0 ∧
    (∀ ops p, (ExecutorPool.create maxThreads maxReaders maxWriters maxAuxio
        maxNonio).runTaskableOps ops = some p →
      p.getNumWorkersStat = (if p.getNumBuckets = 0 then 0 else k) ∧
      (∃ q, p.registerTaskable = some q ∧ q.getNumBuckets = p.getNumBuckets + 1 ∧
        q.getNumWorkersStat = k ∧
        (0 < p.getNumBuckets → q.getNumWorkersStat = p.getNumWorkersStat)) ∧
      (∀ force, 0 < p.getNumBuckets →
        ∃ q, p.unregisterTaskable force = some q ∧
          q.getNumBuckets + 1 = p.getNumBuckets ∧
          (0 < q.getNumBuckets → q.getNumWorkersStat = p.getNumWorkersStat) ∧
          (q.getNumBuckets = 0 → q.getNumWorkersStat = 0))) ∧
    (∀ n force, ∃ q,
      (ExecutorPool.create maxThreads maxReaders maxWriters maxAuxio
        maxNonio).runTaskableOps (List.replicate n .registerTaskable ++
          List.replicate n (.unregisterTaskable force)) = some q ∧
      q.getNumWorkersStat = 0 ∧ q.getNumBuckets = 0) := by
  have hw0 : (ExecutorPool.create maxThreads maxReaders maxWriters maxAuxio
      maxNonio).numWorkers =
      if (ExecutorPool.create maxThreads maxReaders maxWriters maxAuxio
        maxNonio).numBuckets = 0 then 0 else k := by
    simp [ExecutorPool.create]
  refine ⟨?_, rfl, rfl, ?_, ?_⟩
  · intro r w a n hr hw ha hn
    simp only [ExecutorPool.totalWorkers, hr, hw, ha, hn, Option.some.injEq] at hk
    exact hk.symm
  · intro ops p hp
    obtain ⟨hkp, hwp⟩ := lifecycle_run k ops _ p hk hw0 hp
    simp only [ExecutorPool.getNumWorkersStat, ExecutorPool.getNumBuckets]
    refine ⟨hwp, ?_, ?_⟩
    · obtain ⟨q, hq, hb, _, hwq⟩ := registerTaskable_some k p hkp
      refine ⟨q, hq, hb, ?_, ?_⟩
      · rw [hwq, hwp]
        by_cases h0 : p.numBuckets = 0
        · simp [h0]
        · simp [h0]
      · intro hpos
        have h0 : ¬ p.numBuckets = 0 := by omega
        rw [hwq]
        simp [h0]
    · intro force hpos
      obtain ⟨q, hq, hb, _, hwq⟩ := unregisterTaskable_some p force hpos
      refine ⟨q, hq, hb, ?_, ?_⟩
      · intro hqpos
        have h1 : ¬ p.numBuckets = 1 := by omega
        rw [hwq]
        simp [h1]
      · intro hq0
        have h1 : p.numBuckets = 1 := by omega
        rw [hwq]
        simp [h1]
  · intro n force
    obtain ⟨r, hr, hb, hkr⟩ := run_registrations k n _ hk
    obtain ⟨q, hq, hb2⟩ := run_unregistrations force n r (by omega)
    have hrun : (ExecutorPool.create maxThreads maxReaders maxWriters maxAuxio
        maxNonio).runTaskableOps (List.replicate n .registerTaskable ++
          List.replicate n (.unregisterTaskable force)) = some q := by
      rw [runTaskableOps_append, hr]
      exact hq
    obtain ⟨_, hwq⟩ := lifecycle_run k _ _ q hk hw0 hrun
    have hb0 : (ExecutorPool.create maxThreads maxReaders maxWriters maxAuxio
        maxNonio).numBuckets = 0 := rfl
    have hq0 : q.numBuckets = 0 := by omega
    refine ⟨q, hrun, ?_, hq0⟩
    simp only [ExecutorPool.getNumWorkersStat]
    rw [hwq]
    simp [hq0]

/-- Witness of C21: the test `register_taskable_test`. With the caps 2, 2, 2,
2 the counts add up to 8: after the first registration there are 8 workers
and 1 taskable, and after two registrations and two unregistrations 0
workers and 0 taskables. -/
theorem register_unregister_lifecycle_witness :
    registerTestPool.totalWorkers = some 8 ∧
    registerTestPool.getNumWorkersStat = 0 ∧
    registerTestPool.getNumBuckets = 0 ∧
    (∃ q, registerTestPool.registerTaskable = some q ∧ q.getNumBuckets = 1 ∧
      q.getNumWorkersStat = 8) ∧
    (∃ q, registerTestPool.runTaskableOps
        (List.replicate 2 .registerTaskable ++ List.replicate 2 (.unregisterTaskable false)) =
          some q ∧
      q.getNumWorkersStat = 0 ∧ q.getNumBuckets = 0) :=
  have h := register_unregister_lifecycle 10 2 2 2 2 8 rfl
  ⟨rfl, h.2.1, h.2.2.1,
    (h.2.2.2.1 [] registerTestPool rfl).2.1.imp (fun _ hq => ⟨hq.1, hq.2.1, hq.2.2.1⟩),
    h.2.2.2.2 2 false⟩

/-! ## Strings -/

theorem c_str_of_nul_free (s : String) (h : Char.ofNat 0 ∉ s.data) : c_str s = s := by
  unfold c_str
  have h2 : s.data.takeWhile (fun ch => decide (ch ≠ Char.ofNat 0)) = s.data := by
    rw [List.takeWhile_eq_self_iff]
    intro ch hch
    simp only [decide_eq_true_eq]
    intro e
    exact h (e ▸ hch)
  rw [h2]

/-- The string round trip, where the `cb_free` of the setter is defined: the
key is absent, or it has an assigned tag other than `DT_STRING`, or its tag
is `DT_STRING` and `val` holds a string pointer. -/
theorem string_round_trip_of_defined (c : Configuration) (key : String) (s : String)
    (hnul : Char.ofNat 0 ∉ s.data)
    (hacc : ∀ a w, find c.attributes key = some a → a.validator = some w →
      w.validateString key (if s.length = 0 then none else some s) = true)
    (hdef : freesOldString c.attributes key ≠ none) :
    (setParameter_string c key s).error = none ∧
    getString (setParameter_string c key s).config key = .ok s ∧
    (setParameter_string c key s).calls =
      (listenersOf c key).map
        (fun l => .stringValueChanged l key (if s.length = 0 then none else some s)) ∧
    (s = "" → (find (setParameter_string c key s).config.attributes key).map (fun a => a.val) =
      some (.v_string none)) := by
  have hcs := c_str_of_nul_free s hnul
  by_cases h0 : s.length = 0
  · have hs : s = "" := by
      cases s with
      | mk d =>
        cases d with
        | nil => rfl
        | cons x xs => simp [String.length] at h0
    simp only [h0, if_true] at hacc ⊢
    have hthrow := validatorThrows_of_accepts c.attributes key
      (fun v => v.validateString key none) hacc
    have hset : setParameter_string c key s = setParameter_cstr c key none := by
      simp [setParameter_string, h0]
    have hok := setParameter_cstr_ok c key none hthrow hdef
    have herr : (setParameter_cstr c key none).error = none := by rw [hok]
    rw [hset]
    refine ⟨herr, ?_, ?_, ?_⟩
    · rw [(get_after_setParameter c key).2.2.2.2 none herr, hs]
      rfl
    · rw [hok]
      rfl
    · intro _
      rw [hok]
      simp only [find_assign_self, Option.map_some']
  · simp only [h0, if_false] at hacc ⊢
    have hthrow := validatorThrows_of_accepts c.attributes key
      (fun v => v.validateString key (some s)) hacc
    have hset : setParameter_string c key s = setParameter_cstr c key (some s) := by
      simp [setParameter_string, h0, hcs]
    have hok := setParameter_cstr_ok c key (some s) hthrow hdef
    have herr : (setParameter_cstr c key (some s)).error = none := by rw [hok]
    rw [hset]
    refine ⟨herr, ?_, ?_, ?_⟩
    · rw [(get_after_setParameter c key).2.2.2.2 (some s) herr]
      rfl
    · rw [hok]
      rfl
    · intro hs
      exfalso
      apply h0
      rw [hs]
      rfl

/-- C22: the code at the failing input. In `staleStringConfig` the record of
`max_size` has the tag `DT_STRING` and a `val` that holds the size 5, not a
pointer; no validator is installed. `setParameter("max_size", "x")` then
passes the bits of the size to `cb_free`: the call has no defined result,
for the empty string as for `"x"`, and `getString("max_size")` afterwards
does not return the string that was set. -/
theorem string_set_frees_stale_word :
    tagOf staleStringConfig "max_size" = some DT_STRING ∧
    (find staleStringConfig.attributes "max_size").map (fun a => a.val) = some (.v_size 5) ∧
    (validatorOf staleStringConfig "max_size").isNone = true ∧
    freesOldString staleStringConfig.attributes "max_size" = none ∧
    (setParameter_string staleStringConfig "max_size" "x").error = some .Undefined ∧
    getString (setParameter_string staleStringConfig "max_size" "x").config "max_size" ≠
      .ok "x" ∧
    (setParameter_string staleStringConfig "max_size" "").error = some .Undefined ∧
    getString (setParameter_string staleStringConfig "max_size" "").config "max_size" ≠
      .ok "" := by
  decide

/-! ## The alias `cache_size` -/

theorem setParameter_size_t_error (c : Configuration) (key : String) (v : Nat) :
    (setParameter_size_t c key v).error =
      match validatorOf c key with
      | none => none
      | some w => if w.validateSize key v then none else some .ValidationError := by
  unfold setParameter_size_t
  rw [validatorThrows_eq]
  cases validatorOf c key with
  | none => rfl
  | some w => cases hw : w.validateSize key v <;> simp [hw]

theorem setParameter_ssize_t_error (c : Configuration) (key : String) (i : Int) :
    (setParameter_ssize_t c key i).error =
      match validatorOf c key with
      | none => none
      | some w => if w.validateSSize key i then none else some .ValidationError := by
  unfold setParameter_ssize_t
  rw [validatorThrows_eq]
  cases validatorOf c key with
  | none => rfl
  | some w => cases hw : w.validateSSize key i <;> simp [hw]

theorem validatorOf_setValueValidator_ne (c : Configuration) (key k2 : String)
    (w : Option ValueChangedValidator) (h : k2 ≠ key) :
    validatorOf (setValueValidator c key w).2 k2 = validatorOf c k2 := by
  unfold setValueValidator validatorOf
  cases hf : find c.attributes key with
  | none => rfl
  | some a =>
    simp only []
    rw [find_assign_ne _ _ _ _ h, find_subscript_ne _ _ _ h]

/-- C23. `setParameter("cache_size", v)`, with a size or a signed value,
throws exactly when the validator installed on the attribute `cache_size`
rejects `v`: with no such attribute, or no validator on it, it succeeds.
The validator of `max_size` has no part in it: the outcome is the same
whatever validator is installed on `max_size`. So on `sampleConfig`, whose
validator of `max_size` rejects the size 0, `setParameter("max_size", 0)`
throws, while `setParameter("cache_size", 0)` succeeds and
`getInteger("max_size")` then returns 0. -/
theorem alias_bypasses_max_size_validator (c : Configuration) (v : Nat) (i : Int)
    (w : Option ValueChangedValidator) :
    ((setParameter_size_t c "cache_size" v).error =
      match validatorOf c "cache_size" with
      | none => none
      | some u => if u.validateSize "cache_size" v then none else some .ValidationError) ∧
    ((setParameter_ssize_t c "cache_size" i).error =
      match validatorOf c "cache_size" with
      | none => none
      | some u => if u.validateSSize "cache_size" i then none else some .ValidationError) ∧
    (setParameter_size_t (setValueValidator c "max_size" w).2 "cache_size" v).error =
      (setParameter_size_t c "cache_size" v).error ∧
    (setParameter_ssize_t (setValueValidator c "max_size" w).2 "cache_size" i).error =
      (setParameter_ssize_t c "cache_size" i).error ∧
    (validatorOf sampleConfig "max_size").map (fun u => u.validateSize "max_size" 0) =
      some false ∧
    (setParameter_size_t sampleConfig "max_size" 0).error = some .ValidationError ∧
    (setParameter_size_t sampleConfig "cache_size" 0).error = none ∧
    getInteger (setParameter_size_t sampleConfig "cache_size" 0).config "max_size" = .ok 0 := by
  refine ⟨setParameter_size_t_error c _ v, setParameter_ssize_t_error c _ i, ?_, ?_,
    by decide, by decide, by decide, by decide⟩
  · rw [setParameter_size_t_error, setParameter_size_t_error,
      validatorOf_setValueValidator_ne c "max_size" "cache_size" w (by decide)]
  · rw [setParameter_ssize_t_error, setParameter_ssize_t_error,
      validatorOf_setValueValidator_ne c "max_size" "cache_size" w (by decide)]

/-- C24. A successful `setParameter("cache_size", v)` calls
`sizeValueChanged("cache_size", v)` on the listeners registered on the
attribute `cache_size`, in their order, and makes no other call: none when
there is no such attribute, none with the key `max_size`, and none on a
listener of `max_size` that is not also registered on `cache_size`. The
record of `max_size` has its `val` set to `v` and keeps its listeners. The
signed overload does the same, with the value converted to a `size_t`. -/
theorem alias_notifies_only_cache_size_listeners (c : Configuration) (v : Nat)
    (herr : (setParameter_size_t c "cache_size" v).error = none) :
    (setParameter_size_t c "cache_size" v).calls =
      (listenersOf c "cache_size").map (fun l => .sizeValueChanged l "cache_size" v) ∧
    (∀ call ∈ (setParameter_size_t c "cache_size" v).calls, call.key ≠ "max_size") ∧
    (∀ l ∈ listenersOf c "max_size", l ∉ listenersOf c "cache_size" →
      ∀ call ∈ (setParameter_size_t c "cache_size" v).calls, call.listener ≠ l) ∧
    (find c.attributes "cache_size" = none → (setParameter_size_t c "cache_size" v).calls = []) ∧
    find (setParameter_size_t c "cache_size" v).config.attributes "max_size" =
      some { fetch c.attributes "max_size" with val := .v_size v } ∧
    listenersOf (setParameter_size_t c "cache_size" v).config "max_size" =
      listenersOf c "max_size" ∧
    (∀ i, (setParameter_ssize_t c "cache_size" i).error = none →
      (setParameter_ssize_t c "cache_size" i).calls =
        (listenersOf c "cache_size").map
          (fun l => .sizeValueChanged l "cache_size" (size_t_of_ssize_t i)) ∧
      find (setParameter_ssize_t c "cache_size" i).config.attributes "max_size" =
        some { fetch c.attributes "max_size" with val := .v_ssize i } ∧
      listenersOf (setParameter_ssize_t c "cache_size" i).config "max_size" =
        listenersOf c "max_size") := by
  have hthrow : validatorThrows c.attributes "cache_size"
      (fun w => w.validateSize "cache_size" v) = false := by
    cases ht : validatorThrows c.attributes "cache_size"
      (fun w => w.validateSize "cache_size" v) with
    | false => rfl
    | true => simp [setParameter_size_t, ht] at herr
  have hok := setParameter_size_t_alias c v hthrow
  have hcalls : (setParameter_size_t c "cache_size" v).calls =
      (listenersOf c "cache_size").map (fun l => .sizeValueChanged l "cache_size" v) := by
    rw [hok]
    rfl
  have hmax : ∀ (m : List (String × value_t)) (f g : value_t → value_t),
      find (assign (assign m "cache_size" f) "max_size" g) "max_size" =
        some (g (fetch m "max_size")) := by
    intro m f g
    rw [find_assign_self, fetch_assign_ne _ _ _ _ (by decide)]
  refine ⟨hcalls, ?_, ?_, ?_, ?_, ?_, ?_⟩
  · intro call hcall
    rw [hcalls] at hcall
    obtain ⟨l, _, rfl⟩ := List.mem_map.mp hcall
    simp [Call.key]
  · intro l _ hl call hcall e
    rw [hcalls] at hcall
    obtain ⟨l2, hl2, rfl⟩ := List.mem_map.mp hcall
    simp only [Call.listener] at e
    exact hl (e ▸ hl2)
  · intro habsent
    rw [hcalls]
    simp [listenersOf, fetch, habsent, value_t.fresh]
  · rw [hok]
    exact hmax _ _ _
  · rw [hok]
    simp only [listenersOf, fetch, hmax, Option.getD_some]
  · intro i hi
    have hthrow2 : validatorThrows c.attributes "cache_size"
        (fun w => w.validateSSize "cache_size" i) = false := by
      cases ht : validatorThrows c.attributes "cache_size"
        (fun w => w.validateSSize "cache_size" i) with
      | false => rfl
      | true => simp [setParameter_ssize_t, ht] at hi
    have hok2 := setParameter_ssize_t_alias c i hthrow2
    refine ⟨?_, ?_, ?_⟩
    · rw [hok2]
      rfl
    · rw [hok2]
      exact hmax _ _ _
    · rw [hok2]
      simp only [listenersOf, fetch, hmax, Option.getD_some]

/-- Witness of C24: in `listenedConfig` the listener 7 is registered on
`cache_size` and the listener 8 on `max_size`, which holds 1.
`setParameter("cache_size", 2)` calls the listener 7 and no other, and
`max_size` then holds 2. -/
theorem alias_notifies_only_cache_size_listeners_witness :
    listenersOf listenedConfig "cache_size" = [7] ∧
    listenersOf listenedConfig "max_size" = [8] ∧
    getInteger listenedConfig "max_size" = .ok 1 ∧
    (setParameter_size_t listenedConfig "cache_size" 2).calls =
      [.sizeValueChanged 7 "cache_size" 2] ∧
    getInteger (setParameter_size_t listenedConfig "cache_size" 2).config "max_size" = .ok 2 :=
  have h := alias_notifies_only_cache_size_listeners listenedConfig 2 (by decide)
  ⟨by decide, by decide, by decide, h.1.trans (by decide), by decide⟩

/-! ## A parse that fails -/

/-- C25. When the parser reports failure for the array offered, whatever
items it marked found: `parseConfiguration` leaves the registry as it was,
makes no listener callback and throws neither the invariant violation nor a
validation error; the second loop applies no item (`parseLoop false` makes
no `setFound` call). When every tag of the registry is assigned, the call
returns false. -/
theorem failed_parse_changes_nothing (c : Configuration) (str : String)
    (sapi : String → List config_item → ParseOutcome)
    (hfail : ∀ config, configItems c.attributes = some config →
      (sapi str (offeredItems config)).ret ≠ 0) :
    (parseConfiguration c str sapi).config = c ∧
    (parseConfiguration c str sapi).calls = [] ∧
    (parseConfiguration c str sapi).ret = false ∧
    (parseConfiguration c str sapi).error ≠ some .InvariantViolation ∧
    (parseConfiguration c str sapi).error ≠ some .ValidationError ∧
    (∀ l calls, parseLoop false l c calls =
      { config := c, calls := calls, error := none, ret := false }) ∧
    (∀ config, configItems c.attributes = some config →
      parseConfiguration c str sapi =
        { config := c, calls := [], error := none, ret := false }) := by
  have hall : ∀ config, configItems c.attributes = some config →
      parseConfiguration c str sapi =
        { config := c, calls := [], error := none, ret := false } := by
    intro config hc
    have hret := hfail config hc
    unfold parseConfiguration
    simp only [hc]
    rw [decide_eq_false hret, parseLoop_false]
  cases hc : configItems c.attributes with
  | none =>
    have hp : parseConfiguration c str sapi =
        { config := c, calls := [], error := some .Undefined, ret := false } := by
      simp [parseConfiguration, hc]
    refine ⟨by rw [hp], by rw [hp], by rw [hp], by rw [hp]; simp, by rw [hp]; simp,
      fun l calls => parseLoop_false l c calls, ?_⟩
    intro config hc2
    cases hc2
  | some config =>
    have hp := hall config hc
    refine ⟨by rw [hp], by rw [hp], by rw [hp], by rw [hp]; simp, by rw [hp]; simp,
      fun l calls => parseLoop_false l c calls, ?_⟩
    intro config2 _
    exact hp

/-- Witness of C25: on `sampleConfig` a parser that reports failure and marks
`max_size`, `cache_size` and `config_file` found: the call returns false,
without an exception, a callback or a change of the registry. -/
theorem failed_parse_changes_nothing_witness :
    (parserFailing "" (offeredItems [⟨"max_size", DT_SIZE⟩])).ret ≠ 0 ∧
    (parserFailing "" (offeredItems [⟨"max_size", DT_SIZE⟩])).marks[2]? =
      some (true, .v_string none) ∧
    parseConfiguration sampleConfig "" parserFailing =
      { config := sampleConfig, calls := [], error := none, ret := false } :=
  ⟨by decide, by decide,
    (failed_parse_changes_nothing sampleConfig "" parserFailing
      (fun _ _ => by simp [parserFailing])).2.2.2.2.2.2 [⟨"max_size", DT_SIZE⟩] rfl⟩

/-! ## The frame of a set -/

theorem find_assign_twice (m : List (String × value_t)) (key : String)
    (f g : value_t → value_t) :
    find (assign (assign m key f) key g) key = some (g (f (fetch m key))) ∧
    ∀ k2, k2 ≠ key → find (assign (assign m key f) key g) k2 = find m k2 := by
  refine ⟨?_, ?_⟩
  · rw [find_assign_self, fetch_assign_self]
  · intro k2 hk
    rw [find_assign_ne _ _ _ _ hk, find_assign_ne _ _ _ _ hk]

theorem find_assign_alias (m : List (String × value_t)) (f g : value_t → value_t) :
    find (assign (assign m "cache_size" f) "max_size" g) "cache_size" =
      some (f (fetch m "cache_size")) ∧
    find (assign (assign m "cache_size" f) "max_size" g) "max_size" =
      some (g (fetch m "max_size")) ∧
    ∀ k2, k2 ≠ "cache_size" → k2 ≠ "max_size" →
      find (assign (assign m "cache_size" f) "max_size" g) k2 = find m k2 := by
  refine ⟨?_, ?_, ?_⟩
  · rw [find_assign_ne _ _ _ _ (by decide), find_assign_self]
  · rw [find_assign_self, fetch_assign_ne _ _ _ _ (by decide)]
  · intro k2 h1 h2
    rw [find_assign_ne _ _ _ _ h2, find_assign_ne _ _ _ _ h1]

theorem not_throws_of_error_none (c : Configuration) (key : String) :
    (∀ b, (setParameter_bool c key b).error = none →
      validatorThrows c.attributes key (fun v => v.validateBool key b) = false) ∧
    (∀ n, (setParameter_size_t c key n).error = none →
      validatorThrows c.attributes key (fun v => v.validateSize key n) = false) ∧
    (∀ i, (setParameter_ssize_t c key i).error = none →
      validatorThrows c.attributes key (fun v => v.validateSSize key i) = false) ∧
    (∀ f, (setParameter_float c key f).error = none →
      validatorThrows c.attributes key (fun v => v.validateFloat key f) = false) := by
  obtain ⟨h1, h2, h3, h4, _⟩ := setParameter_error_validation c key
  refine ⟨?_, ?_, ?_, ?_⟩
  · intro b hb
    cases ht : validatorThrows c.attributes key (fun v => v.validateBool key b) with
    | false => rfl
    | true => rw [(h1 b).mpr ht] at hb; cases hb
  · intro n hn
    cases ht : validatorThrows c.attributes key (fun v => v.validateSize key n) with
    | false => rfl
    | true => rw [(h2 n).mpr ht] at hn; cases hn
  · intro i hi
    cases ht : validatorThrows c.attributes key (fun v => v.validateSSize key i) with
    | false => rfl
    | true => rw [(h3 i).mpr ht] at hi; cases hi
  · intro f hf
    cases ht : validatorThrows c.attributes key (fun v => v.validateFloat key f) with
    | false => rfl
    | true => rw [(h4 f).mpr ht] at hf; cases hf

/-- C26. A successful `setParameter(key, v)` leaves under `key` the record
that was there, or a fresh one, without listeners and validator, when the
key was absent, with the tag of the kind and `val` holding `v`; its
listeners and its validator are kept, and every other key has the record it
had. This holds for the bool, float and string setters on every key, and
for the size and signed setters on every key other than `cache_size`. For
`cache_size` the size and signed setters assign the tag of `cache_size`,
write the value into `val` of `max_size`, and leave every other key, the
`val` of `cache_size` and the tag of `max_size` as they were. -/
theorem set_changes_only_its_key (c : Configuration) (key : String) :
    (find c.attributes key = none → fetch c.attributes key = value_t.fresh) ∧
    value_t.fresh.changeListener = [] ∧ value_t.fresh.validator.isNone = true ∧
    (∀ b, (setParameter_bool c key b).error = none →
      find (setParameter_bool c key b).config.attributes key =
        some { fetch c.attributes key with datatype := some DT_BOOL, val := .v_bool b } ∧
      ∀ k2, k2 ≠ key →
        find (setParameter_bool c key b).config.attributes k2 = find c.attributes k2) ∧
    (∀ f, (setParameter_float c key f).error = none →
      find (setParameter_float c key f).config.attributes key =
        some { fetch c.attributes key with datatype := some DT_FLOAT, val := .v_float f } ∧
      ∀ k2, k2 ≠ key →
        find (setParameter_float c key f).config.attributes k2 = find c.attributes k2) ∧
    (∀ s, (setParameter_cstr c key s).error = none →
      find (setParameter_cstr c key s).config.attributes key =
        some { fetch c.attributes key with datatype := some DT_STRING, val := .v_string s } ∧
      ∀ k2, k2 ≠ key →
        find (setParameter_cstr c key s).config.attributes k2 = find c.attributes k2) ∧
    (key ≠ "cache_size" →
      (∀ n, (setParameter_size_t c key n).error = none →
        find (setParameter_size_t c key n).config.attributes key =
          some { fetch c.attributes key with datatype := some DT_SIZE, val := .v_size n } ∧
        ∀ k2, k2 ≠ key →
          find (setParameter_size_t c key n).config.attributes k2 = find c.attributes k2) ∧
      (∀ i, (setParameter_ssize_t c key i).error = none →
        find (setParameter_ssize_t c key i).config.attributes key =
          some { fetch c.attributes key with datatype := some DT_SSIZE, val := .v_ssize i } ∧
        ∀ k2, k2 ≠ key →
          find (setParameter_ssize_t c key i).config.attributes k2 = find c.attributes k2)) ∧
    (∀ n, (setParameter_size_t c "cache_size" n).error = none →
      find (setParameter_size_t c "cache_size" n).config.attributes "cache_size" =
        some { fetch c.attributes "cache_size" with datatype := some DT_SIZE } ∧
      find (setParameter_size_t c "cache_size" n).config.attributes "max_size" =
        some { fetch c.attributes "max_size" with val := .v_size n } ∧
      ∀ k2, k2 ≠ "cache_size" → k2 ≠ "max_size" →
        find (setParameter_size_t c "cache_size" n).config.attributes k2 =
          find c.attributes k2) ∧
    (∀ i, (setParameter_ssize_t c "cache_size" i).error = none →
      find (setParameter_ssize_t c "cache_size" i).config.attributes "cache_size" =
        some { fetch c.attributes "cache_size" with datatype := some DT_SSIZE } ∧
      find (setParameter_ssize_t c "cache_size" i).config.attributes "max_size" =
        some { fetch c.attributes "max_size" with val := .v_ssize i } ∧
      ∀ k2, k2 ≠ "cache_size" → k2 ≠ "max_size" →
        find (setParameter_ssize_t c "cache_size" i).config.attributes k2 =
          find c.attributes k2) := by
  obtain ⟨hb, hn, hi, hf⟩ := not_throws_of_error_none c key
  obtain ⟨_, hn2, hi2, _⟩ := not_throws_of_error_none c "cache_size"
  refine ⟨?_, rfl, rfl, ?_, ?_, ?_, ?_, ?_, ?_⟩
  · intro habsent
    simp [fetch, habsent]
  · intro b h
    rw [setParameter_bool_ok c key b (hb b h)]
    exact find_assign_twice _ _ _ _
  · intro f h
    rw [setParameter_float_ok c key f (hf f h)]
    exact find_assign_twice _ _ _ _
  · intro s h
    obtain ⟨h1, h2⟩ := setParameter_cstr_error_none c key s h
    rw [setParameter_cstr_ok c key s h1 h2]
    refine ⟨find_assign_self _ _ _, ?_⟩
    intro k2 hk
    exact find_assign_ne _ _ _ _ hk
  · intro hkey
    refine ⟨?_, ?_⟩
    · intro n h
      rw [setParameter_size_t_ok c key n (hn n h) hkey]
      exact find_assign_twice _ _ _ _
    · intro i h
      rw [setParameter_ssize_t_ok c key i (hi i h) hkey]
      exact find_assign_twice _ _ _ _
  · intro n h
    rw [setParameter_size_t_alias c n (hn2 n h)]
    exact find_assign_alias _ _ _
  · intro i h
    rw [setParameter_ssize_t_alias c i (hi2 i h)]
    exact find_assign_alias _ _ _

/-- Witness of C26: on `sampleConfig`, `setParameter("max_size", 5)` keeps the
listener and the validator of `max_size` and creates no key, and
`setParameter("b", true)` creates `b` without listeners and leaves
`max_size` as it was. -/
theorem set_changes_only_its_key_witness :
    (setParameter_size_t sampleConfig "max_size" 5).error = none ∧
    find (setParameter_size_t sampleConfig "max_size" 5).config.attributes "max_size" =
      some { fetch sampleConfig.attributes "max_size" with
        datatype := some DT_SIZE, val := .v_size 5 } ∧
    listenersOf (setParameter_size_t sampleConfig "max_size" 5).config "max_size" = [1] ∧
    find (setParameter_size_t sampleConfig "max_size" 5).config.attributes "cache_size" =
      find sampleConfig.attributes "cache_size" ∧
    find (setParameter_bool sampleConfig "b" true).config.attributes "max_size" =
      find sampleConfig.attributes "max_size" ∧
    listenersOf (setParameter_bool sampleConfig "b" true).config "b" = [] :=
  have h := set_changes_only_its_key sampleConfig "max_size"
  have h2 := set_changes_only_its_key sampleConfig "b"
  ⟨by decide, ((h.2.2.2.2.2.2.1 (by decide)).1 5 (by decide)).1, by decide,
    ((h.2.2.2.2.2.2.1 (by decide)).1 5 (by decide)).2 "cache_size" (by decide),
    (h2.2.2.2.1 true (by decide)).2 "max_size" (by decide), by decide⟩

/-! ## The order in which `parseConfiguration` applies the items -/

theorem configItems_tag_of_find (m : List (String × value_t)) (hs : sortedKeys m)
    (key : String) (a : value_t) (t : config_datatype) (hfind : find m key = some a)
    (htag : a.datatype = some t) :
    ∀ config, configItems m = some config →
      ∀ item ∈ config, item.key = key → item.datatype = t := by
  induction m with
  | nil => simp [find] at hfind
  | cons p m ih =>
    obtain ⟨k, b⟩ := p
    intro config hc item hitem hkey
    unfold configItems at hc
    cases hb : b.datatype with
    | none => simp [hb] at hc
    | some tb =>
      cases hrest : configItems m with
      | none => simp [hb, hrest] at hc
      | some rest =>
        simp only [hb, hrest, Option.some.injEq] at hc
        subst hc
        have hsm : sortedKeys m := (List.pairwise_cons.mp hs).2
        have hhead : ∀ q ∈ m, k ≠ q.1 := by
          intro q hq e
          have hlt := (List.pairwise_cons.mp hs).1 q hq
          simp only [] at hlt
          rw [e, less_irrefl] at hlt
          cases hlt
        rcases List.mem_cons.mp hitem with h1 | h1
        · subst h1
          simp only [] at hkey
          subst hkey
          simp only [find, if_true, Option.some.injEq] at hfind
          subst hfind
          rw [hb] at htag
          simpa using htag
        · have hk2 : item.key ∈ m.map Prod.fst := by
            rw [← configItems_keys m rest hrest]
            exact List.mem_map_of_mem (fun i => i.key) h1
          obtain ⟨q, hq, hq1⟩ := List.mem_map.mp hk2
          have hne : k ≠ key := by
            rw [← hkey, ← hq1]
            exact hhead q hq
          simp only [find, hne, if_false] at hfind
          exact ih hsm hfind rest hrest item h1 hkey

theorem tagOf_setFound_max_size (c : Configuration) (item : config_item) (slot : val_t)
    (hitem : item.key = "max_size" → item.datatype = DT_SIZE)
    (hkey : item.key ≠ "cache_size")
    (h : tagOf c "max_size" = some DT_SIZE) :
    tagOf (setFound c item slot).config "max_size" = some DT_SIZE := by
  by_cases hk : item.key = "max_size"
  · obtain ⟨k, t⟩ := item
    simp only [] at hk hitem
    have ht := hitem hk
    subst hk
    subst ht
    simp only [setFound]
    cases slot.get_size with
    | none => exact h
    | some n =>
      simp only []
      cases hthrow : validatorThrows c.attributes "max_size"
        (fun v => v.validateSize "max_size" n) with
      | true =>
        have : (setParameter_size_t c "max_size" n).config = c := by
          simp [setParameter_size_t, hthrow]
        rw [this]
        exact h
      | false =>
        rw [setParameter_size_t_ok c "max_size" n hthrow (by decide)]
        simp only [tagOf, (find_assign_twice _ _ _ _).1]
        rfl
  · unfold tagOf
    rw [setFound_find_ne c item slot "max_size" (fun e => hk e.symm) (fun e => absurd e hkey)]
    exact h

theorem tagOf_applySets_max_size (l : List (config_item × val_t))
    (hl : ∀ e ∈ l, (e.1.key = "max_size" → e.1.datatype = DT_SIZE) ∧ e.1.key ≠ "cache_size") :
    ∀ (c : Configuration) (calls : List Call), tagOf c "max_size" = some DT_SIZE →
      tagOf (applySets l c calls).config "max_size" = some DT_SIZE := by
  induction l with
  | nil => intro c calls h; exact h
  | cons e rest ih =>
    intro c calls h
    obtain ⟨item, slot⟩ := e
    have hstep := tagOf_setFound_max_size c item slot (hl (item, slot) (by simp)).1
      (hl (item, slot) (by simp)).2 h
    unfold applySets
    cases he : (setFound c item slot).error with
    | some err => simpa [he] using hstep
    | none =>
      simp only [he]
      exact ih (fun e2 he2 => hl e2 (List.mem_cons_of_mem _ he2)) _ _ hstep

theorem applySets_config_file_only (l : List (config_item × val_t))
    (hl : ∀ e ∈ l, e.1.datatype = DT_CONFIGFILE) (c : Configuration) (calls : List Call) :
    (applySets l c calls).config = c := by
  cases l with
  | nil => rfl
  | cons e rest =>
    obtain ⟨item, slot⟩ := e
    have ht : item.datatype = DT_CONFIGFILE := hl (item, slot) (by simp)
    unfold applySets
    simp [setFound, ht]

theorem applySets_config_file_error (l : List (config_item × val_t))
    (hl : ∀ e ∈ l, e.1.datatype = DT_CONFIGFILE) (c : Configuration) (calls : List Call) :
    (applySets l c calls).error = none ∨
      (applySets l c calls).error = some .InvariantViolation := by
  cases l with
  | nil => exact Or.inl rfl
  | cons e rest =>
    obtain ⟨item, slot⟩ := e
    have ht : item.datatype = DT_CONFIGFILE := hl (item, slot) (by simp)
    unfold applySets
    simp [setFound, ht]

theorem fetch_of_tagOf (c : Configuration) (key : String) (t : config_datatype)
    (h : tagOf c key = some t) : (fetch c.attributes key).datatype = some t := by
  unfold tagOf at h
  unfold fetch
  cases hf : find c.attributes key with
  | none => simp [hf] at h
  | some a =>
    simp only [hf, Option.bind_some] at h
    simpa using h

/-- The alias item applied after the found keys of the registry: when these
are set without an exception, the registry holds `max_size` as a size and no
`cache_size`, and the parser marked `cache_size` found with the size `b`,
then `max_size` holds `b` in the registry the items leave, and the only
exception left is the invariant violation of `config_file`. -/
theorem applySets_alias_last (c : Configuration) (F1 F2 : List (config_item × val_t))
    (sb : val_t) (b : Nat) (hb : sb.get_size = some b)
    (h1 : ∀ e ∈ F1, (e.1.key = "max_size" → e.1.datatype = DT_SIZE) ∧ e.1.key ≠ "cache_size")
    (h2 : ∀ e ∈ F2, e.1.datatype = DT_CONFIGFILE)
    (htag : tagOf c "max_size" = some DT_SIZE)
    (habsent : find c.attributes "cache_size" = none)
    (herr : (applySets F1 c []).error = none) :
    getInteger (applySets (F1 ++ (cacheSizeItem, sb) :: F2) c []).config "max_size" = .ok b ∧
    ((applySets (F1 ++ (cacheSizeItem, sb) :: F2) c []).error = none ∨
      (applySets (F1 ++ (cacheSizeItem, sb) :: F2) c []).error = some .InvariantViolation) := by
  have habs1 : find (applySets F1 c []).config.attributes "cache_size" = none := by
    rw [applySets_find_of_untouched F1 "cache_size" ?_ c [], habsent]
    intro e he
    exact ⟨fun e2 => (h1 e he).2 e2.symm, fun _ => by decide⟩
  have htag1 := tagOf_applySets_max_size F1 h1 c [] htag
  have hthrow := validatorThrows_of_absent (applySets F1 c []).config.attributes "cache_size"
    (fun v => v.validateSize "cache_size" b) habs1
  have hok := setParameter_size_t_alias (applySets F1 c []).config b hthrow
  have hset : setFound (applySets F1 c []).config cacheSizeItem sb =
      setParameter_size_t (applySets F1 c []).config "cache_size" b := by
    simp [setFound, cacheSizeItem, hb]
  have hseterr : (setFound (applySets F1 c []).config cacheSizeItem sb).error = none := by
    rw [hset, hok]
  have hwhole : applySets (F1 ++ (cacheSizeItem, sb) :: F2) c [] =
      applySets F2 (setParameter_size_t (applySets F1 c []).config "cache_size" b).config
        ((applySets F1 c []).calls ++
          (setParameter_size_t (applySets F1 c []).config "cache_size" b).calls) := by
    rw [applySets_append]
    simp only [herr]
    conv => lhs; unfold applySets
    simp only [hseterr]
    rw [hset]
  rw [hwhole]
  refine ⟨?_, applySets_config_file_error F2 h2 _ _⟩
  rw [applySets_config_file_only F2 h2, hok]
  have hfind := (find_assign_alias (applySets F1 c []).config.attributes
    (fun a => { a with datatype := some DT_SIZE })
    (fun a => { a with val := .v_size b })).2.1
  have hdt := fetch_of_tagOf _ _ _ htag1
  simp only [getInteger, hfind, hdt]
  simp [val_t.get_size]

/-- C27, as stated, fails. `sampleConfig` holds `max_size` as the size 100,
with a validator that rejects 0, and no `cache_size`. The parser reports
success and marks `max_size` found with the value 0 and `cache_size` found
with the value 9. The set of `max_size`, which comes first, throws, the
alias item is never applied, and `getInteger("max_size")` afterwards returns
100, not 9. -/
theorem parse_alias_order_counterexample :
    getInteger sampleConfig "max_size" = .ok 100 ∧
    (find sampleConfig.attributes "cache_size").isNone = true ∧
    (parserBothZero "" (offeredItems [⟨"max_size", DT_SIZE⟩])).ret = 0 ∧
    (parserBothZero "" (offeredItems [⟨"max_size", DT_SIZE⟩])).marks =
      [(true, .v_size 0), (true, .v_size 9)] ∧
    (parseConfiguration sampleConfig "" parserBothZero).error = some .ValidationError ∧
    getInteger (parseConfiguration sampleConfig "" parserBothZero).config "max_size" =
      .ok 100 ∧
    getInteger (parseConfiguration sampleConfig "" parserBothZero).config "max_size" ≠
      .ok 9 := by
  decide

/-- C27 (amended). For a registry with distinct keys and assigned tags that
holds `max_size` as a size and no `cache_size`, and a parser that reports
success: the items are applied in the order of the array, the keys of the
registry in stored order, then `cache_size`, then `config_file`. When
`cache_size` is marked found with the size `b` and the sets of the found
keys of the registry throw no exception, `getInteger("max_size")`
afterwards returns `b`, whatever the string parsed and whatever was found
for `max_size`, and the call returns or throws the invariant violation.
When `config_file` is marked found, the registry and the callbacks the call
leaves are those of the other found items applied in order, and the
exception is the one of the first of them that throws, or the invariant
violation when none does. -/
theorem parse_applies_alias_after_keys (c : Configuration) (str : String)
    (sapi : String → List config_item → ParseOutcome) (config : List config_item)
    (a : value_t) (hs : sortedKeys c.attributes) (hc : configItems c.attributes = some config)
    (hret : (sapi str (offeredItems config)).ret = 0)
    (hmax : find c.attributes "max_size" = some a) (htag : a.datatype = some DT_SIZE)
    (habsent : find c.attributes "cache_size" = none) :
    config.map (fun item => item.key) = c.attributes.map Prod.fst ∧
    itemsAfterParse config (sapi str (offeredItems config)) =
      config.zip (sapi str (offeredItems config)).marks ++
        [cacheSizeItem, configFileItem].zip
          ((sapi str (offeredItems config)).marks.drop config.length) ∧
    parseConfiguration c str sapi =
      { config := (applySets (foundItems
          (itemsAfterParse config (sapi str (offeredItems config)))) c []).config,
        calls := (applySets (foundItems
          (itemsAfterParse config (sapi str (offeredItems config)))) c []).calls,
        error := (applySets (foundItems
          (itemsAfterParse config (sapi str (offeredItems config)))) c []).error,
        ret := true } ∧
    (∀ sb b, (sapi str (offeredItems config)).marks[config.length]? = some (true, sb) →
      sb.get_size = some b →
      (applySets (foundItems (config.zip (sapi str (offeredItems config)).marks)) c []).error =
        none →
      getInteger (parseConfiguration c str sapi).config "max_size" = .ok b ∧
      ((parseConfiguration c str sapi).error = none ∨
        (parseConfiguration c str sapi).error = some .InvariantViolation)) ∧
    (∀ slot, (sapi str (offeredItems config)).marks[config.length + 1]? = some (true, slot) →
      (parseConfiguration c str sapi).error =
        some (((applySets (foundItems ((config ++ [cacheSizeItem]).zip
          (sapi str (offeredItems config)).marks)) c []).error).getD .InvariantViolation) ∧
      (parseConfiguration c str sapi).config =
        (applySets (foundItems ((config ++ [cacheSizeItem]).zip
          (sapi str (offeredItems config)).marks)) c []).config ∧
      (parseConfiguration c str sapi).calls =
        (applySets (foundItems ((config ++ [cacheSizeItem]).zip
          (sapi str (offeredItems config)).marks)) c []).calls) := by
  have hp : parseConfiguration c str sapi =
      parseLoop true (itemsAfterParse config (sapi str (offeredItems config))) c [] := by
    simp [parseConfiguration, hc, hret]
  have hres : parseConfiguration c str sapi =
      { config := (applySets (foundItems
          (itemsAfterParse config (sapi str (offeredItems config)))) c []).config,
        calls := (applySets (foundItems
          (itemsAfterParse config (sapi str (offeredItems config)))) c []).calls,
        error := (applySets (foundItems
          (itemsAfterParse config (sapi str (offeredItems config)))) c []).error,
        ret := true } := by
    rw [hp, parseLoop_eq_applySets]
  have hsplit := itemsAfterParse_split config (sapi str (offeredItems config))
  have hkeys := configItems_keys c.attributes config hc
  refine ⟨hkeys, hsplit, hres, ?_, ?_⟩
  · intro sb b hfound hb herr
    have hdrop := drop_of_getElem? (sapi str (offeredItems config)).marks config.length
      (true, sb) hfound
    have hfi : foundItems (itemsAfterParse config (sapi str (offeredItems config))) =
        foundItems (config.zip (sapi str (offeredItems config)).marks) ++
          (cacheSizeItem, sb) :: foundItems ([configFileItem].zip
            ((sapi str (offeredItems config)).marks.drop (config.length + 1))) := by
      rw [hsplit, hdrop, foundItems_append]
      simp [foundItems]
    have h1 : ∀ e ∈ foundItems (config.zip (sapi str (offeredItems config)).marks),
        (e.1.key = "max_size" → e.1.datatype = DT_SIZE) ∧ e.1.key ≠ "cache_size" := by
      intro e he
      obtain ⟨x, hx, _, rfl⟩ := (mem_foundItems _ _).mp he
      have hmem := (List.of_mem_zip hx).1
      refine ⟨?_, ?_⟩
      · intro hk
        exact configItems_tag_of_find c.attributes hs "max_size" a DT_SIZE hmax htag config hc
          x.1 hmem hk
      · have hk2 : x.1.key ∈ c.attributes.map Prod.fst := by
          rw [← hkeys]
          exact List.mem_map_of_mem (fun item => item.key) hmem
        obtain ⟨q, hq, hq1⟩ := List.mem_map.mp hk2
        show x.1.key ≠ "cache_size"
        rw [← hq1]
        exact find_none_of_not_mem _ _ habsent q hq
    have h2 : ∀ e ∈ foundItems ([configFileItem].zip
        ((sapi str (offeredItems config)).marks.drop (config.length + 1))),
        e.1.datatype = DT_CONFIGFILE := by
      intro e he
      obtain ⟨x, hx, _, rfl⟩ := (mem_foundItems _ _).mp he
      have hmem := (List.of_mem_zip hx).1
      simp only [List.mem_singleton] at hmem
      show x.1.datatype = DT_CONFIGFILE
      rw [hmem]
      rfl
    have htag0 : tagOf c "max_size" = some DT_SIZE := by
      simp [tagOf, hmax, htag]
    have hlast := applySets_alias_last c _ _ sb b hb h1 h2 htag0 habsent herr
    rw [hres, hfi]
    exact hlast
  · intro slot hfound
    have hsplit2 := itemsAfterParse_config_file config (sapi str (offeredItems config)) slot
      hfound
    have hcf : foundItems [(configFileItem, true, slot)] = [(configFileItem, slot)] := by
      simp [foundItems]
    rw [hres, hsplit2, foundItems_append, applySets_append, hcf]
    cases he : (applySets (foundItems ((config ++ [cacheSizeItem]).zip
        (sapi str (offeredItems config)).marks)) c []).error with
    | some e => simp [he]
    | none => simp [applySets_config_file, he]

/-- Witness of C27 (amended): on `sampleConfig` a parser that reports success
and marks `max_size` found with the value 3 and `cache_size` found with the
value 9: the call returns and `getInteger("max_size")` returns 9. -/
theorem parse_applies_alias_after_keys_witness :
    (parseConfiguration sampleConfig "" parserBoth).error = none ∧
    (parseConfiguration sampleConfig "" parserBoth).calls =
      [.sizeValueChanged 1 "max_size" 3] ∧
    getInteger (parseConfiguration sampleConfig "" parserBoth).config "max_size" = .ok 9 :=
  have h := parse_applies_alias_after_keys sampleConfig "" parserBoth [⟨"max_size", DT_SIZE⟩]
    (fetch sampleConfig.attributes "max_size") (by simp [sortedKeys, sampleConfig]) rfl rfl rfl
    rfl rfl
  ⟨by decide, by decide, (h.2.2.2.1 (.v_size 9) 9 rfl rfl (by decide)).1⟩

/-! ## Statistics of the registries that the calls reach -/

end EpEngine
